import Mathlib

/-!
# Lakshya learning platform: watch progress and certificate eligibility

A shallow embedding of the watch-progress tracker
(`src/video-progress-tracker.js`) and of the progress and certificate
services of `FirebaseService` (`src/firebase-services.js`), followed by the
MCQ test management of `FirebaseService` and by `votePost` of
`DiscussionService` (`src/discussion-service.js`).

Conventions of the embedding.

* A Firestore collection is a list of `(document id, data)` pairs.
* Seconds, epoch milliseconds and counts are integers: they are JavaScript
  numbers with an integer value, exact in a double below `2 ^ 53`.
* A percentage `(a / b) * 100` that the code floors or prints is the double
  that JavaScript computes: the quotient is rounded to binary64 and so is the
  product (`roundBinary64`, `binary64Percent`).  A double is the rational
  number it denotes.
* The comparison `completionPercentage >= 80` and the quantity
  `Math.ceil(totalVideos * 0.8)` are taken on the exact quotient
  (`completionRatio`, `videosNeeded`); `binary64Percent_ge_eighty_iff` shows
  that the comparison on the double has the same outcome for every program of
  at most `2 ^ 50` videos.
* A number field that JavaScript would fill with `NaN` or `±Infinity`
  (a quotient by a zero duration) is `none`.
* Every store call may throw.  `Faults` says which calls throw during one
  service call and with which message; `noFaults` is the run in which every
  store call succeeds.
* Server timestamps, `Date.now()` readings and the identifiers Firestore
  generates for `add` are inputs of the call that consumes them.
-/

namespace Lakshya

/-! ## The document store -/

/-- The store calls made by the embedded functions, each of which can throw. -/
inductive StoreOp where
  | videoProgressSet
  | videoProgressGet
  | videoProgressQuery
  | userProgressQuery
  | userProgressAdd
  | userProgressUpdate
  | videosQuery
  | certificatesAdd
  deriving DecidableEq, Repr

/-- For each store call, the message of the error it throws, if it throws. -/
abbrev Faults := StoreOp → Option String

/-- The run in which no store call throws. -/
def noFaults : Faults := fun _ => none

/-- A document of the `videos` collection: the fields the embedded code reads
(`programType`, and `duration` in minutes). -/
structure VideoDoc where
  programType : String
  duration : Int
  deriving DecidableEq, Repr

/-- A document of the `videoProgress` collection, as `saveVideoProgress`
writes it. -/
structure ProgressDoc where
  userId : String
  videoId : String
  currentTime : Int
  duration : Int
  percentageWatched : Option Int
  completed : Bool
  lastWatchedAt : Int
  totalWatchTime : Int
  deriving DecidableEq, Repr

/-- A document of the `userProgress` collection: the fields
`markVideoComplete` reads and writes (an absent list field is `[]`). -/
structure UserProgressDoc where
  userId : String
  videosWatched : List String
  completedVideos : List String
  lastActivity : Int
  deriving DecidableEq, Repr

/-- A document of the `certificates` collection (`certificateData`). -/
structure CertificateDoc where
  userId : String
  userName : String
  programType : String
  issueDate : Int
  certificateId : String
  completionPercentage : Option String
  status : String
  deriving DecidableEq, Repr

/-- The collections of the document store that the embedded code touches. -/
structure Store where
  videos : List (String × VideoDoc)
  videoProgress : List (String × ProgressDoc)
  userProgress : List (String × UserProgressDoc)
  certificates : List (String × CertificateDoc)
  deriving DecidableEq, Repr

/-- The document stored under `id`, as `collection.doc(id).get()` reads it. -/
def getDoc {α : Type} (id : String) : List (String × α) → Option α
  | [] => none
  | (k, v) :: rest => if k = id then some v else getDoc id rest

/-- Writes the document `id`: `f (some old)` over an existing document,
`f none` as a new one.  This is `doc(id).set(data, \x7b merge: true \x7d)` for
a `data` that may depend on the stored fields. -/
def upsertDoc {α : Type} (id : String) (f : Option α → α) :
    List (String × α) → List (String × α)
  | [] => [(id, f none)]
  | (k, v) :: rest =>
    if k = id then (k, f (some v)) :: rest else (k, v) :: upsertDoc id f rest

/-- Replaces the data of the existing document `id` (`doc.ref.update`). -/
def updateDoc {α : Type} (id : String) (f : α → α) :
    List (String × α) → List (String × α)
  | [] => []
  | (k, v) :: rest =>
    if k = id then (k, f v) :: rest else (k, v) :: updateDoc id f rest

/-! ## JavaScript numbers -/

/-- The binary64 number nearest to `q`, ties to the even significand: with
`2 ^ e <= |q| < 2 ^ (e + 1)`, `|q|` is rounded to a multiple of `2 ^ (e - 52)`,
that is to 53 significant bits.  The exponent range is not bounded, so that
overflow to an infinity and subnormal numbers are not represented; the
quotients of the embedded code are far from both. -/
def roundBinary64 (q : ℚ) : ℚ :=
  if q = 0 then 0
  else
    let e : Int := Int.log 2 |q|
    let m : ℚ := |q| * (2 : ℚ) ^ (52 - e)
    let f : Int := ⌊m⌋
    let r : ℚ := m - f
    let n : Int :=
      if r < 1 / 2 then f
      else if 1 / 2 < r then f + 1
      else if f % 2 = 0 then f else f + 1
    (if q < 0 then -1 else 1) * (n : ℚ) / (2 : ℚ) ^ (52 - e)

/-- The double `(a / b) * 100` for doubles `a` and `b`, `b` not zero: the
quotient is rounded, then the product. -/
def binary64Percent (a b : ℚ) : ℚ :=
  roundBinary64 (roundBinary64 (a / b) * 100)

/-! ## `FirebaseService`: video progress -/

/-- The result object `\x7b success, error \x7d` of a service call. -/
structure ServiceResult where
  success : Bool
  error : Option String
  deriving DecidableEq, Repr

/-- The `progressData` argument of `saveVideoProgress`. -/
structure ProgressData where
  currentTime : Int
  duration : Int
  watchedDuration : Int
  completed : Bool
  deriving DecidableEq, Repr

/-- The document key of a progress record: the template string
`userId_videoId`. -/
def progressKey (userId videoId : String) : String :=
  userId ++ "_" ++ videoId

/-- `Math.floor((currentTime / duration) * 100)`; `none` when the duration is
zero, where JavaScript yields `NaN` or an infinity. -/
def percentageWatched (currentTime duration : Int) : Option Int :=
  if duration = 0 then none
  else some ⌊binary64Percent (currentTime : ℚ) (duration : ℚ)⌋

/-- The `data` object of `saveVideoProgress` merged over the stored document:
every field is overwritten, except `totalWatchTime`, which
`FieldValue.increment` adds to the stored value (`0` when there is none). -/
def progressMerge (userId videoId : String) (progressData : ProgressData)
    (serverTime : Int) (old : Option ProgressDoc) : ProgressDoc :=
  { userId := userId
    videoId := videoId
    currentTime := progressData.currentTime
    duration := progressData.duration
    percentageWatched :=
      percentageWatched progressData.currentTime progressData.duration
    completed := progressData.completed
    lastWatchedAt := serverTime
    totalWatchTime :=
      (match old with
        | some o => o.totalWatchTime
        | none => 0) + progressData.watchedDuration }

/-- `FirebaseService.saveVideoProgress(userId, videoId, progressData)`. -/
def saveVideoProgress (fl : Faults) (serverTime : Int) (db : Store)
    (userId videoId : String) (progressData : ProgressData) :
    Store × ServiceResult :=
  match fl StoreOp.videoProgressSet with
  | some msg => (db, { success := false, error := some msg })
  | none =>
    ({ db with
        videoProgress :=
          upsertDoc (progressKey userId videoId)
            (progressMerge userId videoId progressData serverTime)
            db.videoProgress },
      { success := true, error := none })

/-- The result object of `getVideoProgress`. -/
structure ProgressResult where
  success : Bool
  progress : Option ProgressDoc
  error : Option String
  deriving DecidableEq, Repr

/-- `FirebaseService.getVideoProgress(userId, videoId)`. -/
def getVideoProgress (fl : Faults) (db : Store) (userId videoId : String) :
    ProgressResult :=
  match fl StoreOp.videoProgressGet with
  | some msg => { success := false, progress := none, error := some msg }
  | none =>
    { success := true
      progress := getDoc (progressKey userId videoId) db.videoProgress
      error := none }

/-- The `videoData` argument of `markVideoComplete`. -/
structure VideoData where
  duration : Int
  deriving DecidableEq, Repr

/-- `list.includes(x) || list.push(x)`: appends `x` unless it is present. -/
def pushIfAbsent (x : String) (l : List String) : List String :=
  if x ∈ l then l else l ++ [x]

/-- `FirebaseService.markVideoComplete(userId, videoId, videoData)`.  The
result of the inner `saveVideoProgress` is not inspected. -/
def markVideoComplete (fl : Faults) (serverTime : Int) (autoId : String)
    (db : Store) (userId videoId : String) (videoData : VideoData) :
    Store × ServiceResult :=
  let db1 := (saveVideoProgress fl serverTime db userId videoId
    { currentTime := videoData.duration
      duration := videoData.duration
      completed := true
      watchedDuration := 0 }).1
  match fl StoreOp.userProgressQuery with
  | some msg => (db1, { success := false, error := some msg })
  | none =>
    match db1.userProgress.find? (fun p => p.2.userId = userId) with
    | none =>
      match fl StoreOp.userProgressAdd with
      | some msg => (db1, { success := false, error := some msg })
      | none =>
        ({ db1 with
            userProgress := db1.userProgress ++
              [(autoId,
                { userId := userId
                  videosWatched := [videoId]
                  completedVideos := [videoId]
                  lastActivity := serverTime })] },
          { success := true, error := none })
    | some doc =>
      match fl StoreOp.userProgressUpdate with
      | some msg => (db1, { success := false, error := some msg })
      | none =>
        ({ db1 with
            userProgress :=
              updateDoc doc.1
                (fun cur =>
                  { cur with
                    videosWatched := pushIfAbsent videoId doc.2.videosWatched
                    completedVideos :=
                      pushIfAbsent videoId doc.2.completedVideos
                    lastActivity := serverTime })
                db1.userProgress },
          { success := true, error := none })

/-! ## `FirebaseService`: certificates -/

/-- The result object of `checkCertificateEligibility`; a field the returned
object does not have is `none`. -/
structure EligibilityResult where
  success : Bool
  eligible : Option Bool
  completionPercentage : Option String
  completedCount : Option Nat
  totalVideos : Option Nat
  reason : Option String
  error : Option String
  deriving DecidableEq, Repr

/-- Two decimal digits, zero padded. -/
def pad2 (n : Nat) : String :=
  if n < 10 then "0" ++ toString n else toString n

/-- The integer `n` that `x.toFixed(2)` prints as `n / 100` for the double
`x`: the one nearest to the exact value of `|x| * 100`, the larger one on a
tie. -/
def toFixedHundredths (x : ℚ) : Nat :=
  ⌊|x| * 100 + 1 / 2⌋₊

/-- Prints a number of hundredths with two decimals. -/
def renderHundredths (n : Nat) : String :=
  toString (n / 100) ++ "." ++ pad2 (n % 100)

/-- `x.toFixed(2)` (for `|x| < 1e21`). -/
def toFixed2 (x : ℚ) : String :=
  (if x < 0 then "-" else "") ++ renderHundredths (toFixedHundredths x)

/-- The `videos` documents of a program: the snapshot of
`where('programType', '==', programType)`. -/
def videosOfProgram (db : Store) (programType : String) :
    List (String × VideoDoc) :=
  db.videos.filter (fun p => decide (p.2.programType = programType))

/-- The `videoId` fields of the snapshot of
`where('userId', '==', userId).where('completed', '==', true)`. -/
def completedVideoIds (db : Store) (userId : String) : List String :=
  (db.videoProgress.filter
    (fun p => decide (p.2.userId = userId) && p.2.completed)).map
    (fun p => p.2.videoId)

/-- The counter `completedCount`: one increment for each document of the
program snapshot whose id is among the completed video ids. -/
def countCompleted (videosSnapshot : List (String × VideoDoc))
    (completed : List String) : Nat :=
  (videosSnapshot.filter (fun p => decide (p.1 ∈ completed))).length

/-- The percentage `(completedCount / totalVideos) * 100` in exact
arithmetic. -/
def completionRatio (completedCount totalVideos : Nat) : ℚ :=
  ((completedCount : ℚ) / (totalVideos : ℚ)) * 100

/-- The double `completionPercentage`:
`(completedCount / totalVideos) * 100` as JavaScript computes it. -/
def completionPercentageBinary64 (completedCount totalVideos : Nat) : ℚ :=
  binary64Percent (completedCount : ℚ) (totalVideos : ℚ)

/-- The number in the reason of a result that is not eligible:
`Math.ceil(totalVideos * 0.8) - completedCount`. -/
def videosNeeded (completedCount totalVideos : Nat) : Int :=
  ⌈(totalVideos : ℚ) * 0.8⌉ - (completedCount : Int)

/-- `FirebaseService.checkCertificateEligibility(userId, programType)`.  It
only reads the store.  The field `completionPercentage` is `toFixed(2)` of the
double; `eligible` and the reason are computed on the exact quotient. -/
def checkCertificateEligibility (fl : Faults) (db : Store)
    (userId programType : String) : EligibilityResult :=
  match fl StoreOp.videosQuery with
  | some msg =>
    { success := false, eligible := none, completionPercentage := none
      completedCount := none, totalVideos := none, reason := none
      error := some msg }
  | none =>
    let videosSnapshot := videosOfProgram db programType
    let totalVideos := videosSnapshot.length
    if totalVideos = 0 then
      { success := true, eligible := some false, completionPercentage := none
        completedCount := none, totalVideos := none
        reason := some "No videos available", error := none }
    else
      match fl StoreOp.videoProgressQuery with
      | some msg =>
        { success := false, eligible := none, completionPercentage := none
          completedCount := none, totalVideos := none, reason := none
          error := some msg }
      | none =>
        let completedCount :=
          countCompleted videosSnapshot (completedVideoIds db userId)
        let completionPercentage := completionRatio completedCount totalVideos
        let eligible : Bool := decide (completionPercentage ≥ 80)
        { success := true
          eligible := some eligible
          completionPercentage := some
            (toFixed2 (completionPercentageBinary64 completedCount totalVideos))
          completedCount := some completedCount
          totalVideos := some totalVideos
          reason := some
            (if eligible then "Meets criteria"
              else "Need " ++ toString (videosNeeded completedCount totalVideos)
                ++ " more videos")
          error := none }

/-- The result object of `generateCertificate`. -/
structure CertificateResult where
  success : Bool
  certificateId : Option String
  certificate : Option CertificateDoc
  error : Option String
  deriving DecidableEq, Repr

/-- `FirebaseService.generateCertificate(userId, programType, userName)`;
`now` is the `Date.now()` reading and `autoId` the id of the added
document. -/
def generateCertificate (fl : Faults) (now serverTime : Int) (autoId : String)
    (db : Store) (userId programType userName : String) :
    Store × CertificateResult :=
  let eligibility := checkCertificateEligibility fl db userId programType
  if !eligibility.success || !(eligibility.eligible.getD false) then
    (db, { success := false, certificateId := none, certificate := none
           error := some "Not eligible for certificate" })
  else
    let certificateData : CertificateDoc :=
      { userId := userId
        userName := userName
        programType := programType
        issueDate := serverTime
        certificateId :=
          "LAKSHYA-" ++ programType.toUpper ++ "-" ++ toString now
        completionPercentage := eligibility.completionPercentage
        status := "issued" }
    match fl StoreOp.certificatesAdd with
    | some msg =>
      (db, { success := false, certificateId := none, certificate := none
             error := some msg })
    | none =>
      ({ db with certificates := db.certificates ++ [(autoId, certificateData)] },
        { success := true, certificateId := some autoId
          certificate := some certificateData, error := none })

/-! ## The tracker of `video-progress-tracker.js` -/

/-- The `video` object handed to `playVideoWithTracking`. -/
structure Video where
  id : String
  programType : String
  duration : Int
  deriving DecidableEq, Repr

/-- What the tracker shows or logs. -/
inductive UiEffect where
  | updateProgressUI (videoId : String) (percentage : Option Int)
  | showCompletionMessage (videoId : String)
  | showCertificateNotification (programType : String)
      (eligibilityData : EligibilityResult)
  | consoleError (context : String)
  deriving DecidableEq, Repr

/-- The arguments captured by the callback of one `setInterval`. -/
structure TimerArgs where
  videoId : String
  userId : String
  videoDuration : Int
  deriving DecidableEq, Repr

/-- The module-level variables of the tracker. -/
structure Tracker where
  progressTrackingInterval : Option Nat
  lastSavedTime : Int
  startWatchTime : Int
  currentVideoData : Option Video
  deriving DecidableEq, Repr

/-- The client: the store, the tracker variables, the active interval timers
of the page (handle and captured arguments), the next timer handle and the
log of what was shown. -/
structure World where
  db : Store
  tracker : Tracker
  timers : List (Nat × TimerArgs)
  nextTimerId : Nat
  ui : List UiEffect
  deriving DecidableEq, Repr

/-- What one run of the interval callback takes from outside: the store
faults, the second `Date.now()` reading (the one that resets
`startWatchTime`), the server timestamp and the id of an added document. -/
structure TickEnv where
  faults : Faults
  nowAfter : Int
  serverTime : Int
  autoId : String

/-- `clearInterval(handle)`; a `null` handle clears nothing. -/
def clearInterval (handle : Option Nat) (timers : List (Nat × TimerArgs)) :
    List (Nat × TimerArgs) :=
  match handle with
  | none => timers
  | some id => timers.filter (fun t => decide (t.1 ≠ id))

/-- The arguments of the active timer `id`, if it is active. -/
def activeTimer (id : Nat) : List (Nat × TimerArgs) → Option TimerArgs
  | [] => none
  | (k, a) :: rest => if k = id then some a else activeTimer id rest

/-- `Math.min(Math.floor((currentTime / videoDuration) * 100), 100)`; with a
zero duration the quotient is `Infinity` (minimum `100`), `NaN` or
`-Infinity` (`none`). -/
def uiPercentage (currentTime videoDuration : Int) : Option Int :=
  if videoDuration = 0 then (if 0 < currentTime then some 100 else none)
  else some (min ⌊binary64Percent (currentTime : ℚ) (videoDuration : ℚ)⌋ 100)

/-- `checkAndShowCertificateEligibility(userId, programType)`: the
notification it shows, if any. -/
def checkAndShowCertificateEligibility (fl : Faults) (db : Store)
    (userId programType : String) : List UiEffect :=
  let eligibility := checkCertificateEligibility fl db userId programType
  if eligibility.success && eligibility.eligible.getD false then
    [UiEffect.showCertificateNotification programType eligibility]
  else []

/-- The body of the interval callback of `startVideoProgressTracking` once
`elapsedSeconds` has been computed. -/
def trackingTick (args : TimerArgs) (elapsedSeconds : Int) (env : TickEnv)
    (w : World) : World :=
  let currentTime := w.tracker.lastSavedTime + elapsedSeconds
  if currentTime > args.videoDuration then
    let db1 := (markVideoComplete env.faults env.serverTime env.autoId w.db
      args.userId args.videoId { duration := args.videoDuration }).1
    let timers1 := clearInterval w.tracker.progressTrackingInterval w.timers
    let ui1 := w.ui ++
      [UiEffect.updateProgressUI args.videoId (some 100),
        UiEffect.showCompletionMessage args.videoId]
    match w.tracker.currentVideoData with
    | none =>
      { w with
        db := db1, timers := timers1
        ui := ui1 ++ [UiEffect.consoleError "Error tracking video progress:"] }
    | some video =>
      { w with
        db := db1, timers := timers1
        ui := ui1 ++ checkAndShowCertificateEligibility env.faults db1
          args.userId video.programType }
  else
    let db1 := (saveVideoProgress env.faults env.serverTime w.db
      args.userId args.videoId
      { currentTime := currentTime
        duration := args.videoDuration
        watchedDuration := elapsedSeconds
        completed := false }).1
    { w with
      db := db1
      ui := w.ui ++
        [UiEffect.updateProgressUI args.videoId
          (uiPercentage currentTime args.videoDuration)]
      tracker :=
        { w.tracker with
          lastSavedTime := currentTime
          startWatchTime := env.nowAfter } }

/-- The interval callback: `elapsedSeconds` is
`Math.floor((Date.now() - startWatchTime) / 1000)`. -/
def intervalCallback (args : TimerArgs) (now : Int) (env : TickEnv)
    (w : World) : World :=
  trackingTick args ((now - w.tracker.startWatchTime) / 1000) env w

/-- The timer `id` comes due at clock reading `now`: its callback runs if the
timer is still active. -/
def fireTimer (id : Nat) (now : Int) (env : TickEnv) (w : World) : World :=
  match activeTimer id w.timers with
  | none => w
  | some args => intervalCallback args now env w

/-- The timer `id` comes due at a clock reading for which the callback
computes `elapsedSeconds`. -/
def fireTimerElapsed (id : Nat) (elapsedSeconds : Int) (env : TickEnv)
    (w : World) : World :=
  match activeTimer id w.timers with
  | none => w
  | some args => trackingTick args elapsedSeconds env w

/-- A sequence of ticks of the timer `id`, each given by its elapsed seconds
and its environment. -/
def runTicks (id : Nat) : List (Int × TickEnv) → World → World
  | [], w => w
  | t :: rest, w => runTicks id rest (fireTimerElapsed id t.1 t.2 w)

/-- `startVideoProgressTracking(videoId, userId, videoDuration)`, called at
clock reading `now`. -/
def startVideoProgressTracking (now : Int) (w : World)
    (videoId userId : String) (videoDuration : Int) : World :=
  { w with
    timers := clearInterval w.tracker.progressTrackingInterval w.timers ++
      [(w.nextTimerId,
        { videoId := videoId, userId := userId, videoDuration := videoDuration })]
    nextTimerId := w.nextTimerId + 1
    tracker :=
      { w.tracker with
        startWatchTime := now
        progressTrackingInterval := some w.nextTimerId } }

/-- The tracking part of `playVideoWithTracking(video)` for the logged-in
user `userId`: it seeds `lastSavedTime` from the saved progress and starts
the tracking. -/
def playVideoWithTracking (fl : Faults) (now : Int) (w : World)
    (userId : String) (video : Video) : World :=
  let progressResult := getVideoProgress fl w.db userId video.id
  let savedProgress : Option ProgressDoc :=
    if progressResult.success then progressResult.progress else none
  let w1 : World :=
    { w with
      tracker :=
        { w.tracker with
          currentVideoData := some video
          lastSavedTime :=
            match savedProgress with
            | some p => p.currentTime
            | none => 0 } }
  startVideoProgressTracking now w1 video.id userId (video.duration * 60)

/-- The tracking part of `closeVideoModalWithTracking()`. -/
def closeVideoModalWithTracking (w : World) : World :=
  { w with
    timers := clearInterval w.tracker.progressTrackingInterval w.timers
    tracker :=
      { progressTrackingInterval := none
        lastSavedTime := 0
        startWatchTime := 0
        currentVideoData := none } }

/-- A client with an empty tracker over the store `db`. -/
def freshWorld (db : Store) : World :=
  { db := db
    tracker :=
      { progressTrackingInterval := none
        lastSavedTime := 0
        startWatchTime := 0
        currentVideoData := none }
    timers := []
    nextTimerId := 1
    ui := [] }

/-! ## Sample stores and sessions -/

/-- A tick environment in which every store call succeeds. -/
def quietEnv : TickEnv :=
  { faults := noFaults, nowAfter := 0, serverTime := 0, autoId := "auto" }

/-- The store with no documents. -/
def emptyStore : Store :=
  { videos := [], videoProgress := [], userProgress := [], certificates := [] }

/-- A ten-minute video of the program `jee`. -/
def sampleVideo : Video := { id := "v", programType := "jee", duration := 10 }

/-- The timer arguments of a session on `sampleVideo` for the user `u`. -/
def sampleArgs : TimerArgs :=
  { videoId := "v", userId := "u", videoDuration := 600 }

/-- A store in which the user `u` left `sampleVideo` at 585 seconds. -/
def savedAt585 : Store :=
  { emptyStore with
    videoProgress :=
      [(progressKey "u" "v",
        { userId := "u", videoId := "v", currentTime := 585, duration := 600
          percentageWatched := some 97, completed := false
          lastWatchedAt := 0, totalWatchTime := 585 })] }

/-- The user `u` opens `sampleVideo` with no saved progress. -/
def freshSession : World :=
  playVideoWithTracking noFaults 0 (freshWorld emptyStore) "u" sampleVideo

/-- The user `u` opens `sampleVideo` again from 585 seconds. -/
def resumedSession : World :=
  playVideoWithTracking noFaults 0 (freshWorld savedAt585) "u" sampleVideo

/-- Five videos of the program `jee`, of which the user `u` has completed the
first `k`. -/
def fiveVideos (k : Nat) : Store :=
  { videos :=
      [("v1", { programType := "jee", duration := 10 }),
        ("v2", { programType := "jee", duration := 10 }),
        ("v3", { programType := "jee", duration := 10 }),
        ("v4", { programType := "jee", duration := 10 }),
        ("v5", { programType := "jee", duration := 10 })]
    videoProgress :=
      (["v1", "v2", "v3", "v4", "v5"].take k).map (fun v =>
        (progressKey "u" v,
          { userId := "u", videoId := v, currentTime := 600, duration := 600
            percentageWatched := some 100, completed := true
            lastWatchedAt := 0, totalWatchTime := 600 }))
    userProgress := []
    certificates := [] }

/-- The faults of a run in which only the query on `videoProgress` throws. -/
def progressQueryDown : Faults :=
  fun op => if op = StoreOp.videoProgressQuery then some "unavailable" else none

/-- The store `fiveVideos 4` after the user `u` has started to watch `v1`
again: the tick of the new session saves `completed = false`. -/
def rewatched : Store :=
  (saveVideoProgress noFaults 0 (fiveVideos 4) "u" "v1"
    { currentTime := 15, duration := 600, watchedDuration := 15
      completed := false }).1

/-- The document id of the `i`-th video of `programOf`: `i + 1` letters. -/
def videoName (i : Nat) : String :=
  String.mk (List.replicate (i + 1) 'v')

/-- A program `jee` of `total` videos, of which the user `u` has completed the
first `done`. -/
def programOf (total done : Nat) : Store :=
  { videos :=
      (List.range total).map (fun i =>
        (videoName i, { programType := "jee", duration := 10 }))
    videoProgress :=
      (List.range done).map (fun i =>
        (progressKey "u" (videoName i),
          { userId := "u", videoId := videoName i, currentTime := 600
            duration := 600, percentageWatched := some 100, completed := true
            lastWatchedAt := 0, totalWatchTime := 600 }))
    userProgress := []
    certificates := [] }

/-- A program of 4004 videos of which the user `u` has completed 3203. -/
def largeProgram : Store := programOf 4004 3203

/-- Stated from the specification: the number of videos of the program for
which the user has a progress record with `completed = true`. -/
def specCompletedCount (db : Store) (userId programType : String) : Nat :=
  (db.videos.filter (fun v =>
    decide (v.2.programType = programType) &&
      db.videoProgress.any (fun r =>
        decide (r.2.userId = userId) && decide (r.2.videoId = v.1) &&
          r.2.completed))).length

/-! ## Further definitions for the statements -/

/-- The number that a list of decimal digit characters denotes. -/
def digitsValue (ds : List Char) : Nat :=
  ds.foldl (fun acc c => 10 * acc + (c.toNat - 48)) 0

/-- The `totalWatchTime` stored under the key `key` (`0` when there is no
record). -/
def storedWatchTime (key : String) (db : Store) : Int :=
  match getDoc key db.videoProgress with
  | some r => r.totalWatchTime
  | none => 0

/-- How many times the completion message has been shown. -/
def completionMessages (ui : List UiEffect) : Nat :=
  (ui.filter (fun e =>
    match e with
    | UiEffect.showCompletionMessage _ => true
    | _ => false)).length

/-- The faults of a run in which only the write of a progress record throws. -/
def progressSetDown : Faults :=
  fun op => if op = StoreOp.videoProgressSet then some "unavailable" else none

/-- A tick environment in which the write of the progress record throws. -/
def offlineEnv : TickEnv :=
  { faults := progressSetDown, nowAfter := 0, serverTime := 0, autoId := "auto" }

/-- A video whose duration field is zero. -/
def zeroVideo : Video := { id := "z", programType := "jee", duration := 0 }

/-- The timer arguments of a session on `zeroVideo` for the user `u`. -/
def zeroArgs : TimerArgs :=
  { videoId := "z", userId := "u", videoDuration := 0 }

/-- The user `u` opens `zeroVideo`. -/
def zeroSession : World :=
  playVideoWithTracking noFaults 0 (freshWorld emptyStore) "u" zeroVideo

/-- The store `fiveVideos 4` in which the user `w` too has completed the first
four videos. -/
def twoUsers : Store :=
  { fiveVideos 4 with
    videoProgress := (fiveVideos 4).videoProgress ++
      (["v1", "v2", "v3", "v4"].map (fun v =>
        (progressKey "w" v,
          { userId := "w", videoId := v, currentTime := 600, duration := 600
            percentageWatched := some 100, completed := true
            lastWatchedAt := 0, totalWatchTime := 600 }))) }

/-- The query on `videos` of `checkCertificateEligibility` as a call on the
store: the store after the call, and the snapshot read or the message of the
error thrown.  A `get()` writes nothing. -/
def getProgramVideos (fl : Faults) (db : Store) (programType : String) :
    Store × Except String (List (String × VideoDoc)) :=
  match fl StoreOp.videosQuery with
  | some msg => (db, Except.error msg)
  | none => (db, Except.ok (videosOfProgram db programType))

/-- The query on `videoProgress` of `checkCertificateEligibility` as a call on
the store: the store after the call, and the completed video ids read or the
message of the error thrown. -/
def getCompletedVideoIds (fl : Faults) (db : Store) (userId : String) :
    Store × Except String (List String) :=
  match fl StoreOp.videoProgressQuery with
  | some msg => (db, Except.error msg)
  | none => (db, Except.ok (completedVideoIds db userId))

/-- `FirebaseService.checkCertificateEligibility(userId, programType)` with
the store threaded through its two queries: the store after the call and the
result object. -/
def checkCertificateEligibilityCall (fl : Faults) (db : Store)
    (userId programType : String) : Store × EligibilityResult :=
  match getProgramVideos fl db programType with
  | (db1, Except.error msg) =>
    (db1,
      { success := false, eligible := none, completionPercentage := none
        completedCount := none, totalVideos := none, reason := none
        error := some msg })
  | (db1, Except.ok videosSnapshot) =>
    let totalVideos := videosSnapshot.length
    if totalVideos = 0 then
      (db1,
        { success := true, eligible := some false, completionPercentage := none
          completedCount := none, totalVideos := none
          reason := some "No videos available", error := none })
    else
      match getCompletedVideoIds fl db1 userId with
      | (db2, Except.error msg) =>
        (db2,
          { success := false, eligible := none, completionPercentage := none
            completedCount := none, totalVideos := none, reason := none
            error := some msg })
      | (db2, Except.ok completed) =>
        let completedCount := countCompleted videosSnapshot completed
        let completionPercentage := completionRatio completedCount totalVideos
        let eligible : Bool := decide (completionPercentage ≥ 80)
        (db2,
          { success := true
            eligible := some eligible
            completionPercentage := some
              (toFixed2 (completionPercentageBinary64 completedCount totalVideos))
            completedCount := some completedCount
            totalVideos := some totalVideos
            reason := some
              (if eligible then "Meets criteria"
                else "Need " ++ toString (videosNeeded completedCount totalVideos)
                  ++ " more videos")
            error := none })

/-- The sum of the elapsed seconds of a list of ticks. -/
def elapsedTotal (ticks : List (Int × TickEnv)) : Int :=
  (ticks.map (fun t => t.1)).sum

/-- Whether every tick of the list leaves the running `currentTime`, which
starts at `carry`, within the duration `D`, so that no tick of the list takes
the completion branch. -/
def withinDuration (carry D : Int) : List (Int × TickEnv) → Bool
  | [] => true
  | t :: rest => decide (carry + t.1 ≤ D) && withinDuration (carry + t.1) D rest

/-- A progress record that is completed stands at its duration:
`currentTime` does not exceed `duration`, it equals it, and
`percentageWatched` is 100. -/
abbrev completedWithinDuration (r : ProgressDoc) : Prop :=
  r.completed = true →
    r.currentTime ≤ r.duration ∧ r.currentTime = r.duration ∧
      r.percentageWatched = some 100

/-! ## `FirebaseService`: MCQ test management -/

/-- A question of an MCQ test, as the admin dashboard builds it. -/
structure Question where
  question : String
  options : List String
  correctAnswer : Int
  marks : Int
  deriving DecidableEq, Repr

/-- A document of the `mcqTests` collection.  `timeLimit` and `passingScore`
hold the value of `parseInt` (`none` for `NaN`); `updatedAt` is absent until
the first update. -/
structure McqTestDoc where
  programType : String
  title : String
  description : String
  questions : List Question
  totalQuestions : Nat
  timeLimit : Option Int
  passingScore : Option Int
  createdAt : Int
  createdBy : String
  attempts : Nat
  averageScore : Int
  updatedAt : Option Int
  deriving DecidableEq, Repr

/-- The store calls of the test management functions. -/
inductive TestStoreOp where
  | get
  | add
  | update
  deriving DecidableEq, Repr

/-- For each store call on `mcqTests`, the message of the error it throws, if
it throws. -/
abbrev TestFaults := TestStoreOp → Option String

/-- The run in which no store call on `mcqTests` throws. -/
def noTestFaults : TestFaults := fun _ => none

/-- The `testData` argument of `createMCQTest`; a field that is `undefined` is
`none`, and `timeLimit` stands for `parseInt(testData.timeLimit)`. -/
structure TestData where
  programType : String
  title : String
  description : String
  questions : Option (List Question)
  timeLimit : Option Int
  passingScore : Option Int
  deriving DecidableEq, Repr

/-- The `testData` argument of `updateMCQTest`: the fields of the document that
the payload carries (`none` for a field it does not have). -/
structure TestUpdate where
  programType : Option String
  title : Option String
  description : Option String
  questions : Option (List Question)
  totalQuestions : Option Nat
  timeLimit : Option Int
  passingScore : Option Int
  deriving DecidableEq, Repr

/-- The result object of the test management functions; a field the returned
object does not have is `none`. -/
structure TestResult where
  success : Bool
  id : Option String
  totalQuestions : Option Nat
  error : Option String
  deriving DecidableEq, Repr

/-- The failure result with the message `msg`. -/
def testFailure (msg : String) : TestResult :=
  { success := false, id := none, totalQuestions := none, error := some msg }

/-- `parseInt(testData.passingScore || 40)`: an absent or zero score is 40. -/
def passingScoreOf (passingScore : Option Int) : Option Int :=
  match passingScore with
  | none => some 40
  | some n => if n = 0 then some 40 else some n

/-- `FirebaseService.createMCQTest(testData)`; `currentUser` is
`auth.currentUser.uid`, `none` when nobody is signed in, in which case reading
the uid throws. -/
def createMCQTest (fl : TestFaults) (serverTime : Int) (autoId : String)
    (currentUser : Option String) (tests : List (String × McqTestDoc))
    (testData : TestData) : List (String × McqTestDoc) × TestResult :=
  match currentUser with
  | none => (tests, testFailure "Cannot read properties of null (reading 'uid')")
  | some uid =>
    let data : McqTestDoc :=
      { programType := testData.programType
        title := testData.title
        description := testData.description
        questions :=
          match testData.questions with
          | some qs => qs
          | none => []
        totalQuestions :=
          match testData.questions with
          | some qs => qs.length
          | none => 0
        timeLimit := testData.timeLimit
        passingScore := passingScoreOf testData.passingScore
        createdAt := serverTime
        createdBy := uid
        attempts := 0
        averageScore := 0
        updatedAt := none }
    match fl TestStoreOp.add with
    | some msg => (tests, testFailure msg)
    | none =>
      (tests ++ [(autoId, data)],
        { success := true, id := some autoId, totalQuestions := none
          error := none })

/-- The fields of the payload of `updateMCQTest` written over the document,
then `totalQuestions` and `updatedAt` as the function sets them. -/
def applyTestUpdate (testData : TestUpdate) (serverTime : Int)
    (doc : McqTestDoc) : McqTestDoc :=
  { doc with
    programType := testData.programType.getD doc.programType
    title := testData.title.getD doc.title
    description := testData.description.getD doc.description
    questions := testData.questions.getD doc.questions
    timeLimit :=
      match testData.timeLimit with
      | some t => some t
      | none => doc.timeLimit
    passingScore :=
      match testData.passingScore with
      | some p => some p
      | none => doc.passingScore
    totalQuestions :=
      match testData.questions with
      | some qs => qs.length
      | none => 0
    updatedAt := some serverTime }

/-- `FirebaseService.updateMCQTest(testId, testData)`; `update` throws on a
document that does not exist. -/
def updateMCQTest (fl : TestFaults) (serverTime : Int)
    (tests : List (String × McqTestDoc)) (testId : String)
    (testData : TestUpdate) : List (String × McqTestDoc) × TestResult :=
  match fl TestStoreOp.update with
  | some msg => (tests, testFailure msg)
  | none =>
    match getDoc testId tests with
    | none => (tests, testFailure "No document to update")
    | some _ =>
      (updateDoc testId (applyTestUpdate testData serverTime) tests,
        { success := true, id := none, totalQuestions := none, error := none })

/-- `FirebaseService.addQuestionToTest(testId, question)`. -/
def addQuestionToTest (fl : TestFaults) (serverTime : Int)
    (tests : List (String × McqTestDoc)) (testId : String)
    (question : Question) : List (String × McqTestDoc) × TestResult :=
  match fl TestStoreOp.get with
  | some msg => (tests, testFailure msg)
  | none =>
    match getDoc testId tests with
    | none => (tests, testFailure "Test not found")
    | some testDoc =>
      let currentQuestions := testDoc.questions ++ [question]
      match fl TestStoreOp.update with
      | some msg => (tests, testFailure msg)
      | none =>
        (updateDoc testId
            (fun doc =>
              { doc with
                questions := currentQuestions
                totalQuestions := currentQuestions.length
                updatedAt := some serverTime })
            tests,
          { success := true, id := none
            totalQuestions := some currentQuestions.length, error := none })

/-- `FirebaseService.updateQuestionInTest(testId, questionIndex,
updatedQuestion)`. -/
def updateQuestionInTest (fl : TestFaults) (serverTime : Int)
    (tests : List (String × McqTestDoc)) (testId : String)
    (questionIndex : Int) (updatedQuestion : Question) :
    List (String × McqTestDoc) × TestResult :=
  match fl TestStoreOp.get with
  | some msg => (tests, testFailure msg)
  | none =>
    match getDoc testId tests with
    | none => (tests, testFailure "Test not found")
    | some testDoc =>
      let questions := testDoc.questions
      if questionIndex < 0 ∨ questionIndex ≥ questions.length then
        (tests, testFailure "Invalid question index")
      else
        let questions1 := questions.set questionIndex.toNat updatedQuestion
        match fl TestStoreOp.update with
        | some msg => (tests, testFailure msg)
        | none =>
          (updateDoc testId
              (fun doc =>
                { doc with questions := questions1, updatedAt := some serverTime })
              tests,
            { success := true, id := none, totalQuestions := none
              error := none })

/-- `FirebaseService.deleteQuestionFromTest(testId, questionIndex)`. -/
def deleteQuestionFromTest (fl : TestFaults) (serverTime : Int)
    (tests : List (String × McqTestDoc)) (testId : String)
    (questionIndex : Int) : List (String × McqTestDoc) × TestResult :=
  match fl TestStoreOp.get with
  | some msg => (tests, testFailure msg)
  | none =>
    match getDoc testId tests with
    | none => (tests, testFailure "Test not found")
    | some testDoc =>
      let questions := testDoc.questions
      if questionIndex < 0 ∨ questionIndex ≥ questions.length then
        (tests, testFailure "Invalid question index")
      else
        let questions1 := questions.eraseIdx questionIndex.toNat
        match fl TestStoreOp.update with
        | some msg => (tests, testFailure msg)
        | none =>
          (updateDoc testId
              (fun doc =>
                { doc with
                  questions := questions1
                  totalQuestions := questions1.length
                  updatedAt := some serverTime })
              tests,
            { success := true, id := none
              totalQuestions := some questions1.length, error := none })

/-! ## `DiscussionService`: votes on forum posts -/

/-- The `voteType` of a vote: `'up'` or `'down'`. -/
inductive VoteType where
  | up
  | down
  deriving DecidableEq, Repr

/-- A document of the `votes` subcollection of a post, keyed by the user id. -/
structure VoteDoc where
  voteType : VoteType
  timestamp : Int
  deriving DecidableEq, Repr

/-- A document of the `forumPosts` collection with its `votes` subcollection:
the fields `votePost` reads and writes. -/
structure ForumPost where
  upvotes : Int
  downvotes : Int
  votes : List (String × VoteDoc)
  deriving DecidableEq, Repr

/-- The store calls of `votePost`. -/
inductive ForumStoreOp where
  | postGet
  | voteGet
  | voteDelete
  | voteSet
  | postUpdate
  deriving DecidableEq, Repr

/-- For each store call of `votePost`, the message of the error it throws, if
it throws. -/
abbrev ForumFaults := ForumStoreOp → Option String

/-- The run in which no store call of `votePost` throws. -/
def noForumFaults : ForumFaults := fun _ => none

/-- Deletes the document `id` (`doc(id).delete()`). -/
def deleteDoc {α : Type} (id : String) (c : List (String × α)) :
    List (String × α) :=
  c.filter (fun p => decide (p.1 ≠ id))

/-- The last step of `votePost`: when `voteChange` is not zero, the counters of
the post are incremented, `upvotes` by `voteChange` for an `'up'` vote and
`downvotes` by `voteChange` for a `'down'` vote. -/
def updateVoteCounts (fl : ForumFaults) (posts : List (String × ForumPost))
    (postId : String) (voteType : VoteType) (voteChange : Int) :
    List (String × ForumPost) × ServiceResult :=
  if voteChange ≠ 0 then
    match fl ForumStoreOp.postUpdate with
    | some msg => (posts, { success := false, error := some msg })
    | none =>
      (updateDoc postId
          (fun p =>
            { p with
              upvotes := p.upvotes +
                (if voteType = VoteType.up then voteChange else 0)
              downvotes := p.downvotes +
                (if voteType = VoteType.down then voteChange else 0) })
          posts,
        { success := true, error := none })
  else (posts, { success := true, error := none })

/-- The posts after `userVotesRef.set` has written the vote of the user. -/
def setVote (posts : List (String × ForumPost)) (postId userId : String)
    (voteType : VoteType) (serverTime : Int) : List (String × ForumPost) :=
  updateDoc postId
    (fun p =>
      { p with
        votes :=
          upsertDoc userId
            (fun _ => { voteType := voteType, timestamp := serverTime })
            p.votes })
    posts

/-- The posts after `userVotesRef.delete()` has removed the vote of the
user. -/
def removeVote (posts : List (String × ForumPost)) (postId userId : String) :
    List (String × ForumPost) :=
  updateDoc postId (fun p => { p with votes := deleteDoc userId p.votes }) posts

/-- `DiscussionService.votePost(postId, userId, voteType)`. -/
def votePost (fl : ForumFaults) (serverTime : Int)
    (posts : List (String × ForumPost)) (postId userId : String)
    (voteType : VoteType) : List (String × ForumPost) × ServiceResult :=
  match fl ForumStoreOp.postGet with
  | some msg => (posts, { success := false, error := some msg })
  | none =>
    match getDoc postId posts with
    | none => (posts, { success := false, error := some "Post not found" })
    | some postDoc =>
      match fl ForumStoreOp.voteGet with
      | some msg => (posts, { success := false, error := some msg })
      | none =>
        match getDoc userId postDoc.votes with
        | some voteDoc =>
          if voteDoc.voteType = voteType then
            match fl ForumStoreOp.voteDelete with
            | some msg => (posts, { success := false, error := some msg })
            | none =>
              updateVoteCounts fl (removeVote posts postId userId) postId voteType
                (if voteType = VoteType.up then -1 else 1)
          else
            match fl ForumStoreOp.voteSet with
            | some msg => (posts, { success := false, error := some msg })
            | none =>
              updateVoteCounts fl (setVote posts postId userId voteType serverTime)
                postId voteType (if voteType = VoteType.up then 2 else -2)
        | none =>
          match fl ForumStoreOp.voteSet with
          | some msg => (posts, { success := false, error := some msg })
          | none =>
            updateVoteCounts fl (setVote posts postId userId voteType serverTime)
              postId voteType (if voteType = VoteType.up then 1 else -1)

/-- The number of recorded votes of the type `voteType`. -/
def countVotes (voteType : VoteType) (votes : List (String × VoteDoc)) : Nat :=
  (votes.filter (fun v => decide (v.2.voteType = voteType))).length

/-! ## Sequences of tracker calls -/

/-- A call on the tracker: opening a video, starting the tracking, closing the
modal, or a timer coming due. -/
inductive TrackerCall where
  | play (fl : Faults) (now : Int) (userId : String) (video : Video)
  | start (now : Int) (videoId userId : String) (videoDuration : Int)
  | close
  | tick (id : Nat) (elapsedSeconds : Int) (env : TickEnv)

/-- The effect of one tracker call. -/
def applyCall (call : TrackerCall) (w : World) : World :=
  match call with
  | TrackerCall.play fl now userId video =>
    playVideoWithTracking fl now w userId video
  | TrackerCall.start now videoId userId videoDuration =>
    startVideoProgressTracking now w videoId userId videoDuration
  | TrackerCall.close => closeVideoModalWithTracking w
  | TrackerCall.tick id elapsedSeconds env =>
    fireTimerElapsed id elapsedSeconds env w

/-- The effect of a sequence of tracker calls. -/
def applyCalls : List TrackerCall → World → World
  | [], w => w
  | call :: rest, w => applyCalls rest (applyCall call w)

/-! ## Further sample data -/

/-- Two sample questions. -/
def sampleQuestions : List Question :=
  [{ question := "2 + 2", options := ["3", "4", "5", "6"], correctAnswer := 1
     marks := 4 },
    { question := "3 * 3", options := ["6", "7", "8", "9"], correctAnswer := 3
      marks := 4 }]

/-- A test collection with the test `t1` of two questions. -/
def sampleTests : List (String × McqTestDoc) :=
  [("t1",
    { programType := "jee", title := "Algebra", description := "Basics"
      questions := sampleQuestions, totalQuestions := 2
      timeLimit := some 30, passingScore := some 40, createdAt := 0
      createdBy := "admin", attempts := 0, averageScore := 0
      updatedAt := none })]

/-- An update payload that carries a new title and nothing else. -/
def titleOnly : TestUpdate :=
  { programType := none, title := some "Algebra II", description := none
    questions := none, totalQuestions := none, timeLimit := none
    passingScore := none }

/-- A forum with the post `p1`, which has no votes. -/
def freshForum : List (String × ForumPost) :=
  [("p1", { upvotes := 0, downvotes := 0, votes := [] })]

/-- A forum with the post `p1`, on which the user `u` has voted down. -/
def downvotedForum : List (String × ForumPost) :=
  [("p1",
    { upvotes := 0, downvotes := 1
      votes := [("u", { voteType := VoteType.down, timestamp := 0 })] })]

/-! ## Lemmas on the store -/

theorem getDoc_upsertDoc_self {α : Type} (id : String) (f : Option α → α)
    (c : List (String × α)) :
    getDoc id (upsertDoc id f c) = some (f (getDoc id c)) := by
  induction c with
  | nil => simp [upsertDoc, getDoc]
  | cons p rest ih =>
    obtain ⟨k, v⟩ := p
    by_cases h : k = id
    · simp [upsertDoc, getDoc, h]
    · simp [upsertDoc, getDoc, h, ih]

theorem getDoc_upsertDoc_other {α : Type} (id id' : String) (f : Option α → α)
    (c : List (String × α)) (h : id' ≠ id) :
    getDoc id' (upsertDoc id f c) = getDoc id' c := by
  induction c with
  | nil => simp [upsertDoc, getDoc, h.symm]
  | cons p rest ih =>
    obtain ⟨k, v⟩ := p
    by_cases hk : k = id
    · subst hk
      simp [upsertDoc, getDoc, h.symm]
    · by_cases hk' : k = id'
      · subst hk'
        simp [upsertDoc, getDoc, hk]
      · simp [upsertDoc, getDoc, hk, hk', ih]

/-! ## Lemmas on the arithmetic -/

theorem floor_ratio_eq_div (c d : Int) (hd : 0 < d) :
    ⌊(c : ℚ) / (d : ℚ) * 100⌋ = c * 100 / d := by
  obtain ⟨n, rfl⟩ := Int.eq_ofNat_of_zero_le hd.le
  rw [div_mul_eq_mul_div]
  have h := Rat.floor_intCast_div_natCast (c * 100) n
  push_cast at h ⊢
  exact h

/-! ## Lemmas on binary64 rounding -/

theorem roundBinary64_zero : roundBinary64 0 = 0 := by
  simp [roundBinary64]

theorem roundBinary64_spec (q : ℚ) (hq : 0 < q) :
    ∃ n : Int,
      roundBinary64 q = (n : ℚ) / (2 : ℚ) ^ (52 - Int.log 2 q) ∧
        |(n : ℚ) - q * (2 : ℚ) ^ (52 - Int.log 2 q)| ≤ 1 / 2 ∧
        ⌊q * (2 : ℚ) ^ (52 - Int.log 2 q)⌋ ≤ n ∧
        n ≤ ⌈q * (2 : ℚ) ^ (52 - Int.log 2 q)⌉ := by
  unfold roundBinary64
  simp only [hq.ne.symm, if_false, abs_of_pos hq, not_lt.2 hq.le, one_mul]
  generalize q * (2 : ℚ) ^ (52 - Int.log 2 q) = m
  have hf1 : ((⌊m⌋ : Int) : ℚ) ≤ m := Int.floor_le m
  have hf2 : m < ((⌊m⌋ : Int) : ℚ) + 1 := Int.lt_floor_add_one m
  by_cases h1 : m - ((⌊m⌋ : Int) : ℚ) < 1 / 2
  · refine ⟨⌊m⌋, by simp only [h1, if_true], ?_, le_refl _, Int.floor_le_ceil m⟩
    rw [abs_le]
    constructor <;> linarith
  · have hup : ⌊m⌋ + 1 ≤ ⌈m⌉ := by
      have : ⌊m⌋ < ⌈m⌉ := Int.lt_ceil.2 (by linarith)
      omega
    by_cases h2 : 1 / 2 < m - ((⌊m⌋ : Int) : ℚ)
    · refine ⟨⌊m⌋ + 1, by simp only [h1, h2, if_true, if_false], ?_, by omega, hup⟩
      rw [abs_le]
      push_cast
      constructor <;> linarith
    · by_cases h3 : ⌊m⌋ % 2 = 0
      · refine ⟨⌊m⌋, by simp only [h1, h2, h3, if_true, if_false], ?_, le_refl _,
          Int.floor_le_ceil m⟩
        rw [abs_le]
        constructor <;> linarith
      · refine ⟨⌊m⌋ + 1, by simp only [h1, h2, h3, if_false], ?_, by omega, hup⟩
        rw [abs_le]
        push_cast
        constructor <;> linarith

theorem scale_pos (e : Int) : (0 : ℚ) < (2 : ℚ) ^ e := by positivity

theorem scaled_ge (q : ℚ) (hq : 0 < q) :
    (2 : ℚ) ^ (52 : Int) ≤ q * (2 : ℚ) ^ (52 - Int.log 2 q) := by
  have h := Int.zpow_log_le_self (b := 2) (r := q) (by decide) hq
  have hs := scale_pos (52 - Int.log 2 q)
  calc (2 : ℚ) ^ (52 : Int)
      = (2 : ℚ) ^ (Int.log 2 q) * (2 : ℚ) ^ (52 - Int.log 2 q) := by
        rw [← zpow_add₀ (by norm_num : (2 : ℚ) ≠ 0)]
        congr 1
        omega
    _ ≤ q * (2 : ℚ) ^ (52 - Int.log 2 q) := by
        apply mul_le_mul_of_nonneg_right _ hs.le
        exact_mod_cast h

/-- relative error of one rounding -/
theorem roundBinary64_error (q : ℚ) (hq : 0 < q) :
    |roundBinary64 q - q| ≤ q * (1 / 2 ^ 53) := by
  obtain ⟨n, hn, herr, _, _⟩ := roundBinary64_spec q hq
  have hs := scale_pos (52 - Int.log 2 q)
  have hm := scaled_ge q hq
  generalize (2 : ℚ) ^ (52 - Int.log 2 q) = s at hn herr hs hm
  rw [hn]
  have h1 : (n : ℚ) / s - q = ((n : ℚ) - q * s) / s := by
    field_simp
    ring
  rw [h1, abs_div, abs_of_pos hs, div_le_iff₀ hs]
  have h52 : (2 : ℚ) ^ (52 : Int) = 2 ^ 52 := by norm_num
  rw [h52] at hm
  calc |(n : ℚ) - q * s| ≤ 1 / 2 := herr
    _ ≤ q * (1 / 2 ^ 53) * s := by
        have : (1 : ℚ) / 2 = 2 ^ 52 * (1 / 2 ^ 53) := by norm_num
        rw [this]
        have h2 : q * (1 / 2 ^ 53) * s = (q * s) * (1 / 2 ^ 53) := by ring
        rw [h2]
        apply mul_le_mul_of_nonneg_right hm
        positivity

theorem log_le_of_lt (q : ℚ) (hq : 0 < q) (h : q < 2 ^ 53) : Int.log 2 q ≤ 52 := by
  have h1 : Int.log 2 q < 53 := by
    rw [← Int.lt_zpow_iff_log_lt (by decide) hq]
    exact_mod_cast h
  omega

/-- the scale of a number below 2^53 is a natural power of two -/
theorem scale_nat (q : ℚ) (hq : 0 < q) (h : q < 2 ^ 53) :
    ∃ k : Nat, (2 : ℚ) ^ (52 - Int.log 2 q) = ((2 ^ k : Nat) : ℚ) := by
  have hle := log_le_of_lt q hq h
  refine ⟨(52 - Int.log 2 q).toNat, ?_⟩
  have : (52 - Int.log 2 q) = (((52 - Int.log 2 q).toNat : Nat) : Int) := by omega
  rw [this, zpow_natCast]
  push_cast
  rfl

theorem roundBinary64_le_int (q : ℚ) (B : Int) (hq : 0 < q) (hB : q ≤ B)
    (h53 : (B : ℚ) < 2 ^ 53) : roundBinary64 q ≤ B := by
  obtain ⟨n, hn, _, _, hceil⟩ := roundBinary64_spec q hq
  obtain ⟨k, hk⟩ := scale_nat q hq (lt_of_le_of_lt hB h53)
  have hs := scale_pos (52 - Int.log 2 q)
  rw [hk] at hceil hs
  rw [hn, hk, div_le_iff₀ hs]
  have hint : ⌈q * ((2 ^ k : Nat) : ℚ)⌉ ≤ B * ((2 ^ k : Nat) : Int) := by
    rw [Int.ceil_le]
    push_cast
    exact mul_le_mul_of_nonneg_right hB (by positivity)
  have : (n : ℚ) ≤ ((B * ((2 ^ k : Nat) : Int) : Int) : ℚ) := by
    exact_mod_cast le_trans hceil hint
  push_cast at this ⊢
  exact this

theorem roundBinary64_ge_int (q : ℚ) (B : Int) (hq : 0 < q) (hB : (B : ℚ) ≤ q)
    (h53 : q < 2 ^ 53) : (B : ℚ) ≤ roundBinary64 q := by
  obtain ⟨n, hn, _, hfloor, _⟩ := roundBinary64_spec q hq
  obtain ⟨k, hk⟩ := scale_nat q hq h53
  have hs := scale_pos (52 - Int.log 2 q)
  rw [hk] at hfloor hs
  rw [hn, hk, le_div_iff₀ hs]
  have hint : B * ((2 ^ k : Nat) : Int) ≤ ⌊q * ((2 ^ k : Nat) : ℚ)⌋ := by
    rw [Int.le_floor]
    push_cast
    exact mul_le_mul_of_nonneg_right hB (by positivity)
  have : ((B * ((2 ^ k : Nat) : Int) : Int) : ℚ) ≤ (n : ℚ) := by
    exact_mod_cast le_trans hint hfloor
  push_cast at this ⊢
  exact this

theorem roundBinary64_int (B : Int) (hB : 0 < B) (h53 : (B : ℚ) < 2 ^ 53) :
    roundBinary64 (B : ℚ) = B := by
  have hq : (0 : ℚ) < (B : ℚ) := by exact_mod_cast hB
  exact le_antisymm (roundBinary64_le_int _ B hq (le_refl _) h53)
    (roundBinary64_ge_int _ B hq (le_refl _) h53)

theorem roundBinary64_nonneg (q : ℚ) (hq : 0 ≤ q) : 0 ≤ roundBinary64 q := by
  rcases hq.eq_or_lt with h | h
  · rw [← h, roundBinary64_zero]
  · have := roundBinary64_error q h
    rw [abs_le] at this
    have hu : q * (1 / 2 ^ 53) ≤ q := by
      have : (1 : ℚ) / 2 ^ 53 ≤ 1 := by norm_num
      nlinarith
    linarith [this.1]


theorem roundBinary64_pos (q : ℚ) (hq : 0 < q) : 0 < roundBinary64 q := by
  have h := roundBinary64_error q hq
  rw [abs_le] at h
  have hu : q * (1 / 2 ^ 53) < q := by
    have : (1 : ℚ) / 2 ^ 53 < 1 := by norm_num
    nlinarith
  linarith [h.1]

theorem log_eq_of_bounds (q : ℚ) (e : Int) (h1 : (2 : ℚ) ^ e ≤ q)
    (h2 : q < (2 : ℚ) ^ (e + 1)) : Int.log 2 q = e := by
  have hq : 0 < q := lt_of_lt_of_le (scale_pos e) h1
  have ha : e ≤ Int.log 2 q := by
    rw [← Int.zpow_le_iff_le_log (by decide) hq]
    exact_mod_cast h1
  have hb : Int.log 2 q < e + 1 := by
    rw [← Int.lt_zpow_iff_log_lt (by decide) hq]
    exact_mod_cast h2
  omega

/-- The rounding of a number whose exponent and nearest significand are
known. -/
theorem roundBinary64_eval (q : ℚ) (e n : Int) (h1 : (2 : ℚ) ^ e ≤ q)
    (h2 : q < (2 : ℚ) ^ (e + 1))
    (hn : |(n : ℚ) - q * (2 : ℚ) ^ (52 - e)| < 1 / 2) :
    roundBinary64 q = (n : ℚ) / (2 : ℚ) ^ (52 - e) := by
  have hq : 0 < q := lt_of_lt_of_le (scale_pos e) h1
  obtain ⟨n', hn', herr, _, _⟩ := roundBinary64_spec q hq
  rw [log_eq_of_bounds q e h1 h2] at hn' herr
  rw [hn']
  have hnn : n' = n := by
    rw [abs_lt] at hn
    rw [abs_le] at herr
    have ha : ((n' : ℚ) - (n : ℚ)) < 1 := by linarith [hn.1, herr.2]
    have hb : ((n : ℚ) - (n' : ℚ)) < 1 := by linarith [hn.2, herr.1]
    have ha' : n' - n < 1 := by exact_mod_cast ha
    have hb' : n - n' < 1 := by exact_mod_cast hb
    omega
  rw [hnn]

theorem binary64Percent_bounds (a b : ℚ) (h : 0 < a / b) :
    a / b * 100 * (1 - 1 / 2 ^ 53) ^ 2 ≤ binary64Percent a b ∧
      binary64Percent a b ≤ a / b * 100 * (1 + 1 / 2 ^ 53) ^ 2 := by
  unfold binary64Percent
  have h1 := roundBinary64_error (a / b) h
  have hp := roundBinary64_pos (a / b) h
  have h2 := roundBinary64_error (roundBinary64 (a / b) * 100) (by positivity)
  rw [abs_le] at h1 h2
  generalize roundBinary64 (roundBinary64 (a / b) * 100) = x at h2
  generalize roundBinary64 (a / b) = y at h1 h2 hp
  generalize a / b = q at h h1
  constructor
  · nlinarith [h1.1, h2.1]
  · nlinarith [h1.2, h2.2]

theorem binary64Percent_nonneg (a b : ℚ) (h : 0 ≤ a / b) :
    0 ≤ binary64Percent a b := by
  unfold binary64Percent
  exact roundBinary64_nonneg _ (mul_nonneg (roundBinary64_nonneg _ h) (by norm_num))

theorem binary64Percent_le_hundred (a b : ℚ) (h0 : 0 ≤ a / b) (h1 : a / b ≤ 1) :
    binary64Percent a b ≤ 100 := by
  unfold binary64Percent
  rcases h0.eq_or_lt with h | h
  · rw [← h, roundBinary64_zero, zero_mul, roundBinary64_zero]
    norm_num
  · have hx : roundBinary64 (a / b) ≤ ((1 : Int) : ℚ) :=
      roundBinary64_le_int _ 1 h (by exact_mod_cast h1) (by norm_num)
    have hp := roundBinary64_pos (a / b) h
    have := roundBinary64_le_int (roundBinary64 (a / b) * 100) 100 (by positivity)
      (by push_cast at hx ⊢; linarith) (by norm_num)
    exact_mod_cast this

theorem binary64Percent_of_int (k : Int) (b : ℚ) (a : ℚ) (hk : 0 < k)
    (hk2 : k < 2 ^ 40) (h : a / b = k) :
    binary64Percent a b = (k : ℚ) * 100 := by
  unfold binary64Percent
  have hkq : (k : ℚ) < 2 ^ 40 := by exact_mod_cast hk2
  rw [h, roundBinary64_int k hk (by linarith [hkq, (by norm_num : (2:ℚ)^40 < 2^53)])]
  have := roundBinary64_int (k * 100) (by omega) (by push_cast; linarith [hkq, (by norm_num : (2:ℚ)^40 * 100 < 2^53)])
  push_cast at this
  exact this

/-! ## Lemmas on the percentages -/

theorem percentageWatched_self (d : Int) (hd : 0 < d) :
    percentageWatched d d = some 100 := by
  have hdq : (d : ℚ) ≠ 0 := by exact_mod_cast hd.ne.symm
  have h := binary64Percent_of_int 1 (d : ℚ) (d : ℚ) (by decide) (by norm_num)
    (by rw [div_self hdq]; norm_num)
  unfold percentageWatched
  rw [if_neg hd.ne.symm, h]
  norm_num

theorem roundBinary64_29_100 :
    roundBinary64 (29 / 100) = 5224175567749775 / 2 ^ 54 := by
  have h := roundBinary64_eval (29 / 100) (-2) 5224175567749775 (by norm_num)
    (by norm_num) (by rw [abs_lt]; constructor <;> norm_num)
  rw [h]
  norm_num

/-- For a quotient of 29 / 100, `(a / b) * 100` is the double just below
29. -/
theorem binary64Percent_29_100 (a b : ℚ) (hab : a / b = 29 / 100) :
    binary64Percent a b = 8162774324609023 / 2 ^ 48 := by
  unfold binary64Percent
  rw [hab, roundBinary64_29_100]
  have h := roundBinary64_eval (5224175567749775 / 2 ^ 54 * 100) 4 8162774324609023
    (by norm_num) (by norm_num) (by rw [abs_lt]; constructor <;> norm_num)
  rw [h]
  norm_num

theorem floor_binary64Percent_29_100 (a b : ℚ) (hab : a / b = 29 / 100) :
    ⌊binary64Percent a b⌋ = 28 := by
  rw [binary64Percent_29_100 a b hab, Int.floor_eq_iff]
  constructor <;> norm_num

theorem roundBinary64_23_160 :
    roundBinary64 (23 / 160) = 5179139571476070 / 2 ^ 55 := by
  have h := roundBinary64_eval (23 / 160) (-3) 5179139571476070 (by norm_num)
    (by norm_num) (by rw [abs_lt]; constructor <;> norm_num)
  rw [h]
  norm_num

/-- For a quotient of 23 / 160, `(a / b) * 100` is the double just below
14.375. -/
theorem binary64Percent_23_160 (a b : ℚ) (hab : a / b = 23 / 160) :
    binary64Percent a b = 8092405580431359 / 2 ^ 49 := by
  unfold binary64Percent
  rw [hab, roundBinary64_23_160]
  have h := roundBinary64_eval (5179139571476070 / 2 ^ 55 * 100) 3 8092405580431359
    (by norm_num) (by norm_num) (by rw [abs_lt]; constructor <;> norm_num)
  rw [h]
  norm_num

/-- Within the duration, the floor of the double is the floor of the exact
quotient or one less. -/
theorem floor_binary64Percent_near (c D : Int) (hc : 0 ≤ c) (hD : 0 < D)
    (hcD : c ≤ D) (h40 : D < 2 ^ 40) :
    ⌊(c : ℚ) / (D : ℚ) * 100⌋ - 1 ≤ ⌊binary64Percent (c : ℚ) (D : ℚ)⌋ ∧
      ⌊binary64Percent (c : ℚ) (D : ℚ)⌋ ≤ ⌊(c : ℚ) / (D : ℚ) * 100⌋ := by
  have hDq : (0 : ℚ) < (D : ℚ) := by exact_mod_cast hD
  rcases hc.eq_or_lt with h0 | hpos
  · rw [← h0]
    simp [binary64Percent, roundBinary64_zero]
  · have hcq : (0 : ℚ) < (c : ℚ) := by exact_mod_cast hpos
    have hq : (0 : ℚ) < (c : ℚ) / (D : ℚ) := by positivity
    have hq1 : (c : ℚ) / (D : ℚ) ≤ 1 := by
      rw [div_le_one hDq]
      exact_mod_cast hcD
    obtain ⟨hlo, hhi⟩ := binary64Percent_bounds (c : ℚ) (D : ℚ) hq
    rw [floor_ratio_eq_div c D hD]
    have hk1 : c * 100 / D * D ≤ c * 100 := Int.ediv_mul_le _ hD.ne.symm
    have hk2 : c * 100 < (c * 100 / D + 1) * D := Int.lt_ediv_add_one_mul_self _ hD
    generalize c * 100 / D = k at hk1 hk2 ⊢
    have hk1q : (k : ℚ) * (D : ℚ) ≤ (c : ℚ) * 100 := by exact_mod_cast hk1
    have hk2q : (c : ℚ) * 100 + 1 ≤ ((k : ℚ) + 1) * (D : ℚ) := by
      have : c * 100 + 1 ≤ (k + 1) * D := by omega
      exact_mod_cast this
    have hrlo : (k : ℚ) ≤ (c : ℚ) / (D : ℚ) * 100 := by
      rw [div_mul_eq_mul_div, le_div_iff₀ hDq]
      exact hk1q
    have hD40 : (D : ℚ) < 2 ^ 40 := by exact_mod_cast h40
    have hinv : (1 : ℚ) / 2 ^ 40 < 1 / (D : ℚ) :=
      one_div_lt_one_div_of_lt hDq hD40
    have hrhi : (c : ℚ) / (D : ℚ) * 100 ≤ (k : ℚ) + 1 - 1 / (D : ℚ) := by
      rw [div_mul_eq_mul_div, div_le_iff₀ hDq]
      have : ((k : ℚ) + 1 - 1 / (D : ℚ)) * (D : ℚ) = ((k : ℚ) + 1) * (D : ℚ) - 1 := by
        field_simp
      rw [this]
      linarith
    generalize binary64Percent (c : ℚ) (D : ℚ) = x at hlo hhi ⊢
    generalize (c : ℚ) / (D : ℚ) = q at hq hq1 hlo hhi hrlo hrhi
    have hexp1 : q * 100 * (1 + 1 / 2 ^ 53) ^ 2
        = q * 100 + q * (100 * ((1 + 1 / 2 ^ 53) ^ 2 - 1)) := by ring
    have hexp2 : q * 100 * (1 - 1 / 2 ^ 53) ^ 2
        = q * 100 - q * (100 * (1 - (1 - 1 / 2 ^ 53) ^ 2)) := by ring
    have he1 : q * (100 * ((1 + 1 / 2 ^ 53) ^ 2 - 1))
        ≤ 1 * (100 * ((1 + 1 / 2 ^ 53) ^ 2 - 1)) :=
      mul_le_mul_of_nonneg_right hq1 (by norm_num)
    have he2 : q * (100 * (1 - (1 - 1 / 2 ^ 53) ^ 2))
        ≤ 1 * (100 * (1 - (1 - 1 / 2 ^ 53) ^ 2)) :=
      mul_le_mul_of_nonneg_right hq1 (by norm_num)
    have hn1 : (1 : ℚ) * (100 * ((1 + 1 / 2 ^ 53) ^ 2 - 1)) < 1 / 2 ^ 40 := by norm_num
    have hn2 : (1 : ℚ) * (100 * (1 - (1 - 1 / 2 ^ 53) ^ 2)) < 1 := by norm_num
    constructor
    · apply Int.le_floor.2
      push_cast
      linarith
    · have : ⌊x⌋ < k + 1 := by
        apply Int.floor_lt.2
        push_cast
        linarith
      omega

/-! ## Lemmas on the services -/

theorem saveVideoProgress_record (fl : Faults) (serverTime : Int) (db : Store)
    (userId videoId : String) (progressData : ProgressData)
    (hset : fl StoreOp.videoProgressSet = none) :
    getDoc (progressKey userId videoId)
        (saveVideoProgress fl serverTime db userId videoId progressData).1.videoProgress
      = some (progressMerge userId videoId progressData serverTime
          (getDoc (progressKey userId videoId) db.videoProgress)) := by
  simp [saveVideoProgress, hset, getDoc_upsertDoc_self]

theorem markVideoComplete_videoProgress (fl : Faults) (serverTime : Int)
    (autoId : String) (db : Store) (userId videoId : String)
    (videoData : VideoData) :
    (markVideoComplete fl serverTime autoId db userId videoId videoData).1.videoProgress
      = (saveVideoProgress fl serverTime db userId videoId
          { currentTime := videoData.duration
            duration := videoData.duration
            completed := true
            watchedDuration := 0 }).1.videoProgress := by
  unfold markVideoComplete
  dsimp only
  split
  · rfl
  · split
    · split <;> rfl
    · split <;> rfl


/-! ## Lemmas on the tracker -/

theorem activeTimer_clearInterval_self (id : Nat)
    (timers : List (Nat × TimerArgs)) :
    activeTimer id (clearInterval (some id) timers) = none := by
  induction timers with
  | nil => rfl
  | cons t rest ih =>
    obtain ⟨k, a⟩ := t
    by_cases h : k = id
    · simpa [clearInterval, List.filter, h] using ih
    · simpa [clearInterval, List.filter, h, activeTimer] using ih

theorem runTicks_inactive (id : Nat) (ticks : List (Int × TickEnv)) (w : World)
    (h : activeTimer id w.timers = none) : runTicks id ticks w = w := by
  induction ticks with
  | nil => rfl
  | cons t rest ih => simpa [runTicks, fireTimerElapsed, h] using ih

theorem fireTimer_eq_fireTimerElapsed (id : Nat) (now : Int) (env : TickEnv)
    (w : World) :
    fireTimer id now env w
      = fireTimerElapsed id ((now - w.tracker.startWatchTime) / 1000) env w := by
  unfold fireTimer fireTimerElapsed intervalCallback
  rfl

theorem fireTimerElapsed_realised (id : Nat) (elapsedSeconds : Int)
    (env : TickEnv) (w : World) :
    fireTimerElapsed id elapsedSeconds env w
      = fireTimer id (w.tracker.startWatchTime + 1000 * elapsedSeconds) env w := by
  rw [fireTimer_eq_fireTimerElapsed]
  have h : (w.tracker.startWatchTime + 1000 * elapsedSeconds
      - w.tracker.startWatchTime) / 1000 = elapsedSeconds := by omega
  rw [h]

theorem trackingTick_complete_db (args : TimerArgs) (elapsedSeconds : Int)
    (env : TickEnv) (w : World)
    (h : w.tracker.lastSavedTime + elapsedSeconds > args.videoDuration) :
    (trackingTick args elapsedSeconds env w).db =
        (markVideoComplete env.faults env.serverTime env.autoId w.db
          args.userId args.videoId { duration := args.videoDuration }).1
      ∧ (trackingTick args elapsedSeconds env w).timers =
        clearInterval w.tracker.progressTrackingInterval w.timers
      ∧ (trackingTick args elapsedSeconds env w).tracker = w.tracker := by
  unfold trackingTick
  simp only [h, if_true]
  split <;> exact ⟨rfl, rfl, rfl⟩

theorem trackingTick_continue (args : TimerArgs) (elapsedSeconds : Int)
    (env : TickEnv) (w : World)
    (h : ¬ w.tracker.lastSavedTime + elapsedSeconds > args.videoDuration) :
    trackingTick args elapsedSeconds env w =
      { w with
        db := (saveVideoProgress env.faults env.serverTime w.db
          args.userId args.videoId
          { currentTime := w.tracker.lastSavedTime + elapsedSeconds
            duration := args.videoDuration
            watchedDuration := elapsedSeconds
            completed := false }).1
        ui := w.ui ++
          [UiEffect.updateProgressUI args.videoId
            (uiPercentage (w.tracker.lastSavedTime + elapsedSeconds)
              args.videoDuration)]
        tracker :=
          { w.tracker with
            lastSavedTime := w.tracker.lastSavedTime + elapsedSeconds
            startWatchTime := env.nowAfter } } := by
  unfold trackingTick
  simp only [h, if_false]

theorem trackingTick_complete_record (args : TimerArgs) (elapsedSeconds : Int)
    (env : TickEnv) (w : World)
    (hset : env.faults StoreOp.videoProgressSet = none)
    (h : w.tracker.lastSavedTime + elapsedSeconds > args.videoDuration) :
    getDoc (progressKey args.userId args.videoId)
        (trackingTick args elapsedSeconds env w).db.videoProgress
      = some (progressMerge args.userId args.videoId
          { currentTime := args.videoDuration
            duration := args.videoDuration
            watchedDuration := 0
            completed := true }
          env.serverTime
          (getDoc (progressKey args.userId args.videoId) w.db.videoProgress)) := by
  rw [(trackingTick_complete_db args elapsedSeconds env w h).1,
    markVideoComplete_videoProgress]
  exact saveVideoProgress_record _ _ _ _ _ _ hset

theorem trackingTick_continue_record (args : TimerArgs) (elapsedSeconds : Int)
    (env : TickEnv) (w : World)
    (hset : env.faults StoreOp.videoProgressSet = none)
    (h : ¬ w.tracker.lastSavedTime + elapsedSeconds > args.videoDuration) :
    getDoc (progressKey args.userId args.videoId)
        (trackingTick args elapsedSeconds env w).db.videoProgress
      = some (progressMerge args.userId args.videoId
          { currentTime := w.tracker.lastSavedTime + elapsedSeconds
            duration := args.videoDuration
            watchedDuration := elapsedSeconds
            completed := false }
          env.serverTime
          (getDoc (progressKey args.userId args.videoId) w.db.videoProgress)) := by
  rw [trackingTick_continue args elapsedSeconds env w h]
  exact saveVideoProgress_record _ _ _ _ _ _ hset

theorem runTicks_reaches_completion (id : Nat) (args : TimerArgs)
    (hD : 0 < args.videoDuration) (ticks : List (Int × TickEnv)) :
    ∀ w : World,
      activeTimer id w.timers = some args →
      w.tracker.progressTrackingInterval = some id →
      w.tracker.lastSavedTime ≤ args.videoDuration →
      (∀ t ∈ ticks, t.2.faults StoreOp.videoProgressSet = none) →
      args.videoDuration < w.tracker.lastSavedTime + (ticks.map (fun t => t.1)).sum →
      activeTimer id (runTicks id ticks w).timers = none ∧
      ∃ r, getDoc (progressKey args.userId args.videoId)
            (runTicks id ticks w).db.videoProgress = some r ∧
          r.completed = true ∧ r.currentTime = args.videoDuration ∧
          r.percentageWatched = some 100 := by
  induction ticks with
  | nil =>
    intro w _ _ hle _ hsum
    simp at hsum
    omega
  | cons t rest ih =>
    intro w hact hhandle hle hok hsum
    have hset : t.2.faults StoreOp.videoProgressSet = none :=
      hok t (List.mem_cons_self _ _)
    have hrest : ∀ t' ∈ rest, t'.2.faults StoreOp.videoProgressSet = none :=
      fun t' ht' => hok t' (List.mem_cons_of_mem _ ht')
    simp only [runTicks, fireTimerElapsed, hact]
    by_cases h : w.tracker.lastSavedTime + t.1 > args.videoDuration
    · obtain ⟨_, htimers, _⟩ := trackingTick_complete_db args t.1 t.2 w h
      have hnone : activeTimer id (trackingTick args t.1 t.2 w).timers = none := by
        rw [htimers, hhandle]
        exact activeTimer_clearInterval_self id w.timers
      rw [runTicks_inactive id rest _ hnone]
      refine ⟨hnone, _, trackingTick_complete_record args t.1 t.2 w hset h, rfl, rfl, ?_⟩
      exact percentageWatched_self _ hD
    · apply ih
      · rw [trackingTick_continue args t.1 t.2 w h]
        exact hact
      · rw [trackingTick_continue args t.1 t.2 w h]
        exact hhandle
      · rw [trackingTick_continue args t.1 t.2 w h]
        simp only
        omega
      · exact hrest
      · rw [trackingTick_continue args t.1 t.2 w h]
        simp only [List.map_cons, List.sum_cons] at hsum ⊢
        omega

theorem runTicks_below_duration (id : Nat) (args : TimerArgs)
    (ticks : List (Int × TickEnv)) :
    ∀ w : World,
      activeTimer id w.timers = some args →
      (∀ t ∈ ticks, 0 ≤ t.1) →
      w.tracker.lastSavedTime + (ticks.map (fun t => t.1)).sum ≤ args.videoDuration →
      (runTicks id ticks w).tracker.lastSavedTime =
          w.tracker.lastSavedTime + (ticks.map (fun t => t.1)).sum ∧
        (runTicks id ticks w).timers = w.timers ∧
        ((∀ t ∈ ticks, t.2.faults StoreOp.videoProgressSet = none) → ticks ≠ [] →
          ∃ r, getDoc (progressKey args.userId args.videoId)
                (runTicks id ticks w).db.videoProgress = some r ∧
              r.completed = false ∧
              r.currentTime = w.tracker.lastSavedTime + (ticks.map (fun t => t.1)).sum ∧
              r.percentageWatched = percentageWatched r.currentTime args.videoDuration) := by
  induction ticks with
  | nil =>
    intro w _ _ _
    simp [runTicks]
  | cons t rest ih =>
    intro w hact hnn hsum
    have ht : 0 ≤ t.1 := hnn t (List.mem_cons_self _ _)
    have hnn' : ∀ t' ∈ rest, 0 ≤ t'.1 :=
      fun t' ht' => hnn t' (List.mem_cons_of_mem _ ht')
    have hrestsum : 0 ≤ (rest.map (fun t => t.1)).sum := by
      apply List.sum_nonneg
      intro x hx
      obtain ⟨t', ht', rfl⟩ := List.mem_map.1 hx
      exact hnn' t' ht'
    simp only [List.map_cons, List.sum_cons] at hsum ⊢
    have h : ¬ w.tracker.lastSavedTime + t.1 > args.videoDuration := by omega
    simp only [runTicks, fireTimerElapsed, hact]
    have hstep := trackingTick_continue args t.1 t.2 w h
    have hact' : activeTimer id (trackingTick args t.1 t.2 w).timers = some args := by
      rw [hstep]; exact hact
    have hL : (trackingTick args t.1 t.2 w).tracker.lastSavedTime =
        w.tracker.lastSavedTime + t.1 := by rw [hstep]
    have htm : (trackingTick args t.1 t.2 w).timers = w.timers := by rw [hstep]
    obtain ⟨h1, h2, h3⟩ := ih (trackingTick args t.1 t.2 w) hact' hnn'
      (by rw [hL]; omega)
    refine ⟨by rw [h1, hL]; omega, by rw [h2, htm], ?_⟩
    intro hok _
    have hset : t.2.faults StoreOp.videoProgressSet = none :=
      hok t (List.mem_cons_self _ _)
    by_cases hr : rest = []
    · subst hr
      simp only [runTicks, List.map_nil, List.sum_nil, add_zero]
      exact ⟨_, trackingTick_continue_record args t.1 t.2 w hset h, rfl, rfl, rfl⟩
    · obtain ⟨r, hr1, hr2, hr3, hr4⟩ :=
        h3 (fun t' ht' => hok t' (List.mem_cons_of_mem _ ht')) hr
      exact ⟨r, hr1, hr2, by rw [hr3, hL]; omega, hr4⟩


theorem freshSession_timer : activeTimer 1 freshSession.timers = some sampleArgs := by
  decide

theorem freshSession_handle :
    freshSession.tracker.progressTrackingInterval = some 1 := by
  decide

theorem freshSession_carry : freshSession.tracker.lastSavedTime = 0 := by
  decide

theorem resumedSession_carry : resumedSession.tracker.lastSavedTime = 585 := by
  decide

/-- C1 (amended): with a store write that succeeds, one tick of the tracker
leaves the progress record with `completed = true` and
`currentTime = videoDuration` exactly when
`lastSavedTime + elapsedSeconds > videoDuration`, strictly; a tick that lands
exactly on the duration persists `currentTime = videoDuration` with
`completed = false`. -/
theorem tick_completes_iff_beyond_duration (args : TimerArgs)
    (elapsedSeconds : Int) (env : TickEnv) (w : World)
    (hset : env.faults StoreOp.videoProgressSet = none) :
    ((∃ r, getDoc (progressKey args.userId args.videoId)
            (trackingTick args elapsedSeconds env w).db.videoProgress = some r ∧
          r.completed = true ∧ r.currentTime = args.videoDuration)
        ↔ w.tracker.lastSavedTime + elapsedSeconds > args.videoDuration) ∧
      (w.tracker.lastSavedTime + elapsedSeconds = args.videoDuration →
        ∃ r, getDoc (progressKey args.userId args.videoId)
            (trackingTick args elapsedSeconds env w).db.videoProgress = some r ∧
          r.completed = false ∧ r.currentTime = args.videoDuration) := by
  refine ⟨⟨?_, ?_⟩, ?_⟩
  · rintro ⟨r, hr, hc, _⟩
    by_contra h
    rw [trackingTick_continue_record args elapsedSeconds env w hset h] at hr
    cases hr
    simp [progressMerge] at hc
  · intro h
    exact ⟨_, trackingTick_complete_record args elapsedSeconds env w hset h, rfl, rfl⟩
  · intro h
    have hn : ¬ w.tracker.lastSavedTime + elapsedSeconds > args.videoDuration := by
      omega
    exact ⟨_, trackingTick_continue_record args elapsedSeconds env w hset hn, rfl, h⟩

/-- C1, witness: the resumed session at 585 seconds and a tick of 20 seconds. -/
theorem tick_completes_iff_beyond_duration_witness :
    quietEnv.faults StoreOp.videoProgressSet = none ∧
      (((∃ r, getDoc (progressKey sampleArgs.userId sampleArgs.videoId)
              (trackingTick sampleArgs 20 quietEnv resumedSession).db.videoProgress
                = some r ∧
            r.completed = true ∧ r.currentTime = sampleArgs.videoDuration)
          ↔ resumedSession.tracker.lastSavedTime + 20 > sampleArgs.videoDuration) ∧
        (resumedSession.tracker.lastSavedTime + 20 = sampleArgs.videoDuration →
          ∃ r, getDoc (progressKey sampleArgs.userId sampleArgs.videoId)
              (trackingTick sampleArgs 20 quietEnv resumedSession).db.videoProgress
                = some r ∧
            r.completed = false ∧ r.currentTime = sampleArgs.videoDuration)) :=
  ⟨rfl, tick_completes_iff_beyond_duration sampleArgs 20 quietEnv resumedSession rfl⟩

/-- C1, counterexample: carry-over 585, elapsed 15 and duration 600 reach the
duration, yet the tick persists `completed = false`. -/
theorem tick_on_duration_not_completed :
    resumedSession.tracker.lastSavedTime = 585 ∧
      (585 : Int) + 15 ≥ sampleArgs.videoDuration ∧
      (∃ r, getDoc (progressKey "u" "v")
            (trackingTick sampleArgs 15 quietEnv resumedSession).db.videoProgress
              = some r ∧
          r.completed = false ∧ r.currentTime = 600 ∧
          r.percentageWatched = some 100) ∧
      ¬ (∃ r, getDoc (progressKey "u" "v")
            (trackingTick sampleArgs 15 quietEnv resumedSession).db.videoProgress
              = some r ∧
          r.completed = true ∧ r.currentTime = 600) := by
  have hn : ¬ resumedSession.tracker.lastSavedTime + 15 > sampleArgs.videoDuration := by
    decide
  have hrec := trackingTick_continue_record sampleArgs 15 quietEnv resumedSession rfl hn
  refine ⟨resumedSession_carry, by decide, ⟨_, hrec, rfl, by decide, ?_⟩, ?_⟩
  · show percentageWatched (resumedSession.tracker.lastSavedTime + 15) 600 = some 100
    rw [resumedSession_carry]
    exact percentageWatched_self 600 (by decide)
  · rintro ⟨r, hr, hc, _⟩
    rw [show progressKey "u" "v" = progressKey sampleArgs.userId sampleArgs.videoId from rfl,
      hrec] at hr
    cases hr
    simp [progressMerge] at hc

/-- C2 (amended): in a session that starts at carry-over `0` on a duration
`D > 0`, with store writes that succeed, ticks whose elapsed times sum to
strictly more than `D` leave the record with `completed = true`,
`currentTime = D` and `percentageWatched = 100`, and no later tick of the
session changes anything. -/
theorem ticks_beyond_duration_complete (id : Nat) (args : TimerArgs) (w0 : World)
    (ticks later : List (Int × TickEnv))
    (hD : 0 < args.videoDuration)
    (hactive : activeTimer id w0.timers = some args)
    (hhandle : w0.tracker.progressTrackingInterval = some id)
    (hcarry : w0.tracker.lastSavedTime = 0)
    (hok : ∀ t ∈ ticks, t.2.faults StoreOp.videoProgressSet = none)
    (hsum : args.videoDuration < (ticks.map (fun t => t.1)).sum) :
    (∃ r, getDoc (progressKey args.userId args.videoId)
          (runTicks id ticks w0).db.videoProgress = some r ∧
        r.completed = true ∧ r.currentTime = args.videoDuration ∧
        r.percentageWatched = some 100) ∧
      runTicks id later (runTicks id ticks w0) = runTicks id ticks w0 := by
  obtain ⟨hnone, hrec⟩ := runTicks_reaches_completion id args hD ticks w0 hactive
    hhandle (by omega) hok (by omega)
  exact ⟨hrec, runTicks_inactive id later _ hnone⟩

/-- C2, witness: duration 600 and 41 ticks of 15 seconds. -/
theorem ticks_beyond_duration_complete_witness :
    (0 < sampleArgs.videoDuration ∧
      activeTimer 1 freshSession.timers = some sampleArgs ∧
      freshSession.tracker.progressTrackingInterval = some 1 ∧
      freshSession.tracker.lastSavedTime = 0 ∧
      (∀ t ∈ List.replicate 41 ((15 : Int), quietEnv),
        t.2.faults StoreOp.videoProgressSet = none) ∧
      sampleArgs.videoDuration <
        ((List.replicate 41 ((15 : Int), quietEnv)).map (fun t => t.1)).sum) ∧
    ((∃ r, getDoc (progressKey sampleArgs.userId sampleArgs.videoId)
          (runTicks 1 (List.replicate 41 ((15 : Int), quietEnv))
            freshSession).db.videoProgress = some r ∧
        r.completed = true ∧ r.currentTime = sampleArgs.videoDuration ∧
        r.percentageWatched = some 100) ∧
      runTicks 1 [((15 : Int), quietEnv)]
          (runTicks 1 (List.replicate 41 ((15 : Int), quietEnv)) freshSession)
        = runTicks 1 (List.replicate 41 ((15 : Int), quietEnv)) freshSession) :=
  have hok : ∀ t ∈ List.replicate 41 ((15 : Int), quietEnv),
      t.2.faults StoreOp.videoProgressSet = none := by
    intro t ht
    rw [List.eq_of_mem_replicate ht]
    rfl
  have hsum : sampleArgs.videoDuration <
      ((List.replicate 41 ((15 : Int), quietEnv)).map (fun t => t.1)).sum := by
    decide
  ⟨⟨by decide, freshSession_timer, freshSession_handle, freshSession_carry, hok, hsum⟩,
    ticks_beyond_duration_complete 1 sampleArgs freshSession _ _ (by decide)
      freshSession_timer freshSession_handle freshSession_carry hok hsum⟩

/-- C2, counterexample: duration 600 and 40 ticks of 15 seconds sum to the
duration, yet the record ends with `currentTime = 600`,
`percentageWatched = 100` and `completed = false`. -/
theorem forty_ticks_of_fifteen_not_completed :
    ((List.replicate 40 ((15 : Int), quietEnv)).map (fun t => t.1)).sum = 600 ∧
      (∃ r, getDoc (progressKey "u" "v")
            (runTicks 1 (List.replicate 40 ((15 : Int), quietEnv))
              freshSession).db.videoProgress = some r ∧
          r.completed = false ∧ r.currentTime = 600 ∧
          r.percentageWatched = some 100) ∧
      ¬ (∃ r, getDoc (progressKey "u" "v")
            (runTicks 1 (List.replicate 40 ((15 : Int), quietEnv))
              freshSession).db.videoProgress = some r ∧
          r.completed = true) := by
  have hsum : ((List.replicate 40 ((15 : Int), quietEnv)).map (fun t => t.1)).sum = 600 := by
    decide
  have hnn : ∀ t ∈ List.replicate 40 ((15 : Int), quietEnv), 0 ≤ t.1 := by
    intro t ht
    rw [List.eq_of_mem_replicate ht]
    decide
  have hok : ∀ t ∈ List.replicate 40 ((15 : Int), quietEnv),
      t.2.faults StoreOp.videoProgressSet = none := by
    intro t ht
    rw [List.eq_of_mem_replicate ht]
    rfl
  obtain ⟨_, _, h3⟩ := runTicks_below_duration 1 sampleArgs
    (List.replicate 40 ((15 : Int), quietEnv)) freshSession freshSession_timer hnn
    (by rw [hsum, freshSession_carry]; decide)
  obtain ⟨r, hr, hc, ht, hp⟩ := h3 hok (by simp)
  rw [hsum, freshSession_carry] at ht
  have ht' : r.currentTime = 600 := by omega
  refine ⟨hsum, ⟨r, hr, hc, ht', ?_⟩, ?_⟩
  · rw [hp, ht']
    exact percentageWatched_self 600 (by decide)
  · rintro ⟨r', hr', hc'⟩
    have hr0 : getDoc (progressKey "u" "v")
        (runTicks 1 (List.replicate 40 ((15 : Int), quietEnv))
          freshSession).db.videoProgress = some r := hr
    rw [hr0] at hr'
    cases hr'
    rw [hc] at hc'
    cases hc'


/-! ## Lemmas on eligibility -/

theorem completionRatio_ge_iff (c T : Nat) (hT : 0 < T) :
    completionRatio c T ≥ 80 ↔ 4 * T ≤ 5 * c := by
  have hTq : (0 : ℚ) < (T : ℚ) := by exact_mod_cast hT
  unfold completionRatio
  rw [ge_iff_le, div_mul_eq_mul_div, le_div_iff₀ hTq]
  constructor
  · intro h
    have h' : 80 * T ≤ c * 100 := by exact_mod_cast h
    omega
  · intro h
    have h' : 80 * T ≤ c * 100 := by omega
    exact_mod_cast h'

theorem completionRatio_nonneg (c T : Nat) : 0 ≤ completionRatio c T := by
  unfold completionRatio
  positivity

theorem toFixedHundredths_of_bounds (x : ℚ) (n : Nat) (h0 : 0 ≤ x)
    (h1 : (n : ℚ) ≤ x * 100 + 1 / 2) (h2 : x * 100 + 1 / 2 < (n : ℚ) + 1) :
    toFixedHundredths x = n := by
  unfold toFixedHundredths
  rw [abs_of_nonneg h0, Nat.floor_eq_iff (by positivity)]
  exact ⟨h1, h2⟩

theorem completionPercentageBinary64_nonneg (c T : Nat) :
    0 ≤ completionPercentageBinary64 c T :=
  binary64Percent_nonneg _ _ (by positivity)

theorem toFixed2_binary64 (c T : Nat) :
    toFixed2 (completionPercentageBinary64 c T)
      = renderHundredths (toFixedHundredths (completionPercentageBinary64 c T)) := by
  unfold toFixed2
  rw [if_neg (not_lt.2 (completionPercentageBinary64_nonneg c T))]
  simp

/-- The hundredths printed for a ratio that is far enough from a rounding
boundary of `toFixed(2)`. -/
theorem toFixedHundredths_binary64 (c T n : Nat) (hc : 0 < c) (hT : 0 < T)
    (h1 : (n : ℚ) ≤ (c : ℚ) / (T : ℚ) * 100 * (1 - 1 / 2 ^ 53) ^ 2 * 100 + 1 / 2)
    (h2 : (c : ℚ) / (T : ℚ) * 100 * (1 + 1 / 2 ^ 53) ^ 2 * 100 + 1 / 2 < (n : ℚ) + 1) :
    toFixedHundredths (completionPercentageBinary64 c T) = n := by
  have hq : (0 : ℚ) < (c : ℚ) / (T : ℚ) := by positivity
  obtain ⟨hlo, hhi⟩ := binary64Percent_bounds (c : ℚ) (T : ℚ) hq
  apply toFixedHundredths_of_bounds _ _ (completionPercentageBinary64_nonneg c T)
  · unfold completionPercentageBinary64
    linarith
  · unfold completionPercentageBinary64
    linarith

theorem toFixed2_four_of_five :
    toFixed2 (completionPercentageBinary64 4 5) = "80.00" := by
  rw [toFixed2_binary64, toFixedHundredths_binary64 4 5 8000 (by decide) (by decide)
    (by norm_num) (by norm_num)]
  decide

theorem toFixed2_three_of_five :
    toFixed2 (completionPercentageBinary64 3 5) = "60.00" := by
  rw [toFixed2_binary64, toFixedHundredths_binary64 3 5 6000 (by decide) (by decide)
    (by norm_num) (by norm_num)]
  decide

theorem toFixed2_3203_of_4004 :
    toFixed2 (completionPercentageBinary64 3203 4004) = "80.00" := by
  rw [toFixed2_binary64, toFixedHundredths_binary64 3203 4004 8000 (by decide) (by decide)
    (by norm_num) (by norm_num)]
  decide

/-- A number of at least four fifths is rounded to at least the double
`0.8`. -/
theorem roundBinary64_ge_four_fifths (q : ℚ) (h1 : 4 / 5 ≤ q) (h2 : q ≤ 1) :
    (7205759403792794 : ℚ) / 2 ^ 53 ≤ roundBinary64 q := by
  have hq : 0 < q := by linarith
  rcases h2.eq_or_lt with h | h
  · rw [h]
    have := roundBinary64_int 1 (by decide) (by norm_num)
    push_cast at this
    rw [this]
    norm_num
  · obtain ⟨n, hn, herr, _, _⟩ := roundBinary64_spec q hq
    rw [log_eq_of_bounds q (-1) (by norm_num; linarith) (by norm_num; linarith)] at hn herr
    rw [hn]
    norm_num at herr ⊢
    rw [abs_le] at herr
    have hlow : (7205759403792793 : ℚ) < (n : ℚ) := by
      have : (7205759403792793 : ℚ) + 1 / 2 < q * 9007199254740992 := by linarith
      linarith [herr.1]
    have hlow' : (7205759403792793 : Int) < n := by exact_mod_cast hlow
    have hint : (7205759403792794 : Int) ≤ n := by omega
    have hq' : (7205759403792794 : ℚ) ≤ (n : ℚ) := by exact_mod_cast hint
    rw [div_le_div_iff₀ (by norm_num) (by norm_num)]
    linarith

/-- A number below the midpoint of 80 and the double before it is rounded
below 80. -/
theorem roundBinary64_lt_eighty (q : ℚ) (hq : 0 < q) (h : q < 80 - 1 / 2 ^ 47) :
    roundBinary64 q < 80 := by
  by_cases h64 : q < 64
  · have := roundBinary64_le_int q 64 hq (by push_cast; linarith) (by norm_num)
    push_cast at this
    linarith
  · obtain ⟨n, hn, herr, _, _⟩ := roundBinary64_spec q hq
    rw [log_eq_of_bounds q 6 (by norm_num; linarith) (by norm_num; linarith)] at hn herr
    rw [hn]
    norm_num at herr ⊢
    rw [abs_le] at herr
    rw [div_lt_iff₀ (by norm_num)]
    have : q * 70368744177664 + 1 / 2 < 80 * 70368744177664 := by
      have h' : q < 80 - 1 / 140737488355328 := by
        have e : (80 : ℚ) - 1 / 2 ^ 47 = 80 - 1 / 140737488355328 := by norm_num
        linarith
      linarith
    linarith [herr.2]

/-- For a program of at most `2 ^ 50` videos, the double
`completionPercentage` is at least 80 exactly when the exact quotient is. -/
theorem binary64Percent_ge_eighty_iff (c T : Nat) (hT : 0 < T) (hc : c ≤ T)
    (hbound : T ≤ 2 ^ 50) :
    completionPercentageBinary64 c T ≥ 80 ↔ completionRatio c T ≥ 80 := by
  have hTq : (0 : ℚ) < (T : ℚ) := by exact_mod_cast hT
  have hle1 : (c : ℚ) / (T : ℚ) ≤ 1 := by
    rw [div_le_one hTq]
    exact_mod_cast hc
  unfold completionPercentageBinary64 binary64Percent completionRatio
  constructor
  · intro hx
    by_contra hr
    have hr' : (c : ℚ) / (T : ℚ) * 100 < 80 := lt_of_not_ge hr
    rcases Nat.eq_zero_or_pos c with h0 | hpos
    · subst h0
      simp [roundBinary64_zero] at hx
      norm_num at hx
    · have hq : (0 : ℚ) < (c : ℚ) / (T : ℚ) := by positivity
      have hint : 5 * c + 1 ≤ 4 * T := by
        have h5 : (c : ℚ) * 100 < 80 * (T : ℚ) := by
          rw [div_mul_eq_mul_div, div_lt_iff₀ hTq] at hr'
          exact hr'
        have h5' : c * 100 < 80 * T := by exact_mod_cast h5
        omega
      have hintq : 5 * (c : ℚ) + 1 ≤ 4 * (T : ℚ) := by exact_mod_cast hint
      have hTb : (T : ℚ) ≤ 2 ^ 50 := by exact_mod_cast hbound
      have hqle : (c : ℚ) / (T : ℚ) ≤ 4 / 5 - 1 / (5 * 2 ^ 50) := by
        have h1 : (c : ℚ) / (T : ℚ) ≤ 4 / 5 - 1 / (5 * (T : ℚ)) := by
          rw [div_le_iff₀ hTq]
          have : (4 / 5 - 1 / (5 * (T : ℚ))) * (T : ℚ) = 4 / 5 * (T : ℚ) - 1 / 5 := by
            field_simp
            ring
          rw [this]
          linarith
        have h2 : 1 / (5 * (2 : ℚ) ^ 50) ≤ 1 / (5 * (T : ℚ)) := by
          apply one_div_le_one_div_of_le (by positivity)
          linarith
        linarith
      have herr := roundBinary64_error _ hq
      rw [abs_le] at herr
      have hpos1 := roundBinary64_pos _ hq
      have hlt := roundBinary64_lt_eighty (roundBinary64 ((c : ℚ) / (T : ℚ)) * 100)
        (by positivity) (by
          generalize roundBinary64 ((c : ℚ) / (T : ℚ)) = y at herr hpos1
          generalize (c : ℚ) / (T : ℚ) = q at hq hqle herr
          have hy : y ≤ q * (1 + 1 / 2 ^ 53) := by linarith [herr.2]
          have hy2 : y ≤ (4 / 5 - 1 / (5 * 2 ^ 50)) * (1 + 1 / 2 ^ 53) := by
            apply le_trans hy
            apply mul_le_mul_of_nonneg_right hqle
            norm_num
          have hnum : (4 / 5 - 1 / (5 * 2 ^ 50)) * (1 + 1 / 2 ^ 53) * 100
              < (80 : ℚ) - 1 / 2 ^ 47 := by norm_num
          linarith)
      linarith
  · intro hr
    have h45 : (4 : ℚ) / 5 ≤ (c : ℚ) / (T : ℚ) := by linarith
    have h1 := roundBinary64_ge_four_fifths _ h45 hle1
    have hq : (0 : ℚ) < (c : ℚ) / (T : ℚ) := by linarith
    have hx1 : roundBinary64 ((c : ℚ) / (T : ℚ)) ≤ ((1 : Int) : ℚ) :=
      roundBinary64_le_int _ 1 hq (by exact_mod_cast hle1) (by norm_num)
    push_cast at hx1
    have hpos1 := roundBinary64_pos _ hq
    have := roundBinary64_ge_int (roundBinary64 ((c : ℚ) / (T : ℚ)) * 100) 80
      (by positivity)
      (by
        push_cast
        have : (80 : ℚ) ≤ 7205759403792794 / 2 ^ 53 * 100 := by norm_num
        linarith)
      (by
        have : (100 : ℚ) < 2 ^ 53 := by norm_num
        linarith)
    exact_mod_cast this

/-- An exact quotient of at least 80 is printed as 80.00 or more. -/
theorem toFixedHundredths_ge_of_ratio (c T : Nat) (hT : 0 < T)
    (h : completionRatio c T ≥ 80) :
    8000 ≤ toFixedHundredths (completionPercentageBinary64 c T) := by
  have hTq : (0 : ℚ) < (T : ℚ) := by exact_mod_cast hT
  unfold completionRatio at h
  have hq : (0 : ℚ) < (c : ℚ) / (T : ℚ) := by linarith
  obtain ⟨hlo, _⟩ := binary64Percent_bounds (c : ℚ) (T : ℚ) hq
  unfold toFixedHundredths
  rw [abs_of_nonneg (completionPercentageBinary64_nonneg c T)]
  apply Nat.le_floor
  unfold completionPercentageBinary64
  have h80 : (80 : ℚ) * (1 - 1 / 2 ^ 53) ^ 2 ≤ (c : ℚ) / (T : ℚ) * 100 * (1 - 1 / 2 ^ 53) ^ 2 := by
    apply mul_le_mul_of_nonneg_right h
    positivity
  have hnum : (7999.5 : ℚ) ≤ 80 * (1 - 1 / 2 ^ 53) ^ 2 * 100 := by norm_num
  push_cast
  linarith

/-- For a program of fewer than 4004 videos, an exact quotient below 80 is
printed below 80.00. -/
theorem toFixedHundredths_lt_of_ratio (c T : Nat) (hT : 0 < T) (h4004 : T < 4004)
    (h : ¬ completionRatio c T ≥ 80) :
    toFixedHundredths (completionPercentageBinary64 c T) < 8000 := by
  have hTq : (0 : ℚ) < (T : ℚ) := by exact_mod_cast hT
  rcases Nat.eq_zero_or_pos c with h0 | hpos
  · subst h0
    unfold toFixedHundredths completionPercentageBinary64 binary64Percent
    simp [roundBinary64_zero]
    rw [Nat.floor_lt (by norm_num)]
    norm_num
  · rw [completionRatio_ge_iff c T hT] at h
    have hint : 20000 * c + 1 ≤ 15999 * T := by
      by_contra hne
      by_cases h4000 : T < 4000
      · omega
      · have h4 : 4000 ≤ T := by omega
        interval_cases T <;> omega
    have hintq : 20000 * (c : ℚ) + 1 ≤ 15999 * (T : ℚ) := by exact_mod_cast hint
    have hTb : (T : ℚ) ≤ 4003 := by
      have : T ≤ 4003 := by omega
      exact_mod_cast this
    have hq : (0 : ℚ) < (c : ℚ) / (T : ℚ) := by positivity
    have hqle : (c : ℚ) / (T : ℚ) ≤ 15999 / 20000 - 1 / (20000 * 4003) := by
      have h1 : (c : ℚ) / (T : ℚ) ≤ 15999 / 20000 - 1 / (20000 * (T : ℚ)) := by
        rw [div_le_iff₀ hTq]
        have : (15999 / 20000 - 1 / (20000 * (T : ℚ))) * (T : ℚ)
            = 15999 / 20000 * (T : ℚ) - 1 / 20000 := by
          field_simp
          ring
        rw [this]
        linarith
      have h2 : 1 / (20000 * (4003 : ℚ)) ≤ 1 / (20000 * (T : ℚ)) := by
        apply one_div_le_one_div_of_le (by positivity)
        linarith
      linarith
    obtain ⟨_, hhi⟩ := binary64Percent_bounds (c : ℚ) (T : ℚ) hq
    unfold toFixedHundredths
    rw [abs_of_nonneg (completionPercentageBinary64_nonneg c T)]
    rw [Nat.floor_lt (by have := completionPercentageBinary64_nonneg c T; positivity)]
    unfold completionPercentageBinary64
    have hmul : (c : ℚ) / (T : ℚ) * 100 * (1 + 1 / 2 ^ 53) ^ 2
        ≤ (15999 / 20000 - 1 / (20000 * 4003)) * 100 * (1 + 1 / 2 ^ 53) ^ 2 := by
      apply mul_le_mul_of_nonneg_right _ (by positivity)
      linarith
    have hnum : (15999 / 20000 - 1 / (20000 * 4003)) * 100 * (1 + 1 / 2 ^ 53) ^ 2 * 100
        + 1 / 2 < (8000 : ℚ) := by norm_num
    push_cast
    linarith

theorem videosNeeded_eq (c T : Nat) :
    videosNeeded c T = ((4 * T + 4 : Nat) : Int) / 5 - (c : Int) := by
  unfold videosNeeded
  congr 1
  rw [Int.ceil_eq_iff]
  have h1 : 5 * (((4 * T + 4 : Nat) : Int) / 5) ≤ 4 * (T : Int) + 4 := by omega
  have h2 : 4 * (T : Int) ≤ 5 * (((4 * T + 4 : Nat) : Int) / 5) := by omega
  generalize ((4 * T + 4 : Nat) : Int) / 5 = z at h1 h2 ⊢
  have h1q : (5 : ℚ) * (z : ℚ) ≤ 4 * (T : ℚ) + 4 := by exact_mod_cast h1
  have h2q : 4 * (T : ℚ) ≤ (5 : ℚ) * (z : ℚ) := by exact_mod_cast h2
  constructor
  · norm_num
    linarith
  · norm_num
    linarith

theorem checkCertificateEligibility_computed (fl : Faults) (db : Store)
    (userId programType : String)
    (hq : fl StoreOp.videosQuery = none)
    (hp : fl StoreOp.videoProgressQuery = none)
    (hT : 0 < (videosOfProgram db programType).length) :
    checkCertificateEligibility fl db userId programType =
      { success := true
        eligible := some (decide
          (4 * (videosOfProgram db programType).length ≤
            5 * countCompleted (videosOfProgram db programType)
              (completedVideoIds db userId)))
        completionPercentage := some (toFixed2 (completionPercentageBinary64
          (countCompleted (videosOfProgram db programType)
            (completedVideoIds db userId))
          (videosOfProgram db programType).length))
        completedCount := some (countCompleted (videosOfProgram db programType)
          (completedVideoIds db userId))
        totalVideos := some (videosOfProgram db programType).length
        reason := some
          (if 4 * (videosOfProgram db programType).length ≤
              5 * countCompleted (videosOfProgram db programType)
                (completedVideoIds db userId)
            then "Meets criteria"
            else "Need " ++ toString
              (((4 * (videosOfProgram db programType).length + 4 : Nat) : Int) / 5
                - (countCompleted (videosOfProgram db programType)
                    (completedVideoIds db userId) : Int))
              ++ " more videos")
        error := none } := by
  unfold checkCertificateEligibility
  simp only [hq, hp, hT.ne.symm, if_false]
  rw [videosNeeded_eq]
  simp only [completionRatio_ge_iff _ _ hT, decide_eq_true_eq]

theorem fiveVideos_total (k : Nat) :
    (videosOfProgram (fiveVideos k) "jee").length = 5 := by
  rfl

theorem fiveVideos_four :
    countCompleted (videosOfProgram (fiveVideos 4) "jee")
      (completedVideoIds (fiveVideos 4) "u") = 4 := by
  decide

theorem fiveVideos_three :
    countCompleted (videosOfProgram (fiveVideos 3) "jee")
      (completedVideoIds (fiveVideos 3) "u") = 3 := by
  decide


theorem rewatched_total : (videosOfProgram rewatched "jee").length = 5 := by
  rfl

theorem rewatched_count :
    countCompleted (videosOfProgram rewatched "jee")
      (completedVideoIds rewatched "u") = 3 := by
  decide

/-- C3: with store calls that succeed, `checkCertificateEligibility` returns
`eligible = true` exactly when the program has a video and
`completedCount / totalVideos * 100 >= 80`, which is
`5 * completedCount >= 4 * totalVideos`; with 4 of 5 videos completed the
result is eligible with `completionPercentage` 80.00 and reason
"Meets criteria". -/
theorem eligible_iff_eighty_percent :
    (∀ (db : Store) (userId programType : String),
      ((checkCertificateEligibility noFaults db userId programType).eligible
            = some true ↔
          0 < (videosOfProgram db programType).length ∧
            completionRatio
              (countCompleted (videosOfProgram db programType)
                (completedVideoIds db userId))
              (videosOfProgram db programType).length ≥ 80) ∧
        ((0 < (videosOfProgram db programType).length ∧
            completionRatio
              (countCompleted (videosOfProgram db programType)
                (completedVideoIds db userId))
              (videosOfProgram db programType).length ≥ 80) ↔
          (0 < (videosOfProgram db programType).length ∧
            5 * countCompleted (videosOfProgram db programType)
                (completedVideoIds db userId)
              ≥ 4 * (videosOfProgram db programType).length))) ∧
      checkCertificateEligibility noFaults (fiveVideos 4) "u" "jee" =
        { success := true
          eligible := some true
          completionPercentage := some "80.00"
          completedCount := some 4
          totalVideos := some 5
          reason := some "Meets criteria"
          error := none } := by
  refine ⟨fun db userId programType => ?_, ?_⟩
  · by_cases hT : 0 < (videosOfProgram db programType).length
    · have hiff := completionRatio_ge_iff
        (countCompleted (videosOfProgram db programType)
          (completedVideoIds db userId)) _ hT
      rw [checkCertificateEligibility_computed noFaults db userId programType rfl rfl hT]
      simp only [Option.some.injEq, decide_eq_true_eq, hT, true_and, hiff, ge_iff_le]
    · have h0 : (videosOfProgram db programType).length = 0 := by omega
      simp [checkCertificateEligibility, noFaults, h0]
  · rw [checkCertificateEligibility_computed noFaults (fiveVideos 4) "u" "jee" rfl rfl
      (by rw [fiveVideos_total]; decide)]
    simp only [fiveVideos_total, fiveVideos_four, toFixed2_four_of_five]
    decide

/-- C4: when the program has no videos and the query on `videos` succeeds,
`checkCertificateEligibility` returns `eligible = false` with the reason
"No videos available", whatever progress records the store holds; the result
carries no percentage and the query on the progress records is not reached,
so that a fault of that query does not show. -/
theorem no_videos_not_eligible (fl : Faults) (db : Store)
    (userId programType : String)
    (hq : fl StoreOp.videosQuery = none)
    (h0 : (videosOfProgram db programType).length = 0) :
    checkCertificateEligibility fl db userId programType =
      { success := true
        eligible := some false
        completionPercentage := none
        completedCount := none
        totalVideos := none
        reason := some "No videos available"
        error := none } := by
  unfold checkCertificateEligibility
  simp only [hq, h0, if_true]

/-- C4, witness: the user `u` has four completed records, the program `neet`
has no videos and the progress query would throw. -/
theorem no_videos_not_eligible_witness :
    (progressQueryDown StoreOp.videosQuery = none ∧
      (videosOfProgram (fiveVideos 4) "neet").length = 0 ∧
      (completedVideoIds (fiveVideos 4) "u").length = 4) ∧
    checkCertificateEligibility progressQueryDown (fiveVideos 4) "u" "neet" =
      { success := true
        eligible := some false
        completionPercentage := none
        completedCount := none
        totalVideos := none
        reason := some "No videos available"
        error := none } :=
  ⟨⟨rfl, by decide, by decide⟩,
    no_videos_not_eligible progressQueryDown (fiveVideos 4) "u" "neet" rfl (by decide)⟩

/-- C5: whenever the eligibility check at claim time fails or is not eligible,
`generateCertificate` returns the failure 'Not eligible for certificate' and
leaves the store, and so the `certificates` collection, unchanged; this holds
whatever earlier store, read in whatever earlier run, had the same user
eligible for the same program. -/
theorem not_eligible_no_certificate (fl : Faults) (now serverTime : Int)
    (autoId : String) (db : Store) (userId programType userName : String)
    (h : (checkCertificateEligibility fl db userId programType).success = false ∨
      (checkCertificateEligibility fl db userId programType).eligible ≠ some true) :
    generateCertificate fl now serverTime autoId db userId programType userName =
        (db, { success := false
               certificateId := none
               certificate := none
               error := some "Not eligible for certificate" }) ∧
      (generateCertificate fl now serverTime autoId db userId programType
          userName).1.certificates = db.certificates ∧
      ∀ (flEarlier : Faults) (earlier : Store),
        (checkCertificateEligibility flEarlier earlier userId programType).eligible
          = some true →
        (generateCertificate fl now serverTime autoId db userId programType
            userName).2.success = false ∧
          (generateCertificate fl now serverTime autoId db userId programType
            userName).2.error = some "Not eligible for certificate" := by
  have hcond : (!(checkCertificateEligibility fl db userId programType).success ||
      !((checkCertificateEligibility fl db userId programType).eligible.getD false))
      = true := by
    rcases h with h | h
    · simp [h]
    · cases he : (checkCertificateEligibility fl db userId programType).eligible with
      | none => simp
      | some b =>
        cases b with
        | false => simp
        | true => exact absurd he h
  have hres : generateCertificate fl now serverTime autoId db userId programType
      userName =
        (db, { success := false
               certificateId := none
               certificate := none
               error := some "Not eligible for certificate" }) := by
    unfold generateCertificate
    simp only [hcond, if_true]
  refine ⟨hres, ?_, ?_⟩
  · rw [hres]
  · intro _ _ _
    rw [hres]
    exact ⟨rfl, rfl⟩

/-- C5, witness: the user was eligible with four of five videos completed.
Once `v1` is being watched again its record has `completed = false` and the
check at claim time is not eligible; over the store that is still eligible, a
progress query that throws makes the check itself fail.  Both claims are
refused and no certificate is written. -/
theorem not_eligible_no_certificate_witness :
    ((checkCertificateEligibility noFaults (fiveVideos 4) "u" "jee").eligible
        = some true ∧
      (checkCertificateEligibility noFaults rewatched "u" "jee").success = true ∧
      (checkCertificateEligibility noFaults rewatched "u" "jee").eligible
        = some false ∧
      (checkCertificateEligibility progressQueryDown (fiveVideos 4) "u" "jee").success
        = false) ∧
    (generateCertificate noFaults 1700000000000 0 "c1" rewatched "u" "jee" "Asha" =
        (rewatched, { success := false
                      certificateId := none
                      certificate := none
                      error := some "Not eligible for certificate" }) ∧
      (generateCertificate noFaults 1700000000000 0 "c1" rewatched "u" "jee"
          "Asha").1.certificates = [] ∧
      (generateCertificate noFaults 1700000000000 0 "c1" rewatched "u" "jee"
          "Asha").2.success = false) ∧
    (generateCertificate progressQueryDown 1700000000000 0 "c1" (fiveVideos 4) "u"
          "jee" "Asha" =
        (fiveVideos 4, { success := false
                         certificateId := none
                         certificate := none
                         error := some "Not eligible for certificate" }) ∧
      (generateCertificate progressQueryDown 1700000000000 0 "c1" (fiveVideos 4) "u"
          "jee" "Asha").1.certificates = [] ∧
      (generateCertificate progressQueryDown 1700000000000 0 "c1" (fiveVideos 4) "u"
          "jee" "Asha").2.success = false) :=
  have h1 : (checkCertificateEligibility noFaults (fiveVideos 4) "u" "jee").eligible
      = some true := by
    rw [checkCertificateEligibility_computed noFaults (fiveVideos 4) "u" "jee" rfl rfl
      (by rw [fiveVideos_total]; decide)]
    simp only [fiveVideos_total, fiveVideos_four]
    decide
  have h2 : (checkCertificateEligibility noFaults rewatched "u" "jee").success = true ∧
      (checkCertificateEligibility noFaults rewatched "u" "jee").eligible
        = some false := by
    rw [checkCertificateEligibility_computed noFaults rewatched "u" "jee" rfl rfl
      (by rw [rewatched_total]; decide)]
    simp only [rewatched_total, rewatched_count]
    decide
  have h3 : (checkCertificateEligibility progressQueryDown (fiveVideos 4) "u"
      "jee").success = false := by
    unfold checkCertificateEligibility
    simp [progressQueryDown, fiveVideos_total]
  have ha := not_eligible_no_certificate noFaults 1700000000000 0 "c1" rewatched
    "u" "jee" "Asha" (Or.inr (by rw [h2.2]; decide))
  have hb := not_eligible_no_certificate progressQueryDown 1700000000000 0 "c1"
    (fiveVideos 4) "u" "jee" "Asha" (Or.inl h3)
  ⟨⟨h1, h2.1, h2.2, h3⟩,
    ⟨ha.1, ha.2.1, (ha.2.2 noFaults (fiveVideos 4) h1).1⟩,
    ⟨hb.1, hb.2.1, (hb.2.2 noFaults (fiveVideos 4) h1).1⟩⟩


/-- C6 (amended): for `currentTime >= 0` and a duration `D > 0`, the tick
passes `min(100, floor(p))` to `updateProgressUI`, an integer between 0 and
100, where `p` is the double `(currentTime / D) * 100`; `saveVideoProgress`
stores `floor(p)` without clamping, which is the same number whenever
`currentTime <= D`, as in every record a tick persists.  For
`currentTime <= D < 2 ^ 40`, `floor(p)` is the floor of the exact quotient
`currentTime / D * 100` or one less. -/
theorem percentage_derivation (currentTime D : Int) (hc : 0 ≤ currentTime)
    (hD : 0 < D) :
    (uiPercentage currentTime D
          = some (min 100 ⌊binary64Percent (currentTime : ℚ) (D : ℚ)⌋) ∧
        0 ≤ min 100 ⌊binary64Percent (currentTime : ℚ) (D : ℚ)⌋ ∧
        min 100 ⌊binary64Percent (currentTime : ℚ) (D : ℚ)⌋ ≤ 100) ∧
      (∀ (fl : Faults) (serverTime : Int) (db : Store) (userId videoId : String)
          (watchedDuration : Int) (completed : Bool),
        fl StoreOp.videoProgressSet = none →
        (getDoc (progressKey userId videoId)
            (saveVideoProgress fl serverTime db userId videoId
              { currentTime := currentTime, duration := D
                watchedDuration := watchedDuration
                completed := completed }).1.videoProgress).map
            (fun r => r.percentageWatched)
          = some (some ⌊binary64Percent (currentTime : ℚ) (D : ℚ)⌋)) ∧
      (currentTime ≤ D →
        ⌊binary64Percent (currentTime : ℚ) (D : ℚ)⌋
          = min 100 ⌊binary64Percent (currentTime : ℚ) (D : ℚ)⌋) ∧
      (currentTime ≤ D → D < 2 ^ 40 →
        ⌊(currentTime : ℚ) / (D : ℚ) * 100⌋ - 1
            ≤ ⌊binary64Percent (currentTime : ℚ) (D : ℚ)⌋ ∧
          ⌊binary64Percent (currentTime : ℚ) (D : ℚ)⌋
            ≤ ⌊(currentTime : ℚ) / (D : ℚ) * 100⌋) ∧
      (∀ (args : TimerArgs) (elapsedSeconds : Int) (env : TickEnv) (w : World),
        args.videoDuration = D →
        w.tracker.lastSavedTime + elapsedSeconds = currentTime →
        env.faults StoreOp.videoProgressSet = none →
        ∃ r, getDoc (progressKey args.userId args.videoId)
              (trackingTick args elapsedSeconds env w).db.videoProgress = some r ∧
            r.percentageWatched
              = some (min 100 ⌊binary64Percent (r.currentTime : ℚ) (D : ℚ)⌋)) := by
  have hDq : (0 : ℚ) < (D : ℚ) := by exact_mod_cast hD
  have hcq : (0 : ℚ) ≤ (currentTime : ℚ) := by exact_mod_cast hc
  have hnonneg : 0 ≤ ⌊binary64Percent (currentTime : ℚ) (D : ℚ)⌋ :=
    Int.floor_nonneg.2 (binary64Percent_nonneg _ _ (by positivity))
  have hle : currentTime ≤ D →
      ⌊binary64Percent (currentTime : ℚ) (D : ℚ)⌋ ≤ 100 := by
    intro h
    have h1 : (currentTime : ℚ) / (D : ℚ) ≤ 1 := by
      rw [div_le_one hDq]
      exact_mod_cast h
    have := binary64Percent_le_hundred (currentTime : ℚ) (D : ℚ) (by positivity) h1
    exact Int.floor_le_iff.2 (by push_cast; linarith)
  refine ⟨⟨?_, ?_, ?_⟩, ?_, ?_, ?_, ?_⟩
  · simp only [uiPercentage, hD.ne.symm, if_false, min_comm]
  · exact le_min (by decide) hnonneg
  · exact min_le_left _ _
  · intro fl serverTime db userId videoId watchedDuration completed hset
    rw [saveVideoProgress_record _ _ _ _ _ _ hset]
    simp [progressMerge, percentageWatched, hD.ne.symm]
  · intro h
    rw [min_eq_right (hle h)]
  · intro h h40
    exact floor_binary64Percent_near currentTime D hc hD h h40
  · intro args elapsedSeconds env w hargs hsum hset
    by_cases hgt : w.tracker.lastSavedTime + elapsedSeconds > args.videoDuration
    · refine ⟨_, trackingTick_complete_record args elapsedSeconds env w hset hgt, ?_⟩
      have hself := percentageWatched_self D hD
      simp only [progressMerge, hargs, hself]
      simp only [percentageWatched, hD.ne.symm, if_false, Option.some.injEq] at hself
      rw [hself]
      rfl
    · refine ⟨_, trackingTick_continue_record args elapsedSeconds env w hset hgt, ?_⟩
      have hcD : currentTime ≤ D := by omega
      simp only [progressMerge, hargs, hsum, percentageWatched, hD.ne.symm, if_false,
        min_eq_right (hle hcD)]

/-- C6, witness: a tick that brings a session on the 600 second video to 174
seconds.  The exact quotient `174 / 600 * 100` is 29; the double is just below
29, and 28 is shown and stored. -/
theorem percentage_derivation_witness :
    ((0 : Int) ≤ 174 ∧ (0 : Int) < 600 ∧ ((174 : Int) ≤ 600) ∧
      (600 : Int) < 2 ^ 40 ∧
      sampleArgs.videoDuration = 600 ∧
      freshSession.tracker.lastSavedTime + 174 = 174 ∧
      quietEnv.faults StoreOp.videoProgressSet = none) ∧
    uiPercentage 174 600 = some 28 ∧
    (⌊((174 : Int) : ℚ) / ((600 : Int) : ℚ) * 100⌋ - 1
        ≤ ⌊binary64Percent ((174 : Int) : ℚ) ((600 : Int) : ℚ)⌋ ∧
      ⌊binary64Percent ((174 : Int) : ℚ) ((600 : Int) : ℚ)⌋
        ≤ ⌊((174 : Int) : ℚ) / ((600 : Int) : ℚ) * 100⌋) ∧
    ⌊((174 : Int) : ℚ) / ((600 : Int) : ℚ) * 100⌋ = 29 ∧
    ∃ r, getDoc (progressKey sampleArgs.userId sampleArgs.videoId)
          (trackingTick sampleArgs 174 quietEnv freshSession).db.videoProgress
            = some r ∧
        r.currentTime = 174 ∧
        r.percentageWatched = some 28 :=
  have hcarry : freshSession.tracker.lastSavedTime + 174 = 174 := by decide
  have h28 : ⌊binary64Percent ((174 : Int) : ℚ) ((600 : Int) : ℚ)⌋ = 28 :=
    floor_binary64Percent_29_100 _ _ (by norm_num)
  have hthm := percentage_derivation 174 600 (by decide) (by decide)
  have hui : uiPercentage 174 600 = some 28 := by
    rw [hthm.1.1, h28]
    rfl
  have hn : ¬ freshSession.tracker.lastSavedTime + 174 > sampleArgs.videoDuration := by
    decide
  have hrec := trackingTick_continue_record sampleArgs 174 quietEnv freshSession rfl hn
  ⟨⟨by decide, by decide, by decide, by norm_num, rfl, hcarry, rfl⟩,
    hui,
    hthm.2.2.2.1 (by decide) (by norm_num),
    by rw [floor_ratio_eq_div 174 600 (by decide)]; decide,
    by
      obtain ⟨r, hr, hp⟩ := hthm.2.2.2.2 sampleArgs 174 quietEnv freshSession rfl hcarry rfl
      have hr' := hr
      rw [hrec] at hr'
      have hcur : r.currentTime = 174 := by
        cases hr'
        exact hcarry
      refine ⟨r, hr, hcur, ?_⟩
      rw [hp, hcur, h28]
      rfl⟩

/-- C6, counterexample: `saveVideoProgress` called with `currentTime = 300`
and `duration = 100` stores `percentageWatched = 300`, while
`min(100, floor(300 / 100 * 100))` is 100; and with `currentTime = 435` and
`duration = 1500` it stores 28 and the tick shows 28, while
`min(100, floor(435 / 1500 * 100))` is 29 in exact arithmetic. -/
theorem stored_percentage_not_clamped :
    ((getDoc (progressKey "u" "v")
          (saveVideoProgress noFaults 0 emptyStore "u" "v"
            { currentTime := 300, duration := 100, watchedDuration := 0
              completed := false }).1.videoProgress).map
          (fun r => r.percentageWatched)
        = some (some 300) ∧
      min 100 ⌊((300 : Int) : ℚ) / ((100 : Int) : ℚ) * 100⌋ = 100) ∧
    ((getDoc (progressKey "u" "v")
          (saveVideoProgress noFaults 0 emptyStore "u" "v"
            { currentTime := 435, duration := 1500, watchedDuration := 0
              completed := false }).1.videoProgress).map
          (fun r => r.percentageWatched)
        = some (some 28) ∧
      uiPercentage 435 1500 = some 28 ∧
      min 100 ⌊((435 : Int) : ℚ) / ((1500 : Int) : ℚ) * 100⌋ = 29) := by
  have h300 : percentageWatched 300 100 = some 300 := by
    unfold percentageWatched
    rw [if_neg (by decide),
      binary64Percent_of_int 3 _ _ (by decide) (by norm_num) (by norm_num)]
    norm_num
  have h28 : ⌊binary64Percent ((435 : Int) : ℚ) ((1500 : Int) : ℚ)⌋ = 28 :=
    floor_binary64Percent_29_100 _ _ (by norm_num)
  have h435 : percentageWatched 435 1500 = some 28 := by
    unfold percentageWatched
    rw [if_neg (by decide), h28]
  refine ⟨⟨?_, ?_⟩, ?_, ?_, ?_⟩
  · rw [saveVideoProgress_record _ _ _ _ _ _ rfl]
    simp only [progressMerge, Option.map_some', h300]
  · rw [floor_ratio_eq_div 300 100 (by decide)]
    decide
  · rw [saveVideoProgress_record _ _ _ _ _ _ rfl]
    simp only [progressMerge, Option.map_some', h435]
  · unfold uiPercentage
    rw [if_neg (by decide), h28]
    rfl
  · rw [floor_ratio_eq_div 435 1500 (by decide)]
    decide


/-- C7: on a tick that does not complete the video, with a store write that
succeeds, the persisted record has
`currentTime = lastSavedTime + elapsedSeconds` and `completed = false`, its
`totalWatchTime` is the stored one (0 when there was no record) plus
`elapsedSeconds`, and `lastSavedTime` becomes
`lastSavedTime + elapsedSeconds`. -/
theorem continuing_tick_record (args : TimerArgs) (elapsedSeconds : Int)
    (env : TickEnv) (w : World)
    (hset : env.faults StoreOp.videoProgressSet = none)
    (h : w.tracker.lastSavedTime + elapsedSeconds ≤ args.videoDuration) :
    (∃ r, getDoc (progressKey args.userId args.videoId)
          (trackingTick args elapsedSeconds env w).db.videoProgress = some r ∧
        r.currentTime = w.tracker.lastSavedTime + elapsedSeconds ∧
        r.completed = false ∧
        r.totalWatchTime =
          (match getDoc (progressKey args.userId args.videoId) w.db.videoProgress with
            | some o => o.totalWatchTime
            | none => 0) + elapsedSeconds) ∧
      (trackingTick args elapsedSeconds env w).tracker.lastSavedTime
        = w.tracker.lastSavedTime + elapsedSeconds := by
  have hn : ¬ w.tracker.lastSavedTime + elapsedSeconds > args.videoDuration := by
    omega
  refine ⟨⟨_, trackingTick_continue_record args elapsedSeconds env w hset hn,
    rfl, rfl, rfl⟩, ?_⟩
  rw [trackingTick_continue args elapsedSeconds env w hn]

/-- C7, witness: the session resumed at 585 seconds, whose stored
`totalWatchTime` is 585, and a tick of 15 seconds. -/
theorem continuing_tick_record_witness :
    (quietEnv.faults StoreOp.videoProgressSet = none ∧
      resumedSession.tracker.lastSavedTime + 15 ≤ sampleArgs.videoDuration) ∧
    ((∃ r, getDoc (progressKey sampleArgs.userId sampleArgs.videoId)
          (trackingTick sampleArgs 15 quietEnv resumedSession).db.videoProgress
            = some r ∧
        r.currentTime = resumedSession.tracker.lastSavedTime + 15 ∧
        r.completed = false ∧
        r.totalWatchTime =
          (match getDoc (progressKey sampleArgs.userId sampleArgs.videoId)
              resumedSession.db.videoProgress with
            | some o => o.totalWatchTime
            | none => 0) + 15) ∧
      (trackingTick sampleArgs 15 quietEnv resumedSession).tracker.lastSavedTime
        = resumedSession.tracker.lastSavedTime + 15) :=
  ⟨⟨rfl, by decide⟩,
    continuing_tick_record sampleArgs 15 quietEnv resumedSession rfl (by decide)⟩


/-! ## A large program -/

theorem videoName_injective (i j : Nat) (h : videoName i = videoName j) : i = j := by
  unfold videoName at h
  have hl := congrArg String.length h
  simp [String.length] at hl
  exact hl

theorem length_filter_range_lt (n c : Nat) :
    ((List.range n).filter (fun i => decide (i < c))).length = min n c := by
  induction n with
  | zero => simp
  | succ n ih =>
    rw [List.range_succ, List.filter_append, List.length_append, ih]
    by_cases h : n < c
    · simp [List.filter, h]
      omega
    · simp [List.filter, h]
      omega

theorem programOf_total (total done : Nat) :
    (videosOfProgram (programOf total done) "jee").length = total := by
  unfold videosOfProgram programOf
  rw [List.filter_eq_self.2]
  · simp
  · intro p hp
    obtain ⟨i, _, rfl⟩ := List.mem_map.1 hp
    simp

theorem programOf_completedVideoIds (total done : Nat) :
    completedVideoIds (programOf total done) "u"
      = (List.range done).map videoName := by
  unfold completedVideoIds programOf
  rw [List.filter_eq_self.2]
  · simp [Function.comp_def]
  · intro p hp
    obtain ⟨i, _, rfl⟩ := List.mem_map.1 hp
    simp

theorem programOf_count (total done : Nat) (h : done ≤ total) :
    countCompleted (videosOfProgram (programOf total done) "jee")
      (completedVideoIds (programOf total done) "u") = done := by
  rw [programOf_completedVideoIds]
  unfold countCompleted videosOfProgram
  rw [List.filter_filter]
  unfold programOf
  simp only [List.filter_map, List.length_map]
  have hcongr : (List.range total).filter
        ((fun p : String × VideoDoc =>
            decide (p.1 ∈ List.map videoName (List.range done)) &&
              decide (p.2.programType = "jee")) ∘
          fun i => (videoName i, ({ programType := "jee", duration := 10 } : VideoDoc)))
      = (List.range total).filter (fun i => decide (i < done)) := by
    apply List.filter_congr
    intro i _
    simp only [Function.comp_apply, decide_True, Bool.and_true, List.mem_map,
      List.mem_range]
    apply decide_eq_decide.2
    constructor
    · rintro ⟨j, hj, hij⟩
      rw [← videoName_injective j i hij]
      exact hj
    · intro hi
      exact ⟨i, hi, rfl⟩
  rw [hcongr, length_filter_range_lt]
  omega


theorem countCompleted_le (videosSnapshot : List (String × VideoDoc))
    (completed : List String) :
    countCompleted videosSnapshot completed ≤ videosSnapshot.length := by
  unfold countCompleted
  exact List.length_filter_le _ _

theorem toFixed2_23_of_160 :
    toFixed2 (completionPercentageBinary64 23 160) = "14.37" := by
  have hx : completionPercentageBinary64 23 160 = 8092405580431359 / 2 ^ 49 :=
    binary64Percent_23_160 _ _ (by norm_num)
  rw [toFixed2_binary64, toFixedHundredths_of_bounds _ 1437
    (completionPercentageBinary64_nonneg 23 160) (by rw [hx]; norm_num)
    (by rw [hx]; norm_num)]
  decide

/-- C8 (amended): in a result computed for a program with videos, `eligible` is
true exactly when the unrounded ratio `completedCount / totalVideos * 100` is
at least 80, on the exact quotient and, for a program of at most `2 ^ 50`
videos, on the double that the code compares; the returned
`completionPercentage` is that double printed with 2 decimals, it is at least
80.00 whenever the result is eligible, and a printed 80.00 or more implies
eligible for programs of fewer than 4004 videos. -/
theorem eligible_iff_unrounded_ratio (fl : Faults) (db : Store)
    (userId programType : String)
    (hq : fl StoreOp.videosQuery = none)
    (hp : fl StoreOp.videoProgressQuery = none)
    (hT : 0 < (videosOfProgram db programType).length) :
    (checkCertificateEligibility fl db userId programType).completionPercentage
        = some (renderHundredths (toFixedHundredths (completionPercentageBinary64
            (countCompleted (videosOfProgram db programType)
              (completedVideoIds db userId))
            (videosOfProgram db programType).length))) ∧
      ((checkCertificateEligibility fl db userId programType).eligible = some true ↔
        completionRatio
          (countCompleted (videosOfProgram db programType)
            (completedVideoIds db userId))
          (videosOfProgram db programType).length ≥ 80) ∧
      ((videosOfProgram db programType).length ≤ 2 ^ 50 →
        ((checkCertificateEligibility fl db userId programType).eligible = some true ↔
          completionPercentageBinary64
            (countCompleted (videosOfProgram db programType)
              (completedVideoIds db userId))
            (videosOfProgram db programType).length ≥ 80)) ∧
      ((checkCertificateEligibility fl db userId programType).eligible = some true →
        8000 ≤ toFixedHundredths (completionPercentageBinary64
          (countCompleted (videosOfProgram db programType)
            (completedVideoIds db userId))
          (videosOfProgram db programType).length)) ∧
      ((videosOfProgram db programType).length < 4004 →
        8000 ≤ toFixedHundredths (completionPercentageBinary64
          (countCompleted (videosOfProgram db programType)
            (completedVideoIds db userId))
          (videosOfProgram db programType).length) →
        (checkCertificateEligibility fl db userId programType).eligible
          = some true) := by
  have hcount := countCompleted_le (videosOfProgram db programType)
    (completedVideoIds db userId)
  rw [checkCertificateEligibility_computed fl db userId programType hq hp hT]
  simp only [Option.some.injEq, decide_eq_true_eq, ← completionRatio_ge_iff _ _ hT]
  generalize (videosOfProgram db programType).length = T at hT hcount ⊢
  generalize countCompleted _ _ = c at hcount ⊢
  refine ⟨toFixed2_binary64 c T, trivial, ?_, ?_, ?_⟩
  · intro hbound
    exact (binary64Percent_ge_eighty_iff c T hT hcount hbound).symm
  · intro h
    exact toFixedHundredths_ge_of_ratio c T hT h
  · intro hlt h
    by_contra hne
    have := toFixedHundredths_lt_of_ratio c T hT hlt hne
    omega

/-- C8, witness: with 23 of 160 videos completed the exact quotient is 14.375,
the double is just below it, the returned field is 14.37 and the result is
not eligible. -/
theorem eligible_iff_unrounded_ratio_witness :
    (noFaults StoreOp.videosQuery = none ∧
      noFaults StoreOp.videoProgressQuery = none ∧
      0 < (videosOfProgram (programOf 160 23) "jee").length ∧
      (videosOfProgram (programOf 160 23) "jee").length ≤ 2 ^ 50) ∧
    (checkCertificateEligibility noFaults (programOf 160 23) "u" "jee").completionPercentage
      = some "14.37" ∧
    completionRatio 23 160 = 14.375 ∧
    ¬ completionRatio
        (countCompleted (videosOfProgram (programOf 160 23) "jee")
          (completedVideoIds (programOf 160 23) "u"))
        (videosOfProgram (programOf 160 23) "jee").length ≥ 80 ∧
    ¬ completionPercentageBinary64
        (countCompleted (videosOfProgram (programOf 160 23) "jee")
          (completedVideoIds (programOf 160 23) "u"))
        (videosOfProgram (programOf 160 23) "jee").length ≥ 80 ∧
    (checkCertificateEligibility noFaults (programOf 160 23) "u" "jee").eligible
      ≠ some true :=
  have hlen : (videosOfProgram (programOf 160 23) "jee").length = 160 :=
    programOf_total 160 23
  have hcnt : countCompleted (videosOfProgram (programOf 160 23) "jee")
      (completedVideoIds (programOf 160 23) "u") = 23 :=
    programOf_count 160 23 (by decide)
  have hT : 0 < (videosOfProgram (programOf 160 23) "jee").length := by
    rw [hlen]
    decide
  have hB : (videosOfProgram (programOf 160 23) "jee").length ≤ 2 ^ 50 := by
    rw [hlen]
    decide
  have hthm := eligible_iff_unrounded_ratio noFaults (programOf 160 23) "u" "jee"
    rfl rfl hT
  have hratio : ¬ completionRatio
      (countCompleted (videosOfProgram (programOf 160 23) "jee")
        (completedVideoIds (programOf 160 23) "u"))
      (videosOfProgram (programOf 160 23) "jee").length ≥ 80 := by
    rw [hlen, hcnt, completionRatio_ge_iff 23 160 (by decide)]
    decide
  have hne : (checkCertificateEligibility noFaults (programOf 160 23) "u"
      "jee").eligible ≠ some true := fun h => hratio (hthm.2.1.1 h)
  ⟨⟨rfl, rfl, hT, hB⟩,
    by
      rw [hthm.1, hlen, hcnt, ← toFixed2_binary64]
      exact congrArg some toFixed2_23_of_160,
    by unfold completionRatio; norm_num,
    hratio,
    fun h => hne ((hthm.2.2.1 hB).2 h),
    hne⟩

/-- C8, counterexample: with 3203 of 4004 videos completed the ratio is
79.995..., the returned `completionPercentage` is 80.00 and `eligible` is
false. -/
theorem rounded_eighty_not_eligible :
    checkCertificateEligibility noFaults largeProgram "u" "jee" =
      { success := true
        eligible := some false
        completionPercentage := some "80.00"
        completedCount := some 3203
        totalVideos := some 4004
        reason := some "Need 1 more videos"
        error := none } := by
  unfold largeProgram
  rw [checkCertificateEligibility_computed noFaults (programOf 4004 3203) "u" "jee"
    rfl rfl (by rw [programOf_total]; decide)]
  simp only [programOf_total, programOf_count 4004 3203 (by decide),
    toFixed2_3203_of_4004]
  decide


/-- C9: in a result computed for a program with videos, the reason is
"Meets criteria" when eligible and otherwise "Need n more videos" with
`n = ceil(totalVideos * 0.8) - completedCount`; with 3 of 5 videos completed
the result has `completionPercentage` 60.00, `eligible = false` and reports 1
more video. -/
theorem reason_of_result :
    (∀ (fl : Faults) (db : Store) (userId programType : String),
      fl StoreOp.videosQuery = none →
      fl StoreOp.videoProgressQuery = none →
      0 < (videosOfProgram db programType).length →
      ((checkCertificateEligibility fl db userId programType).eligible = some true ∧
          (checkCertificateEligibility fl db userId programType).reason
            = some "Meets criteria") ∨
        ((checkCertificateEligibility fl db userId programType).eligible = some false ∧
          (checkCertificateEligibility fl db userId programType).reason
            = some ("Need " ++ toString
                (⌈((videosOfProgram db programType).length : ℚ) * 0.8⌉
                  - ((countCompleted (videosOfProgram db programType)
                      (completedVideoIds db userId) : Nat) : Int))
              ++ " more videos"))) ∧
      checkCertificateEligibility noFaults (fiveVideos 3) "u" "jee" =
        { success := true
          eligible := some false
          completionPercentage := some "60.00"
          completedCount := some 3
          totalVideos := some 5
          reason := some "Need 1 more videos"
          error := none } := by
  refine ⟨fun fl db userId programType hq hp hT => ?_, ?_⟩
  · have hT0 : (videosOfProgram db programType).length ≠ 0 := by omega
    unfold checkCertificateEligibility
    simp only [hq, hp, hT0, if_false]
    by_cases h : completionRatio
        (countCompleted (videosOfProgram db programType)
          (completedVideoIds db userId))
        (videosOfProgram db programType).length ≥ 80
    · left
      simp [h]
    · right
      simp [h, videosNeeded]
  · rw [checkCertificateEligibility_computed noFaults (fiveVideos 3) "u" "jee" rfl rfl
      (by rw [fiveVideos_total]; decide)]
    simp only [fiveVideos_total, fiveVideos_three, toFixed2_three_of_five]
    decide

/-- C9, witness: three of five videos completed. -/
theorem reason_of_result_witness :
    (noFaults StoreOp.videosQuery = none ∧
      noFaults StoreOp.videoProgressQuery = none ∧
      0 < (videosOfProgram (fiveVideos 3) "jee").length) ∧
    (((checkCertificateEligibility noFaults (fiveVideos 3) "u" "jee").eligible
          = some true ∧
        (checkCertificateEligibility noFaults (fiveVideos 3) "u" "jee").reason
          = some "Meets criteria") ∨
      ((checkCertificateEligibility noFaults (fiveVideos 3) "u" "jee").eligible
          = some false ∧
        (checkCertificateEligibility noFaults (fiveVideos 3) "u" "jee").reason
          = some ("Need " ++ toString
              (⌈((videosOfProgram (fiveVideos 3) "jee").length : ℚ) * 0.8⌉
                - ((countCompleted (videosOfProgram (fiveVideos 3) "jee")
                    (completedVideoIds (fiveVideos 3) "u") : Nat) : Int))
            ++ " more videos"))) :=
  have hT : 0 < (videosOfProgram (fiveVideos 3) "jee").length := by
    rw [fiveVideos_total]
    decide
  ⟨⟨rfl, rfl, hT⟩, reason_of_result.1 noFaults (fiveVideos 3) "u" "jee" rfl rfl hT⟩

/-! ## The completed count -/

theorem countCompleted_eq_spec (db : Store) (userId programType : String) :
    countCompleted (videosOfProgram db programType) (completedVideoIds db userId)
      = specCompletedCount db userId programType := by
  unfold countCompleted videosOfProgram specCompletedCount completedVideoIds
  rw [List.filter_filter]
  congr 1
  apply List.filter_congr
  intro v _
  rw [Bool.and_comm]
  congr 1
  rw [Bool.eq_iff_iff]
  simp only [decide_eq_true_eq, List.mem_map, List.mem_filter, Bool.and_eq_true,
    List.any_eq_true]
  constructor
  · rintro ⟨r, ⟨hr, hu, hc⟩, hv⟩
    exact ⟨r, hr, ⟨hu, hv⟩, hc⟩
  · rintro ⟨r, hr, ⟨hu, hv⟩, hc⟩
    exact ⟨r, ⟨hr, hu, hc⟩, hv⟩

/-- C10: the `completedCount` of a computed result is the number of videos of
the program for which the user has a progress record with `completed = true`,
it is at most `totalVideos`, and a further progress record of another user,
with `completed = false`, or for a video outside the program does not change
it. -/
theorem completedCount_counts_completed_videos (fl : Faults) (db : Store)
    (userId programType : String)
    (hq : fl StoreOp.videosQuery = none)
    (hp : fl StoreOp.videoProgressQuery = none)
    (hT : 0 < (videosOfProgram db programType).length) :
    (checkCertificateEligibility fl db userId programType).completedCount
        = some (specCompletedCount db userId programType) ∧
      (checkCertificateEligibility fl db userId programType).totalVideos
        = some (videosOfProgram db programType).length ∧
      specCompletedCount db userId programType
        ≤ (videosOfProgram db programType).length ∧
      (∀ (key : String) (record : ProgressDoc),
        (record.userId ≠ userId ∨ record.completed = false ∨
          ∀ v ∈ videosOfProgram db programType, v.1 ≠ record.videoId) →
        (checkCertificateEligibility fl
            { db with videoProgress := db.videoProgress ++ [(key, record)] }
            userId programType).completedCount
          = (checkCertificateEligibility fl db userId programType).completedCount) := by
  refine ⟨?_, ?_, ?_, ?_⟩
  · rw [checkCertificateEligibility_computed fl db userId programType hq hp hT,
      countCompleted_eq_spec]
  · rw [checkCertificateEligibility_computed fl db userId programType hq hp hT]
  · rw [← countCompleted_eq_spec]
    exact countCompleted_le _ _
  · intro key record hrec
    have hT' : 0 < (videosOfProgram
        { db with videoProgress := db.videoProgress ++ [(key, record)] }
        programType).length := hT
    rw [checkCertificateEligibility_computed fl _ userId programType hq hp hT',
      checkCertificateEligibility_computed fl db userId programType hq hp hT]
    simp only [Option.some.injEq]
    show countCompleted (videosOfProgram db programType) _
      = countCompleted (videosOfProgram db programType) _
    unfold countCompleted
    congr 1
    apply List.filter_congr
    intro v hv
    apply decide_eq_decide.2
    unfold completedVideoIds
    simp only [List.filter_append, List.map_append, List.mem_append]
    constructor
    · rintro (h | h)
      · exact h
      · exfalso
        simp only [List.mem_map, List.mem_filter, List.mem_singleton,
          Bool.and_eq_true, decide_eq_true_eq] at h
        obtain ⟨p, ⟨rfl, hu, hc⟩, hvid⟩ := h
        rcases hrec with h1 | h2 | h3
        · exact h1 hu
        · simp only at hc
          rw [h2] at hc
          cases hc
        · exact h3 v hv hvid.symm
    · intro h
      exact Or.inl h

/-- C10, witness: the store with three of five videos completed and a further
completed record of the user `w`. -/
theorem completedCount_counts_completed_videos_witness :
    (noFaults StoreOp.videosQuery = none ∧
      noFaults StoreOp.videoProgressQuery = none ∧
      0 < (videosOfProgram (fiveVideos 3) "jee").length) ∧
    (checkCertificateEligibility noFaults (fiveVideos 3) "u" "jee").completedCount
      = some (specCompletedCount (fiveVideos 3) "u" "jee") ∧
    specCompletedCount (fiveVideos 3) "u" "jee" = 3 ∧
    (checkCertificateEligibility noFaults
        { fiveVideos 3 with
          videoProgress := (fiveVideos 3).videoProgress ++
            [(progressKey "w" "v4",
              { userId := "w", videoId := "v4", currentTime := 600
                duration := 600, percentageWatched := some 100
                completed := true, lastWatchedAt := 0
                totalWatchTime := 600 })] }
        "u" "jee").completedCount
      = (checkCertificateEligibility noFaults (fiveVideos 3) "u" "jee").completedCount :=
  have hT : 0 < (videosOfProgram (fiveVideos 3) "jee").length := by
    rw [fiveVideos_total]
    decide
  ⟨⟨rfl, rfl, hT⟩,
    (completedCount_counts_completed_videos noFaults (fiveVideos 3) "u" "jee"
      rfl rfl hT).1,
    by decide,
    (completedCount_counts_completed_videos noFaults (fiveVideos 3) "u" "jee"
      rfl rfl hT).2.2.2 _ _ (Or.inl (by decide))⟩

/-! ## Lemmas on strings -/

theorem append_sep_inj_of_not_mem_right {α : Type} (c : α) (a a' b b' : List α)
    (hb : c ∉ b) (hb' : c ∉ b') (h : a ++ c :: b = a' ++ c :: b') :
    a = a' ∧ b = b' := by
  rcases List.append_eq_append_iff.1 h with ⟨x, hx1, hx2⟩ | ⟨x, hx1, hx2⟩
  · cases x with
    | nil =>
      simp only [List.append_nil, List.nil_append, List.cons.injEq, true_and] at hx1 hx2
      exact ⟨hx1.symm, hx2⟩
    | cons y ys =>
      exfalso
      simp only [List.cons_append, List.cons.injEq] at hx2
      apply hb
      rw [hx2.2]
      simp
  · cases x with
    | nil =>
      simp only [List.append_nil, List.nil_append, List.cons.injEq, true_and] at hx1 hx2
      exact ⟨hx1, hx2.symm⟩
    | cons y ys =>
      exfalso
      simp only [List.cons_append, List.cons.injEq] at hx2
      apply hb'
      rw [hx2.2]
      simp

theorem append_sep_inj_of_not_mem_left {α : Type} (c : α) (a a' b b' : List α)
    (ha : c ∉ a) (ha' : c ∉ a') (h : a ++ c :: b = a' ++ c :: b') :
    a = a' ∧ b = b' := by
  rcases List.append_eq_append_iff.1 h with ⟨x, hx1, hx2⟩ | ⟨x, hx1, hx2⟩
  · cases x with
    | nil =>
      simp only [List.append_nil, List.nil_append, List.cons.injEq, true_and] at hx1 hx2
      exact ⟨hx1.symm, hx2⟩
    | cons y ys =>
      exfalso
      simp only [List.cons_append, List.cons.injEq] at hx2
      apply ha'
      rw [hx1, hx2.1]
      simp
  · cases x with
    | nil =>
      simp only [List.append_nil, List.nil_append, List.cons.injEq, true_and] at hx1 hx2
      exact ⟨hx1, hx2.symm⟩
    | cons y ys =>
      exfalso
      simp only [List.cons_append, List.cons.injEq] at hx2
      apply ha
      rw [hx1, hx2.1]
      simp

theorem digitChar_value : ∀ m, m < 10 →
    (Nat.digitChar m).toNat - 48 = m ∧ Nat.digitChar m ≠ '-' := by
  decide

theorem digitsValue_append (xs : List Char) (d : Char) :
    digitsValue (xs ++ [d]) = 10 * digitsValue xs + (d.toNat - 48) := by
  simp [digitsValue, List.foldl_append]

theorem toDigitsCore_spec (fuel : Nat) :
    ∀ (n : Nat) (ds : List Char), n < fuel →
      ∃ xs, Nat.toDigitsCore 10 fuel n ds = xs ++ ds ∧ digitsValue xs = n ∧
        '-' ∉ xs := by
  induction fuel with
  | zero => intro n ds h; omega
  | succ fuel ih =>
    intro n ds h
    have hd := digitChar_value (n % 10) (Nat.mod_lt _ (by decide))
    unfold Nat.toDigitsCore
    by_cases h0 : n / 10 = 0
    · refine ⟨[Nat.digitChar (n % 10)], by simp [h0], ?_, ?_⟩
      · have := digitsValue_append [] (Nat.digitChar (n % 10))
        simp only [List.nil_append] at this
        rw [this, hd.1]
        simp [digitsValue]
        omega
      · simp only [List.mem_singleton]
        exact fun hc => hd.2 hc.symm
    · obtain ⟨xs, hxs, hval, hmem⟩ := ih (n / 10) (Nat.digitChar (n % 10) :: ds) (by omega)
      refine ⟨xs ++ [Nat.digitChar (n % 10)], by simp [h0, hxs], ?_, ?_⟩
      · rw [digitsValue_append, hval, hd.1]
        omega
      · simp only [List.mem_append, List.mem_singleton, not_or]
        exact ⟨hmem, fun hc => hd.2 hc.symm⟩

theorem repr_spec (n : Nat) :
    digitsValue (Nat.repr n).data = n ∧ '-' ∉ (Nat.repr n).data := by
  obtain ⟨xs, hxs, hval, hmem⟩ := toDigitsCore_spec (n + 1) n [] (by omega)
  have h : (Nat.repr n).data = xs := by
    simp [Nat.repr, Nat.toDigits, hxs, List.asString]
  rw [h]
  exact ⟨hval, hmem⟩

theorem repr_injective (n m : Nat) (h : Nat.repr n = Nat.repr m) : n = m := by
  rw [← (repr_spec n).1, ← (repr_spec m).1, h]

theorem toString_natCast (n : Nat) : toString ((n : Nat) : Int) = Nat.repr n := rfl


theorem certificateId_inj (p1 p2 : String) (now1 now2 : Int)
    (h1 : 0 ≤ now1) (h2 : 0 ≤ now2)
    (h : "LAKSHYA-" ++ p1 ++ "-" ++ toString now1
      = "LAKSHYA-" ++ p2 ++ "-" ++ toString now2) :
    p1 = p2 ∧ now1 = now2 := by
  obtain ⟨n1, rfl⟩ := Int.eq_ofNat_of_zero_le h1
  obtain ⟨n2, rfl⟩ := Int.eq_ofNat_of_zero_le h2
  rw [toString_natCast, toString_natCast] at h
  have hd := congrArg String.data h
  simp only [String.data_append] at hd
  have hd' : (("LAKSHYA-" : String).data ++ p1.data) ++ '-' :: (Nat.repr n1).data
      = (("LAKSHYA-" : String).data ++ p2.data) ++ '-' :: (Nat.repr n2).data := by
    simpa using hd
  obtain ⟨hp, hn⟩ := append_sep_inj_of_not_mem_right '-' _ _ _ _
    (repr_spec n1).2 (repr_spec n2).2 hd'
  have hp' : p1.data = p2.data := List.append_cancel_left hp
  have hn' : Nat.repr n1 = Nat.repr n2 := String.ext hn
  exact ⟨String.ext hp', by rw [repr_injective n1 n2 hn']⟩

theorem progressKey_data (userId videoId : String) :
    (progressKey userId videoId).data = userId.data ++ '_' :: videoId.data := by
  unfold progressKey
  simp [String.data_append]

theorem generateCertificate_certificateId (fl : Faults) (now serverTime : Int)
    (autoId : String) (db : Store) (userId programType userName : String)
    (c : CertificateDoc)
    (h : (generateCertificate fl now serverTime autoId db userId programType
      userName).2.certificate = some c) :
    c.certificateId = "LAKSHYA-" ++ programType.toUpper ++ "-" ++ toString now := by
  unfold generateCertificate at h
  simp only at h
  split at h
  · cases h
  · split at h
    · cases h
    · simp only [Option.some.injEq] at h
      rw [← h]

theorem generateCertificate_of_eligible (fl : Faults) (now serverTime : Int)
    (autoId : String) (db : Store) (userId programType userName : String)
    (hs : (checkCertificateEligibility fl db userId programType).success = true)
    (he : (checkCertificateEligibility fl db userId programType).eligible = some true)
    (hadd : fl StoreOp.certificatesAdd = none) :
    generateCertificate fl now serverTime autoId db userId programType userName =
      ({ db with
          certificates := db.certificates ++
            [(autoId,
              { userId := userId
                userName := userName
                programType := programType
                issueDate := serverTime
                certificateId :=
                  "LAKSHYA-" ++ programType.toUpper ++ "-" ++ toString now
                completionPercentage :=
                  (checkCertificateEligibility fl db userId programType).completionPercentage
                status := "issued" })] },
        { success := true
          certificateId := some autoId
          certificate := some
            { userId := userId
              userName := userName
              programType := programType
              issueDate := serverTime
              certificateId :=
                "LAKSHYA-" ++ programType.toUpper ++ "-" ++ toString now
              completionPercentage :=
                (checkCertificateEligibility fl db userId programType).completionPercentage
              status := "issued" }
          error := none }) := by
  unfold generateCertificate
  simp [hs, he, hadd]

theorem checkCertificateEligibility_congr (fl : Faults) (db db' : Store)
    (userId programType : String) (hv : db'.videos = db.videos)
    (hp : db'.videoProgress = db.videoProgress) :
    checkCertificateEligibility fl db' userId programType
      = checkCertificateEligibility fl db userId programType := by
  unfold checkCertificateEligibility videosOfProgram completedVideoIds
  rw [hv, hp]

theorem fiveVideos_four_result :
    checkCertificateEligibility noFaults (fiveVideos 4) "u" "jee" =
      { success := true
        eligible := some true
        completionPercentage := some "80.00"
        completedCount := some 4
        totalVideos := some 5
        reason := some "Meets criteria"
        error := none } := by
  rw [checkCertificateEligibility_computed noFaults (fiveVideos 4) "u" "jee" rfl rfl
    (by rw [fiveVideos_total]; decide)]
  simp only [fiveVideos_total, fiveVideos_four, toFixed2_four_of_five]
  decide

theorem twoUsers_result (userId : String) (h : userId = "u" ∨ userId = "w") :
    checkCertificateEligibility noFaults twoUsers userId "jee" =
      { success := true
        eligible := some true
        completionPercentage := some "80.00"
        completedCount := some 4
        totalVideos := some 5
        reason := some "Meets criteria"
        error := none } := by
  have hT : (videosOfProgram twoUsers "jee").length = 5 := rfl
  have hc : countCompleted (videosOfProgram twoUsers "jee")
      (completedVideoIds twoUsers userId) = 4 := by
    rcases h with rfl | rfl <;> decide
  rw [checkCertificateEligibility_computed noFaults twoUsers userId "jee" rfl rfl
    (by rw [hT]; decide)]
  simp only [hT, hc, toFixed2_four_of_five]
  decide


theorem toUpper_jee : "jee".toUpper = "JEE" := by
  unfold String.toUpper
  rw [String.map_eq]
  decide

theorem certificateId_jee :
    "LAKSHYA-" ++ "jee".toUpper ++ "-" ++ toString (1700000000000 : Int)
      = "LAKSHYA-JEE-1700000000000" := by
  rw [toUpper_jee]
  decide

/-- C11: when the eligibility check succeeds with `eligible = true` and the
`add` on `certificates` succeeds, `generateCertificate` appends exactly one
certificate record, touches no other collection and returns that record; the
record has the caller's `userId`, `userName` and `programType`, status
'issued', the `completionPercentage` of the eligibility result and the
`certificateId` "LAKSHYA-", the upper-cased program type, "-" and the clock
reading in milliseconds. -/
theorem eligible_issues_certificate (fl : Faults) (now serverTime : Int)
    (autoId : String) (db : Store) (userId programType userName : String)
    (hs : (checkCertificateEligibility fl db userId programType).success = true)
    (he : (checkCertificateEligibility fl db userId programType).eligible = some true)
    (hadd : fl StoreOp.certificatesAdd = none) :
    ∃ c : CertificateDoc,
      (generateCertificate fl now serverTime autoId db userId programType
          userName).2.success = true ∧
        (generateCertificate fl now serverTime autoId db userId programType
          userName).2.certificate = some c ∧
        (generateCertificate fl now serverTime autoId db userId programType
          userName).1.certificates = db.certificates ++ [(autoId, c)] ∧
        (generateCertificate fl now serverTime autoId db userId programType
          userName).1.videos = db.videos ∧
        (generateCertificate fl now serverTime autoId db userId programType
          userName).1.videoProgress = db.videoProgress ∧
        (generateCertificate fl now serverTime autoId db userId programType
          userName).1.userProgress = db.userProgress ∧
        c.userId = userId ∧ c.userName = userName ∧ c.programType = programType ∧
        c.status = "issued" ∧
        c.completionPercentage
          = (checkCertificateEligibility fl db userId programType).completionPercentage ∧
        c.certificateId
          = "LAKSHYA-" ++ programType.toUpper ++ "-" ++ toString now := by
  rw [generateCertificate_of_eligible fl now serverTime autoId db userId programType
    userName hs he hadd]
  exact ⟨_, rfl, rfl, rfl, rfl, rfl, rfl, rfl, rfl, rfl, rfl, rfl, rfl⟩

/-- C11, witness: the user `u` with four of five videos completed claims the
certificate of `jee` at the clock reading 1700000000000. -/
theorem eligible_issues_certificate_witness :
    ((checkCertificateEligibility noFaults (fiveVideos 4) "u" "jee").success = true ∧
      (checkCertificateEligibility noFaults (fiveVideos 4) "u" "jee").eligible
        = some true ∧
      noFaults StoreOp.certificatesAdd = none ∧
      "LAKSHYA-" ++ "jee".toUpper ++ "-" ++ toString (1700000000000 : Int)
        = "LAKSHYA-JEE-1700000000000") ∧
    ∃ c : CertificateDoc,
      (generateCertificate noFaults 1700000000000 0 "c1" (fiveVideos 4) "u" "jee"
          "Asha").2.success = true ∧
        (generateCertificate noFaults 1700000000000 0 "c1" (fiveVideos 4) "u" "jee"
          "Asha").2.certificate = some c ∧
        (generateCertificate noFaults 1700000000000 0 "c1" (fiveVideos 4) "u" "jee"
          "Asha").1.certificates = (fiveVideos 4).certificates ++ [("c1", c)] ∧
        (generateCertificate noFaults 1700000000000 0 "c1" (fiveVideos 4) "u" "jee"
          "Asha").1.videos = (fiveVideos 4).videos ∧
        (generateCertificate noFaults 1700000000000 0 "c1" (fiveVideos 4) "u" "jee"
          "Asha").1.videoProgress = (fiveVideos 4).videoProgress ∧
        (generateCertificate noFaults 1700000000000 0 "c1" (fiveVideos 4) "u" "jee"
          "Asha").1.userProgress = (fiveVideos 4).userProgress ∧
        c.userId = "u" ∧ c.userName = "Asha" ∧ c.programType = "jee" ∧
        c.status = "issued" ∧
        c.completionPercentage
          = (checkCertificateEligibility noFaults (fiveVideos 4) "u" "jee").completionPercentage ∧
        c.certificateId
          = "LAKSHYA-" ++ "jee".toUpper ++ "-" ++ toString (1700000000000 : Int) :=
  have hs : (checkCertificateEligibility noFaults (fiveVideos 4) "u" "jee").success
      = true := by rw [fiveVideos_four_result]
  have he : (checkCertificateEligibility noFaults (fiveVideos 4) "u" "jee").eligible
      = some true := by rw [fiveVideos_four_result]
  ⟨⟨hs, he, rfl, certificateId_jee⟩,
    eligible_issues_certificate noFaults 1700000000000 0 "c1" (fiveVideos 4) "u" "jee"
      "Asha" hs he rfl⟩

/-- C12 (amended): two certificate records created by `generateCertificate`
at clock readings that are not negative have the same `certificateId` exactly
when the two calls have the same upper-cased program type and the same clock
reading; the records of calls that differ in either have different
`certificateId` values, whatever the users. -/
theorem certificateId_equal_iff (fl1 fl2 : Faults) (now1 now2 st1 st2 : Int)
    (id1 id2 : String) (db1 db2 : Store)
    (user1 user2 program1 program2 name1 name2 : String)
    (c1 c2 : CertificateDoc)
    (h1 : (generateCertificate fl1 now1 st1 id1 db1 user1 program1
      name1).2.certificate = some c1)
    (h2 : (generateCertificate fl2 now2 st2 id2 db2 user2 program2
      name2).2.certificate = some c2)
    (hn1 : 0 ≤ now1) (hn2 : 0 ≤ now2) :
    c1.certificateId = c2.certificateId ↔
      program1.toUpper = program2.toUpper ∧ now1 = now2 := by
  rw [generateCertificate_certificateId fl1 now1 st1 id1 db1 user1 program1 name1 c1 h1,
    generateCertificate_certificateId fl2 now2 st2 id2 db2 user2 program2 name2 c2 h2]
  constructor
  · intro h
    exact certificateId_inj _ _ _ _ hn1 hn2 h
  · rintro ⟨hp, hn⟩
    rw [hp, hn]

/-- C12, witness: the user `u` claims the certificate of `jee` at two clock
readings one millisecond apart. -/
theorem certificateId_equal_iff_witness :
    ((0 : Int) ≤ 1700000000000 ∧ (0 : Int) ≤ 1700000000001) ∧
    ∃ c1 c2 : CertificateDoc,
      (generateCertificate noFaults 1700000000000 0 "c1" (fiveVideos 4) "u" "jee"
        "Asha").2.certificate = some c1 ∧
      (generateCertificate noFaults 1700000000001 0 "c2" (fiveVideos 4) "u" "jee"
        "Asha").2.certificate = some c2 ∧
      (c1.certificateId = c2.certificateId ↔
        "jee".toUpper = "jee".toUpper ∧ (1700000000000 : Int) = 1700000000001) ∧
      c1.certificateId ≠ c2.certificateId := by
  have hs : (checkCertificateEligibility noFaults (fiveVideos 4) "u" "jee").success
      = true := by rw [fiveVideos_four_result]
  have he : (checkCertificateEligibility noFaults (fiveVideos 4) "u" "jee").eligible
      = some true := by rw [fiveVideos_four_result]
  have h1 := congrArg (fun r => r.2.certificate)
    (generateCertificate_of_eligible noFaults 1700000000000 0 "c1" (fiveVideos 4)
      "u" "jee" "Asha" hs he rfl)
  have h2 := congrArg (fun r => r.2.certificate)
    (generateCertificate_of_eligible noFaults 1700000000001 0 "c2" (fiveVideos 4)
      "u" "jee" "Asha" hs he rfl)
  have hiff := certificateId_equal_iff noFaults noFaults 1700000000000 1700000000001
    0 0 "c1" "c2" (fiveVideos 4) (fiveVideos 4) "u" "u" "jee" "jee" "Asha" "Asha"
    _ _ h1 h2 (by decide) (by decide)
  refine ⟨⟨by decide, by decide⟩, _, _, h1, h2, hiff, ?_⟩
  intro h
  have hn := (hiff.1 h).2
  revert hn
  decide

/-- C12, counterexample: the users `u` and `w`, both eligible for `jee`, claim
their certificates at the same clock reading: the two records stored have the
same `certificateId`. -/
theorem same_millisecond_same_certificateId :
    (generateCertificate noFaults 1700000000000 0 "c2"
        (generateCertificate noFaults 1700000000000 0 "c1" twoUsers "u" "jee"
          "Asha").1
        "w" "jee" "Ravi").1.certificates.map
        (fun p => (p.1, p.2.userId, p.2.certificateId))
      = [("c1", "u", "LAKSHYA-JEE-1700000000000"),
          ("c2", "w", "LAKSHYA-JEE-1700000000000")] := by
  have hu := twoUsers_result "u" (Or.inl rfl)
  have h1 := generateCertificate_of_eligible noFaults 1700000000000 0 "c1" twoUsers
    "u" "jee" "Asha" (by rw [hu]) (by rw [hu]) rfl
  rw [h1]
  have hw : checkCertificateEligibility noFaults
      { twoUsers with
        certificates := twoUsers.certificates ++
          [("c1",
            ({ userId := "u", userName := "Asha", programType := "jee"
               issueDate := 0
               certificateId :=
                 "LAKSHYA-" ++ "jee".toUpper ++ "-" ++ toString (1700000000000 : Int)
               completionPercentage :=
                 (checkCertificateEligibility noFaults twoUsers "u" "jee").completionPercentage
               status := "issued" } : CertificateDoc))] }
      "w" "jee" = checkCertificateEligibility noFaults twoUsers "w" "jee" :=
    checkCertificateEligibility_congr _ _ _ _ _ rfl rfl
  have hw' := twoUsers_result "w" (Or.inr rfl)
  have h2 := generateCertificate_of_eligible noFaults 1700000000000 0 "c2" _
    "w" "jee" "Ravi" (by rw [hw, hw']) (by rw [hw, hw']) rfl
  rw [h2]
  simp only [List.map_append, List.map_cons, List.map_nil, certificateId_jee]
  decide

/-- C13 (amended): the key of a progress record determines the pair
`(userId, videoId)` among pairs whose user ids contain no underscore, and
among pairs whose video ids contain none; a write of `saveVideoProgress` for
one such pair leaves what `getVideoProgress` reads for a different one
unchanged. -/
theorem progressKey_injective_without_underscore
    (user1 video1 user2 video2 : String)
    (hsep : ('_' ∉ user1.data ∧ '_' ∉ user2.data) ∨
      ('_' ∉ video1.data ∧ '_' ∉ video2.data)) :
    (progressKey user1 video1 = progressKey user2 video2 →
        user1 = user2 ∧ video1 = video2) ∧
      ((user1, video1) ≠ (user2, video2) →
        ∀ (fl fl' : Faults) (serverTime : Int) (db : Store)
          (progressData : ProgressData),
          getVideoProgress fl'
              (saveVideoProgress fl serverTime db user1 video1 progressData).1
              user2 video2
            = getVideoProgress fl' db user2 video2) := by
  have hinj : progressKey user1 video1 = progressKey user2 video2 →
      user1 = user2 ∧ video1 = video2 := by
    intro h
    have hd := congrArg String.data h
    rw [progressKey_data, progressKey_data] at hd
    rcases hsep with ⟨h1, h2⟩ | ⟨h1, h2⟩
    · obtain ⟨hu, hv⟩ := append_sep_inj_of_not_mem_left '_' _ _ _ _ h1 h2 hd
      exact ⟨String.ext hu, String.ext hv⟩
    · obtain ⟨hu, hv⟩ := append_sep_inj_of_not_mem_right '_' _ _ _ _ h1 h2 hd
      exact ⟨String.ext hu, String.ext hv⟩
  refine ⟨hinj, ?_⟩
  intro hne fl fl' serverTime db progressData
  have hkey : progressKey user2 video2 ≠ progressKey user1 video1 := by
    intro h
    obtain ⟨hu, hv⟩ := hinj h.symm
    exact hne (by rw [hu, hv])
  unfold getVideoProgress saveVideoProgress
  cases fl StoreOp.videoProgressSet with
  | some msg => rfl
  | none =>
    simp only
    rw [getDoc_upsertDoc_other _ _ _ _ hkey]

/-- C13, witness: the users `u` and `w` on the video `v`. -/
theorem progressKey_injective_without_underscore_witness :
    (('_' ∉ "u".data ∧ '_' ∉ "w".data) ∨ ('_' ∉ "v".data ∧ '_' ∉ "v".data)) ∧
    (("u", "v") ≠ ("w", "v") →
      ∀ (fl fl' : Faults) (serverTime : Int) (db : Store)
        (progressData : ProgressData),
        getVideoProgress fl'
            (saveVideoProgress fl serverTime db "u" "v" progressData).1 "w" "v"
          = getVideoProgress fl' db "w" "v") :=
  ⟨Or.inl (by decide),
    (progressKey_injective_without_underscore "u" "v" "w" "v"
      (Or.inl (by decide))).2⟩

/-- C13, counterexample: the pairs `("a_b", "c")` and `("a", "b_c")` differ and
have the same key, so that `getVideoProgress` for the second reads the record
that `saveVideoProgress` wrote for the first. -/
theorem progressKey_collision :
    ("a_b", "c") ≠ ("a", "b_c") ∧
      progressKey "a_b" "c" = progressKey "a" "b_c" ∧
      ((getVideoProgress noFaults
          (saveVideoProgress noFaults 0 emptyStore "a_b" "c"
            { currentTime := 15, duration := 600, watchedDuration := 15
              completed := false }).1
          "a" "b_c").progress.map (fun r => (r.userId, r.videoId, r.currentTime))
        = some ("a_b", "c", 15)) := by
  refine ⟨by decide, by decide, ?_⟩
  have hk : progressKey "a" "b_c" = progressKey "a_b" "c" := by decide
  unfold getVideoProgress
  simp only [noFaults]
  rw [hk, saveVideoProgress_record _ _ _ _ _ _ rfl]
  rfl


/-! ## Invariants of the tracking workflow -/

theorem mem_upsertDoc {α : Type} (id : String) (f : Option α → α)
    (c : List (String × α)) (p : String × α) (hp : p ∈ upsertDoc id f c) :
    p ∈ c ∨ ∃ old, p.2 = f old := by
  induction c with
  | nil =>
    simp only [upsertDoc, List.mem_singleton] at hp
    exact Or.inr ⟨none, by rw [hp]⟩
  | cons q rest ih =>
    obtain ⟨k, v⟩ := q
    by_cases hk : k = id
    · simp only [upsertDoc, hk, if_true, List.mem_cons] at hp
      rcases hp with hp | hp
      · exact Or.inr ⟨some v, by rw [hp]⟩
      · exact Or.inl (List.mem_cons_of_mem _ hp)
    · simp only [upsertDoc, hk, if_false, List.mem_cons] at hp
      rcases hp with hp | hp
      · exact Or.inl (by rw [hp]; exact List.mem_cons_self _ _)
      · rcases ih hp with h | h
        · exact Or.inl (List.mem_cons_of_mem _ h)
        · exact Or.inr h

theorem activeTimer_mem (id : Nat) (args : TimerArgs)
    (timers : List (Nat × TimerArgs)) (h : activeTimer id timers = some args) :
    (id, args) ∈ timers := by
  induction timers with
  | nil => simp [activeTimer] at h
  | cons t rest ih =>
    obtain ⟨k, a⟩ := t
    by_cases hk : k = id
    · simp only [activeTimer, hk, if_true, Option.some.injEq] at h
      rw [hk, h]
      exact List.mem_cons_self _ _
    · simp only [activeTimer, hk, if_false] at h
      exact List.mem_cons_of_mem _ (ih h)

theorem clearInterval_subset (handle : Option Nat)
    (timers : List (Nat × TimerArgs)) (t : Nat × TimerArgs)
    (h : t ∈ clearInterval handle timers) : t ∈ timers := by
  cases handle with
  | none => exact h
  | some id => exact List.mem_of_mem_filter h

theorem trackingTick_timers_subset (args : TimerArgs) (elapsedSeconds : Int)
    (env : TickEnv) (w : World) (t : Nat × TimerArgs)
    (h : t ∈ (trackingTick args elapsedSeconds env w).timers) : t ∈ w.timers := by
  by_cases hgt : w.tracker.lastSavedTime + elapsedSeconds > args.videoDuration
  · rw [(trackingTick_complete_db args elapsedSeconds env w hgt).2.1] at h
    exact clearInterval_subset _ _ _ h
  · rw [trackingTick_continue args elapsedSeconds env w hgt] at h
    exact h

theorem trackingTick_videoProgress (args : TimerArgs) (elapsedSeconds : Int)
    (env : TickEnv) (w : World) :
    (trackingTick args elapsedSeconds env w).db.videoProgress =
      (saveVideoProgress env.faults env.serverTime w.db args.userId args.videoId
        (if w.tracker.lastSavedTime + elapsedSeconds > args.videoDuration then
          { currentTime := args.videoDuration
            duration := args.videoDuration
            watchedDuration := 0
            completed := true }
        else
          { currentTime := w.tracker.lastSavedTime + elapsedSeconds
            duration := args.videoDuration
            watchedDuration := elapsedSeconds
            completed := false })).1.videoProgress := by
  by_cases hgt : w.tracker.lastSavedTime + elapsedSeconds > args.videoDuration
  · rw [(trackingTick_complete_db args elapsedSeconds env w hgt).1,
      markVideoComplete_videoProgress, if_pos hgt]
  · rw [trackingTick_continue args elapsedSeconds env w hgt, if_neg hgt]

theorem saveVideoProgress_preserves (fl : Faults) (serverTime : Int) (db : Store)
    (userId videoId : String) (progressData : ProgressData)
    (hnew : progressData.completed = true →
      progressData.currentTime = progressData.duration ∧ 0 < progressData.duration)
    (hinv : ∀ p ∈ db.videoProgress, completedWithinDuration p.2) :
    ∀ p ∈ (saveVideoProgress fl serverTime db userId videoId
        progressData).1.videoProgress, completedWithinDuration p.2 := by
  unfold saveVideoProgress
  cases fl StoreOp.videoProgressSet with
  | some msg => exact hinv
  | none =>
    intro p hp
    rcases mem_upsertDoc _ _ _ _ hp with h | ⟨old, h⟩
    · exact hinv p h
    · rw [h]
      intro hc
      obtain ⟨h1, h2⟩ := hnew hc
      refine ⟨le_of_eq h1, h1, ?_⟩
      show percentageWatched progressData.currentTime progressData.duration = some 100
      rw [h1]
      exact percentageWatched_self _ h2

theorem trackingTick_preserves (args : TimerArgs) (elapsedSeconds : Int)
    (env : TickEnv) (w : World) (hD : 0 < args.videoDuration)
    (hinv : ∀ p ∈ w.db.videoProgress, completedWithinDuration p.2) :
    ∀ p ∈ (trackingTick args elapsedSeconds env w).db.videoProgress,
      completedWithinDuration p.2 := by
  rw [trackingTick_videoProgress]
  apply saveVideoProgress_preserves _ _ _ _ _ _ _ hinv
  split
  · intro _
    exact ⟨rfl, hD⟩
  · intro hc
    cases hc

/-- C14: along every sequence of ticks of timers whose durations are positive,
every progress record with `completed = true` has `currentTime` not exceeding
`duration`, in fact equal to it, and `percentageWatched = 100`, provided the
records of the store at the start do: no tick writes a completed record
beyond its duration. -/
theorem completed_records_within_duration (id : Nat)
    (ticks : List (Int × TickEnv)) :
    ∀ w : World,
      (∀ t ∈ w.timers, 0 < t.2.videoDuration) →
      (∀ p ∈ w.db.videoProgress, completedWithinDuration p.2) →
      ∀ p ∈ (runTicks id ticks w).db.videoProgress,
        p.2.completed = true →
          p.2.currentTime ≤ p.2.duration ∧ p.2.currentTime = p.2.duration ∧
            p.2.percentageWatched = some 100 := by
  induction ticks with
  | nil =>
    intro w _ hinv
    exact hinv
  | cons t rest ih =>
    intro w hpos hinv
    simp only [runTicks, fireTimerElapsed]
    cases hact : activeTimer id w.timers with
    | none => exact ih w hpos hinv
    | some args =>
      have hD : 0 < args.videoDuration := hpos _ (activeTimer_mem id args _ hact)
      apply ih
      · intro t' ht'
        exact hpos t' (trackingTick_timers_subset args t.1 t.2 w t' ht')
      · exact trackingTick_preserves args t.1 t.2 w hD hinv

/-- C14, witness: the session on the 600 second video and 41 ticks of 15
seconds, which complete it. -/
theorem completed_records_within_duration_witness :
    ((∀ t ∈ freshSession.timers, 0 < t.2.videoDuration) ∧
      (∀ p ∈ freshSession.db.videoProgress, completedWithinDuration p.2)) ∧
    ∀ p ∈ (runTicks 1 (List.replicate 41 ((15 : Int), quietEnv))
        freshSession).db.videoProgress,
      p.2.completed = true →
        p.2.currentTime ≤ p.2.duration ∧ p.2.currentTime = p.2.duration ∧
          p.2.percentageWatched = some 100 :=
  have hpos : ∀ t ∈ freshSession.timers, 0 < t.2.videoDuration := by decide
  have hinv : ∀ p ∈ freshSession.db.videoProgress, completedWithinDuration p.2 := by
    intro p hp
    exact absurd hp (List.not_mem_nil p)
  ⟨⟨hpos, hinv⟩,
    completed_records_within_duration 1 _ freshSession hpos hinv⟩

theorem checkCertificateEligibilityCall_eq (fl : Faults) (db : Store)
    (userId programType : String) :
    checkCertificateEligibilityCall fl db userId programType
      = (db, checkCertificateEligibility fl db userId programType) := by
  unfold checkCertificateEligibilityCall checkCertificateEligibility
    getProgramVideos getCompletedVideoIds
  cases hq : fl StoreOp.videosQuery with
  | some msg => rfl
  | none =>
    by_cases hT : (videosOfProgram db programType).length = 0
    · simp only [hT, if_true]
    · cases hp : fl StoreOp.videoProgressQuery with
      | some msg => simp only [hT, if_false]
      | none => simp only [hT, if_false]

theorem checkCertificateEligibility_of_success (fl1 fl2 : Faults) (db : Store)
    (userId programType : String)
    (h1 : (checkCertificateEligibility fl1 db userId programType).success = true)
    (h2 : (checkCertificateEligibility fl2 db userId programType).success = true) :
    checkCertificateEligibility fl2 db userId programType
      = checkCertificateEligibility fl1 db userId programType := by
  unfold checkCertificateEligibility at h1 h2 ⊢
  cases hq1 : fl1 StoreOp.videosQuery with
  | some msg => simp [hq1] at h1
  | none =>
    cases hq2 : fl2 StoreOp.videosQuery with
    | some msg => simp [hq2] at h2
    | none =>
      by_cases hT : (videosOfProgram db programType).length = 0
      · simp [hT]
      · cases hp1 : fl1 StoreOp.videoProgressQuery with
        | some msg => simp [hq1, hT, hp1] at h1
        | none =>
          cases hp2 : fl2 StoreOp.videoProgressQuery with
          | some msg => simp [hq2, hT, hp2] at h2
          | none => simp [hT]

/-- C15: a call of `checkCertificateEligibility` returns the store it was
given, whatever its queries read or throw.  A second call for the same user
and program on the store that the first call left returns the same result
object: always when its store calls meet the same faults, and, when the
faults differ, whenever both calls succeed.  A write in between that leaves
the `videos` and `videoProgress` collections as they were does not change the
result either. -/
theorem eligibility_check_repeatable (fl1 fl2 : Faults) (db : Store)
    (userId programType : String) :
    (checkCertificateEligibilityCall fl1 db userId programType).1 = db ∧
      (checkCertificateEligibilityCall fl1 db userId programType).2
        = checkCertificateEligibility fl1 db userId programType ∧
      checkCertificateEligibilityCall fl1
          (checkCertificateEligibilityCall fl1 db userId programType).1
          userId programType
        = checkCertificateEligibilityCall fl1 db userId programType ∧
      ((checkCertificateEligibilityCall fl1 db userId programType).2.success = true →
        (checkCertificateEligibilityCall fl2
          (checkCertificateEligibilityCall fl1 db userId programType).1
          userId programType).2.success = true →
        checkCertificateEligibilityCall fl2
            (checkCertificateEligibilityCall fl1 db userId programType).1
            userId programType
          = checkCertificateEligibilityCall fl1 db userId programType) ∧
      (∀ written : Store,
        written.videos
          = (checkCertificateEligibilityCall fl1 db userId programType).1.videos →
        written.videoProgress
          = (checkCertificateEligibilityCall fl1 db userId programType).1.videoProgress →
        (checkCertificateEligibilityCall fl1 written userId programType).2
          = (checkCertificateEligibilityCall fl1 db userId programType).2) := by
  simp only [checkCertificateEligibilityCall_eq]
  refine ⟨trivial, trivial, trivial, ?_, ?_⟩
  · intro h1 h2
    rw [checkCertificateEligibility_of_success fl1 fl2 db userId programType h1 h2]
  · intro written hv hp
    exact checkCertificateEligibility_congr fl1 db written userId programType hv hp

/-- C15, witness: over the store with four of five videos completed, a first
call and a second call in a run in which the write of progress records would
throw return the same eligible result and leave the store as it was; a
certificate written in between changes nothing.  Had `v1` been watched again
in between, the second result would differ. -/
theorem eligibility_check_repeatable_witness :
    ((checkCertificateEligibilityCall noFaults (fiveVideos 4) "u" "jee").2.success
        = true ∧
      (checkCertificateEligibilityCall progressSetDown
        (checkCertificateEligibilityCall noFaults (fiveVideos 4) "u" "jee").1
        "u" "jee").2.success = true) ∧
    (checkCertificateEligibilityCall noFaults (fiveVideos 4) "u" "jee").1
      = fiveVideos 4 ∧
    checkCertificateEligibilityCall progressSetDown
        (checkCertificateEligibilityCall noFaults (fiveVideos 4) "u" "jee").1
        "u" "jee"
      = checkCertificateEligibilityCall noFaults (fiveVideos 4) "u" "jee" ∧
    (checkCertificateEligibilityCall noFaults (fiveVideos 4) "u" "jee").2 =
      { success := true
        eligible := some true
        completionPercentage := some "80.00"
        completedCount := some 4
        totalVideos := some 5
        reason := some "Meets criteria"
        error := none } ∧
    (checkCertificateEligibilityCall noFaults
        (generateCertificate noFaults 1700000000000 0 "c1" (fiveVideos 4) "u" "jee"
          "Asha").1 "u" "jee").2
      = (checkCertificateEligibilityCall noFaults (fiveVideos 4) "u" "jee").2 ∧
    (checkCertificateEligibilityCall noFaults rewatched "u" "jee").2
      ≠ (checkCertificateEligibilityCall noFaults (fiveVideos 4) "u" "jee").2 :=
  have hthm := eligibility_check_repeatable noFaults progressSetDown (fiveVideos 4)
    "u" "jee"
  have h1 : (checkCertificateEligibilityCall noFaults (fiveVideos 4) "u"
      "jee").2.success = true := by
    rw [hthm.2.1, fiveVideos_four_result]
  have h2 : (checkCertificateEligibilityCall progressSetDown
      (checkCertificateEligibilityCall noFaults (fiveVideos 4) "u" "jee").1
      "u" "jee").2.success = true := by
    rw [hthm.1, checkCertificateEligibilityCall_eq,
      checkCertificateEligibility_computed progressSetDown (fiveVideos 4) "u" "jee"
        rfl rfl (by rw [fiveVideos_total]; decide)]
  have hwritten : (generateCertificate noFaults 1700000000000 0 "c1" (fiveVideos 4)
      "u" "jee" "Asha").1.videos = (fiveVideos 4).videos ∧
      (generateCertificate noFaults 1700000000000 0 "c1" (fiveVideos 4)
        "u" "jee" "Asha").1.videoProgress = (fiveVideos 4).videoProgress := by
    rw [generateCertificate_of_eligible noFaults 1700000000000 0 "c1" (fiveVideos 4)
      "u" "jee" "Asha" (by rw [fiveVideos_four_result])
      (by rw [fiveVideos_four_result]) rfl]
    exact ⟨rfl, rfl⟩
  ⟨⟨h1, h2⟩, hthm.1, hthm.2.2.2.1 h1 h2,
    by rw [hthm.2.1, fiveVideos_four_result],
    hthm.2.2.2.2 _ (by rw [hthm.1]; exact hwritten.1) (by rw [hthm.1]; exact hwritten.2),
    by
      rw [checkCertificateEligibilityCall_eq, checkCertificateEligibilityCall_eq,
        fiveVideos_four_result,
        checkCertificateEligibility_computed noFaults rewatched "u" "jee" rfl rfl
          (by rw [rewatched_total]; decide)]
      simp only [rewatched_total, rewatched_count]
      decide⟩


/-! ## Watch time and failed writes -/

theorem runTicks_append (id : Nat) (a b : List (Int × TickEnv)) :
    ∀ w : World, runTicks id (a ++ b) w = runTicks id b (runTicks id a w) := by
  induction a with
  | nil => intro w; rfl
  | cons t rest ih =>
    intro w
    simp only [List.cons_append, runTicks]
    exact ih _

theorem storedWatchTime_congr (key : String) (db db' : Store)
    (h : db'.videoProgress = db.videoProgress) :
    storedWatchTime key db' = storedWatchTime key db := by
  unfold storedWatchTime
  rw [h]

theorem saveVideoProgress_watchTime (fl : Faults) (serverTime : Int) (db : Store)
    (userId videoId : String) (progressData : ProgressData) (key : String)
    (h : 0 ≤ progressData.watchedDuration) :
    storedWatchTime key db ≤ storedWatchTime key
      (saveVideoProgress fl serverTime db userId videoId progressData).1 := by
  unfold saveVideoProgress
  cases fl StoreOp.videoProgressSet with
  | some msg => exact le_refl _
  | none =>
    unfold storedWatchTime
    simp only
    by_cases hk : key = progressKey userId videoId
    · rw [hk, getDoc_upsertDoc_self]
      cases getDoc (progressKey userId videoId) db.videoProgress with
      | none =>
        simp only [progressMerge]
        omega
      | some r =>
        simp only [progressMerge]
        omega
    · rw [getDoc_upsertDoc_other _ _ _ _ hk]

theorem trackingTick_watchTime (args : TimerArgs) (elapsedSeconds : Int)
    (env : TickEnv) (w : World) (key : String) (h : 0 ≤ elapsedSeconds) :
    storedWatchTime key w.db
      ≤ storedWatchTime key (trackingTick args elapsedSeconds env w).db := by
  have hvp := trackingTick_videoProgress args elapsedSeconds env w
  rw [storedWatchTime_congr key _ _ hvp]
  apply saveVideoProgress_watchTime
  split
  · exact le_refl _
  · exact h

/-- C16: the `totalWatchTime` stored under any key does not decrease from one
tick of a session to the next, completing or not and whether or not its write
succeeds, when the elapsed seconds of that tick are not negative. -/
theorem totalWatchTime_never_decreases (id : Nat) (ticks : List (Int × TickEnv))
    (t : Int × TickEnv) (w : World) (key : String) (h : 0 ≤ t.1) :
    storedWatchTime key (runTicks id ticks w).db
      ≤ storedWatchTime key (runTicks id (ticks ++ [t]) w).db := by
  rw [runTicks_append]
  simp only [runTicks, fireTimerElapsed]
  cases activeTimer id (runTicks id ticks w).timers with
  | none => exact le_refl _
  | some args => exact trackingTick_watchTime args t.1 t.2 _ key h

/-- C16, witness: the session resumed with 585 seconds of watch time, after 1
tick of 10 seconds and a further tick of 15 seconds, which completes. -/
theorem totalWatchTime_never_decreases_witness :
    (0 : Int) ≤ 15 ∧
    storedWatchTime (progressKey "u" "v")
        (runTicks 1 [((10 : Int), quietEnv)] resumedSession).db
      ≤ storedWatchTime (progressKey "u" "v")
        (runTicks 1 ([((10 : Int), quietEnv)] ++ [((15 : Int), quietEnv)])
          resumedSession).db :=
  ⟨by decide,
    totalWatchTime_never_decreases 1 [((10 : Int), quietEnv)] ((15 : Int), quietEnv)
      resumedSession (progressKey "u" "v") (by decide)⟩

/-- C17: when the write of a tick that does not complete the video throws, the
store is unchanged, the timer stays, and `lastSavedTime` is advanced to
`lastSavedTime + elapsedSeconds` all the same, so that the `currentTime` which
the next tick persists includes the elapsed seconds of the failed tick. -/
theorem failed_write_keeps_carry_over (args : TimerArgs)
    (elapsedSeconds : Int) (env : TickEnv) (w : World) (msg : String)
    (hfail : env.faults StoreOp.videoProgressSet = some msg)
    (h : w.tracker.lastSavedTime + elapsedSeconds ≤ args.videoDuration) :
    (trackingTick args elapsedSeconds env w).db = w.db ∧
      (trackingTick args elapsedSeconds env w).timers = w.timers ∧
      (trackingTick args elapsedSeconds env w).tracker.lastSavedTime
        = w.tracker.lastSavedTime + elapsedSeconds ∧
      ∀ (nextElapsed : Int) (nextEnv : TickEnv),
        nextEnv.faults StoreOp.videoProgressSet = none →
        w.tracker.lastSavedTime + elapsedSeconds + nextElapsed ≤ args.videoDuration →
        ∃ r, getDoc (progressKey args.userId args.videoId)
              (trackingTick args nextElapsed nextEnv
                (trackingTick args elapsedSeconds env w)).db.videoProgress = some r ∧
            r.currentTime
              = w.tracker.lastSavedTime + elapsedSeconds + nextElapsed := by
  have hn : ¬ w.tracker.lastSavedTime + elapsedSeconds > args.videoDuration := by
    omega
  have hstep := trackingTick_continue args elapsedSeconds env w hn
  have hcarry : (trackingTick args elapsedSeconds env w).tracker.lastSavedTime
      = w.tracker.lastSavedTime + elapsedSeconds := by rw [hstep]
  refine ⟨?_, by rw [hstep], hcarry, ?_⟩
  · rw [hstep]
    simp only [saveVideoProgress, hfail]
  · intro nextElapsed nextEnv hok hnext
    have hn' : ¬ (trackingTick args elapsedSeconds env w).tracker.lastSavedTime
        + nextElapsed > args.videoDuration := by
      rw [hcarry]
      omega
    refine ⟨_, trackingTick_continue_record args nextElapsed nextEnv _ hok hn', ?_⟩
    show (trackingTick args elapsedSeconds env w).tracker.lastSavedTime + nextElapsed
      = w.tracker.lastSavedTime + elapsedSeconds + nextElapsed
    rw [hcarry]

/-- C17, witness: the session at carry-over 0, a tick of 15 seconds whose
write throws and a tick of 15 seconds whose write succeeds. -/
theorem failed_write_keeps_carry_over_witness :
    (offlineEnv.faults StoreOp.videoProgressSet = some "unavailable" ∧
      freshSession.tracker.lastSavedTime + 15 ≤ sampleArgs.videoDuration ∧
      quietEnv.faults StoreOp.videoProgressSet = none ∧
      freshSession.tracker.lastSavedTime + 15 + 15 ≤ sampleArgs.videoDuration) ∧
    (trackingTick sampleArgs 15 offlineEnv freshSession).db = freshSession.db ∧
    (trackingTick sampleArgs 15 offlineEnv freshSession).tracker.lastSavedTime
      = freshSession.tracker.lastSavedTime + 15 ∧
    ∃ r, getDoc (progressKey sampleArgs.userId sampleArgs.videoId)
          (trackingTick sampleArgs 15 quietEnv
            (trackingTick sampleArgs 15 offlineEnv freshSession)).db.videoProgress
            = some r ∧
        r.currentTime = freshSession.tracker.lastSavedTime + 15 + 15 :=
  have h1 : freshSession.tracker.lastSavedTime + 15 ≤ sampleArgs.videoDuration := by
    decide
  have h2 : freshSession.tracker.lastSavedTime + 15 + 15 ≤ sampleArgs.videoDuration := by
    decide
  ⟨⟨rfl, h1, rfl, h2⟩,
    (failed_write_keeps_carry_over sampleArgs 15 offlineEnv freshSession "unavailable"
      rfl h1).1,
    (failed_write_keeps_carry_over sampleArgs 15 offlineEnv freshSession "unavailable"
      rfl h1).2.2.1,
    (failed_write_keeps_carry_over sampleArgs 15 offlineEnv freshSession "unavailable"
      rfl h1).2.2.2 15 quietEnv rfl h2⟩


/-! ## Store failures and durations that are not positive -/

theorem resumedSession_timer :
    activeTimer 1 resumedSession.timers = some sampleArgs := by
  decide

theorem resumedSession_handle :
    resumedSession.tracker.progressTrackingInterval = some 1 := by
  decide

/-- C18 (amended): a store call that throws is turned into a result with
`success = false` and an error message by `saveVideoProgress`,
`checkCertificateEligibility` and `generateCertificate`, the store being left
unchanged, and a tick that does not complete the video and whose write throws
leaves the sampling timer and its handle as they were. -/
theorem store_failures_become_results :
    (∀ (fl : Faults) (serverTime : Int) (db : Store) (userId videoId : String)
        (progressData : ProgressData) (msg : String),
      fl StoreOp.videoProgressSet = some msg →
      saveVideoProgress fl serverTime db userId videoId progressData
        = (db, { success := false, error := some msg })) ∧
    (∀ (fl : Faults) (db : Store) (userId programType msg : String),
      (fl StoreOp.videosQuery = some msg ∨
        (fl StoreOp.videosQuery = none ∧
          (videosOfProgram db programType).length ≠ 0 ∧
          fl StoreOp.videoProgressQuery = some msg)) →
      (checkCertificateEligibility fl db userId programType).success = false ∧
        (checkCertificateEligibility fl db userId programType).error = some msg) ∧
    (∀ (fl : Faults) (now serverTime : Int) (autoId : String) (db : Store)
        (userId programType userName : String),
      (checkCertificateEligibility fl db userId programType).success = false →
      generateCertificate fl now serverTime autoId db userId programType userName
        = (db, { success := false, certificateId := none, certificate := none
                 error := some "Not eligible for certificate" })) ∧
    (∀ (fl : Faults) (now serverTime : Int) (autoId : String) (db : Store)
        (userId programType userName msg : String),
      (checkCertificateEligibility fl db userId programType).success = true →
      (checkCertificateEligibility fl db userId programType).eligible = some true →
      fl StoreOp.certificatesAdd = some msg →
      generateCertificate fl now serverTime autoId db userId programType userName
        = (db, { success := false, certificateId := none, certificate := none
                 error := some msg })) ∧
    (∀ (args : TimerArgs) (elapsedSeconds : Int) (env : TickEnv) (w : World)
        (msg : String),
      env.faults StoreOp.videoProgressSet = some msg →
      w.tracker.lastSavedTime + elapsedSeconds ≤ args.videoDuration →
      (trackingTick args elapsedSeconds env w).timers = w.timers ∧
        (trackingTick args elapsedSeconds env w).tracker.progressTrackingInterval
          = w.tracker.progressTrackingInterval) := by
  refine ⟨?_, ?_, ?_, ?_, ?_⟩
  · intro fl serverTime db userId videoId progressData msg h
    simp only [saveVideoProgress, h]
  · intro fl db userId programType msg h
    unfold checkCertificateEligibility
    rcases h with h | ⟨hq, hT, hp⟩
    · simp only [h, and_self]
    · simp only [hq, hT, hp, if_false, and_self]
  · intro fl now serverTime autoId db userId programType userName h
    unfold generateCertificate
    simp [h]
  · intro fl now serverTime autoId db userId programType userName msg hs he hadd
    unfold generateCertificate
    simp [hs, he, hadd]
  · intro args elapsedSeconds env w msg _ h
    have hn : ¬ w.tracker.lastSavedTime + elapsedSeconds > args.videoDuration := by
      omega
    rw [trackingTick_continue args elapsedSeconds env w hn]
    exact ⟨rfl, rfl⟩

/-- C18, witness: the session at carry-over 0 and a tick of 15 seconds whose
write throws. -/
theorem store_failures_become_results_witness :
    (offlineEnv.faults StoreOp.videoProgressSet = some "unavailable" ∧
      freshSession.tracker.lastSavedTime + 15 ≤ sampleArgs.videoDuration) ∧
    saveVideoProgress progressSetDown 0 emptyStore "u" "v"
        { currentTime := 15, duration := 600, watchedDuration := 15
          completed := false }
      = (emptyStore, { success := false, error := some "unavailable" }) ∧
    (trackingTick sampleArgs 15 offlineEnv freshSession).timers
        = freshSession.timers ∧
      (trackingTick sampleArgs 15 offlineEnv freshSession).tracker.progressTrackingInterval
        = freshSession.tracker.progressTrackingInterval :=
  have h : freshSession.tracker.lastSavedTime + 15 ≤ sampleArgs.videoDuration := by
    decide
  ⟨⟨rfl, h⟩,
    store_failures_become_results.1 progressSetDown 0 emptyStore "u" "v" _
      "unavailable" rfl,
    store_failures_become_results.2.2.2.2 sampleArgs 15 offlineEnv freshSession
      "unavailable" rfl h⟩

/-- C18, counterexample: in the session resumed at 585 seconds of 600, a tick
of 20 seconds whose write throws cancels the sampling timer, and the progress
records are as before. -/
theorem completing_tick_with_failed_write_cancels_timer :
    offlineEnv.faults StoreOp.videoProgressSet = some "unavailable" ∧
      activeTimer 1 resumedSession.timers = some sampleArgs ∧
      activeTimer 1 (fireTimerElapsed 1 20 offlineEnv resumedSession).timers = none ∧
      (fireTimerElapsed 1 20 offlineEnv resumedSession).db.videoProgress
        = resumedSession.db.videoProgress := by
  have hgt : resumedSession.tracker.lastSavedTime + 20 > sampleArgs.videoDuration := by
    decide
  obtain ⟨hdb, htimers, _⟩ := trackingTick_complete_db sampleArgs 20 offlineEnv
    resumedSession hgt
  refine ⟨rfl, resumedSession_timer, ?_, ?_⟩
  · simp only [fireTimerElapsed, resumedSession_timer]
    rw [htimers, resumedSession_handle]
    exact activeTimer_clearInterval_self 1 _
  · simp only [fireTimerElapsed, resumedSession_timer]
    rw [hdb, markVideoComplete_videoProgress]
    rfl

theorem zeroSession_timer : activeTimer 1 zeroSession.timers = some zeroArgs := by
  decide

/-- C19 (amended): the duration is not validated.  With a duration that is zero
or negative and a store write that succeeds, `saveVideoProgress` writes the
record it is given, and a tick writes a record of that duration, with
`completed = true` exactly when `lastSavedTime + elapsedSeconds` exceeds the
duration. -/
theorem nonpositive_duration_still_writes :
    (∀ (fl : Faults) (serverTime : Int) (db : Store) (userId videoId : String)
        (progressData : ProgressData),
      progressData.duration ≤ 0 →
      fl StoreOp.videoProgressSet = none →
      ∃ r, getDoc (progressKey userId videoId)
            (saveVideoProgress fl serverTime db userId videoId
              progressData).1.videoProgress = some r ∧
          r.currentTime = progressData.currentTime ∧
          r.duration = progressData.duration ∧
          r.completed = progressData.completed) ∧
    (∀ (args : TimerArgs) (elapsedSeconds : Int) (env : TickEnv) (w : World),
      args.videoDuration ≤ 0 →
      env.faults StoreOp.videoProgressSet = none →
      ∃ r, getDoc (progressKey args.userId args.videoId)
            (trackingTick args elapsedSeconds env w).db.videoProgress = some r ∧
          r.duration = args.videoDuration ∧
          (r.completed = true ↔
            w.tracker.lastSavedTime + elapsedSeconds > args.videoDuration)) := by
  refine ⟨?_, ?_⟩
  · intro fl serverTime db userId videoId progressData _ hset
    exact ⟨_, saveVideoProgress_record fl serverTime db userId videoId progressData hset,
      rfl, rfl, rfl⟩
  · intro args elapsedSeconds env w _ hset
    by_cases hgt : w.tracker.lastSavedTime + elapsedSeconds > args.videoDuration
    · refine ⟨_, trackingTick_complete_record args elapsedSeconds env w hset hgt, rfl, ?_⟩
      simp only [progressMerge, true_iff]
      exact hgt
    · refine ⟨_, trackingTick_continue_record args elapsedSeconds env w hset hgt, rfl, ?_⟩
      simp only [progressMerge, false_iff]
      constructor
      · intro h
        cases h
      · intro h
        exact absurd h hgt

/-- C19, witness: the session on a video of duration zero and a tick of 15
seconds. -/
theorem nonpositive_duration_still_writes_witness :
    (zeroArgs.videoDuration ≤ 0 ∧
      quietEnv.faults StoreOp.videoProgressSet = none) ∧
    ∃ r, getDoc (progressKey zeroArgs.userId zeroArgs.videoId)
          (trackingTick zeroArgs 15 quietEnv zeroSession).db.videoProgress = some r ∧
        r.duration = zeroArgs.videoDuration ∧
        (r.completed = true ↔
          zeroSession.tracker.lastSavedTime + 15 > zeroArgs.videoDuration) :=
  ⟨⟨by decide, rfl⟩,
    nonpositive_duration_still_writes.2 zeroArgs 15 quietEnv zeroSession
      (by decide) rfl⟩

/-- C19, counterexample: with a duration of zero the first tick of 15 seconds
writes a progress record, marked completed, into a store that had none, and
`saveVideoProgress` called with the duration -60 writes its record too. -/
theorem zero_duration_tick_writes :
    zeroArgs.videoDuration = 0 ∧
      getDoc (progressKey "u" "z") zeroSession.db.videoProgress = none ∧
      getDoc (progressKey "u" "z")
          (fireTimerElapsed 1 15 quietEnv zeroSession).db.videoProgress
        = some
          { userId := "u", videoId := "z", currentTime := 0, duration := 0
            percentageWatched := none, completed := true, lastWatchedAt := 0
            totalWatchTime := 0 } ∧
      (getDoc (progressKey "u" "z")
          (saveVideoProgress noFaults 0 emptyStore "u" "z"
            { currentTime := 15, duration := -60, watchedDuration := 15
              completed := false }).1.videoProgress).map
          (fun r => (r.currentTime, r.duration, r.completed))
        = some (15, -60, false) := by
  refine ⟨rfl, by decide, ?_, ?_⟩
  · simp only [fireTimerElapsed, zeroSession_timer]
    have hgt : zeroSession.tracker.lastSavedTime + 15 > zeroArgs.videoDuration := by
      decide
    rw [show progressKey "u" "z" = progressKey zeroArgs.userId zeroArgs.videoId from rfl,
      trackingTick_complete_record zeroArgs 15 quietEnv zeroSession rfl hgt]
    have hnone : getDoc (progressKey zeroArgs.userId zeroArgs.videoId)
        zeroSession.db.videoProgress = none := by decide
    rw [hnone]
    simp only [progressMerge, percentageWatched, zeroArgs, quietEnv, if_true]
    rfl
  · rw [saveVideoProgress_record _ _ _ _ _ _ rfl]
    rfl


/-! ## The completion side effects -/

theorem completionMessages_append (a b : List UiEffect) :
    completionMessages (a ++ b) = completionMessages a + completionMessages b := by
  simp [completionMessages, List.filter_append]

theorem completionMessages_eligibility (fl : Faults) (db : Store)
    (userId programType : String) :
    completionMessages (checkAndShowCertificateEligibility fl db userId programType)
      = 0 := by
  unfold checkAndShowCertificateEligibility
  simp only
  split <;> rfl

theorem trackingTick_complete_ui (args : TimerArgs) (elapsedSeconds : Int)
    (env : TickEnv) (w : World) (video : Video)
    (h : w.tracker.lastSavedTime + elapsedSeconds > args.videoDuration)
    (hvideo : w.tracker.currentVideoData = some video) :
    (trackingTick args elapsedSeconds env w).ui =
      w.ui ++
        [UiEffect.updateProgressUI args.videoId (some 100),
          UiEffect.showCompletionMessage args.videoId] ++
        checkAndShowCertificateEligibility env.faults
          (markVideoComplete env.faults env.serverTime env.autoId w.db
            args.userId args.videoId { duration := args.videoDuration }).1
          args.userId video.programType := by
  unfold trackingTick
  simp only [h, if_true, hvideo]

theorem elapsedTotal_cons (t : Int × TickEnv) (rest : List (Int × TickEnv)) :
    elapsedTotal (t :: rest) = t.1 + elapsedTotal rest := by
  simp [elapsedTotal]

theorem runTicks_within (id : Nat) (args : TimerArgs) (video : Video)
    (ticks : List (Int × TickEnv)) :
    ∀ w : World,
      activeTimer id w.timers = some args →
      w.tracker.progressTrackingInterval = some id →
      w.tracker.currentVideoData = some video →
      withinDuration w.tracker.lastSavedTime args.videoDuration ticks = true →
      activeTimer id (runTicks id ticks w).timers = some args ∧
        (runTicks id ticks w).tracker.progressTrackingInterval = some id ∧
        (runTicks id ticks w).tracker.currentVideoData = some video ∧
        completionMessages (runTicks id ticks w).ui = completionMessages w.ui ∧
        (runTicks id ticks w).tracker.lastSavedTime
          = w.tracker.lastSavedTime + elapsedTotal ticks := by
  induction ticks with
  | nil =>
    intro w hact hhandle hvideo _
    exact ⟨hact, hhandle, hvideo, rfl, by simp [runTicks, elapsedTotal]⟩
  | cons t rest ih =>
    intro w hact hhandle hvideo hwithin
    simp only [withinDuration, Bool.and_eq_true, decide_eq_true_eq] at hwithin
    obtain ⟨hle, hrest⟩ := hwithin
    have hgt : ¬ w.tracker.lastSavedTime + t.1 > args.videoDuration := by omega
    have hstep := trackingTick_continue args t.1 t.2 w hgt
    have hrun : runTicks id (t :: rest) w
        = runTicks id rest (trackingTick args t.1 t.2 w) := by
      simp only [runTicks, fireTimerElapsed, hact]
    have hL : (trackingTick args t.1 t.2 w).tracker.lastSavedTime
        = w.tracker.lastSavedTime + t.1 := by rw [hstep]
    have hcount : completionMessages (trackingTick args t.1 t.2 w).ui
        = completionMessages w.ui := by
      rw [hstep]
      simp only [completionMessages_append]
      rfl
    obtain ⟨h1, h2, h3, h4, h5⟩ := ih (trackingTick args t.1 t.2 w)
      (by rw [hstep]; exact hact) (by rw [hstep]; exact hhandle)
      (by rw [hstep]; exact hvideo) (by rw [hL]; exact hrest)
    rw [hrun]
    refine ⟨h1, h2, h3, by rw [h4, hcount], ?_⟩
    rw [h5, hL, elapsedTotal_cons]
    omega

theorem withinDuration_false_split (D : Int) (ticks : List (Int × TickEnv)) :
    ∀ carry : Int, withinDuration carry D ticks = false →
      ∃ (before : List (Int × TickEnv)) (t : Int × TickEnv)
          (after : List (Int × TickEnv)),
        ticks = before ++ t :: after ∧ withinDuration carry D before = true ∧
          carry + elapsedTotal before + t.1 > D := by
  induction ticks with
  | nil =>
    intro carry h
    simp [withinDuration] at h
  | cons t rest ih =>
    intro carry h
    by_cases hle : carry + t.1 ≤ D
    · have hrest : withinDuration (carry + t.1) D rest = false := by
        simpa [withinDuration, hle] using h
      obtain ⟨before, t', after, hsplit, hb, hsum⟩ := ih (carry + t.1) hrest
      refine ⟨t :: before, t', after, by rw [hsplit]; rfl, ?_, ?_⟩
      · simp [withinDuration, hle, hb]
      · rw [elapsedTotal_cons]
        omega
    · exact ⟨[], t, rest, rfl, rfl, by simp [elapsedTotal]; omega⟩

/-- C20: in a playback session, as long as every tick leaves the running time
within the duration, the timer stays active and nothing of the completion is
done.  Otherwise the ticks split at the first tick that exceeds the duration:
up to it nothing of the completion was done; that tick runs
`markVideoComplete`, shows 100% and the completion message and runs the
eligibility check, once each; after it the timer is no longer active and the
ticks that follow change nothing, so that the completion message has been
shown exactly once. -/
theorem completion_effects_once (id : Nat) (args : TimerArgs) (video : Video)
    (ticks : List (Int × TickEnv)) (w0 : World)
    (hact : activeTimer id w0.timers = some args)
    (hhandle : w0.tracker.progressTrackingInterval = some id)
    (hvideo : w0.tracker.currentVideoData = some video) :
    (withinDuration w0.tracker.lastSavedTime args.videoDuration ticks = true →
        activeTimer id (runTicks id ticks w0).timers = some args ∧
          completionMessages (runTicks id ticks w0).ui = completionMessages w0.ui ∧
          (runTicks id ticks w0).tracker.lastSavedTime
            = w0.tracker.lastSavedTime + elapsedTotal ticks) ∧
      (withinDuration w0.tracker.lastSavedTime args.videoDuration ticks = false →
        ∃ (before : List (Int × TickEnv)) (t : Int × TickEnv)
            (after : List (Int × TickEnv)),
          ticks = before ++ t :: after ∧
            withinDuration w0.tracker.lastSavedTime args.videoDuration before = true ∧
            w0.tracker.lastSavedTime + elapsedTotal before + t.1
              > args.videoDuration) ∧
      (∀ (before : List (Int × TickEnv)) (t : Int × TickEnv)
          (after : List (Int × TickEnv)),
        ticks = before ++ t :: after →
        withinDuration w0.tracker.lastSavedTime args.videoDuration before = true →
        w0.tracker.lastSavedTime + elapsedTotal before + t.1 > args.videoDuration →
        activeTimer id (runTicks id before w0).timers = some args ∧
          completionMessages (runTicks id before w0).ui = completionMessages w0.ui ∧
          runTicks id ticks w0 = trackingTick args t.1 t.2 (runTicks id before w0) ∧
          (runTicks id ticks w0).db =
            (markVideoComplete t.2.faults t.2.serverTime t.2.autoId
              (runTicks id before w0).db args.userId args.videoId
              { duration := args.videoDuration }).1 ∧
          (runTicks id ticks w0).ui =
            (runTicks id before w0).ui ++
              [UiEffect.updateProgressUI args.videoId (some 100),
                UiEffect.showCompletionMessage args.videoId] ++
              checkAndShowCertificateEligibility t.2.faults
                (markVideoComplete t.2.faults t.2.serverTime t.2.autoId
                  (runTicks id before w0).db args.userId args.videoId
                  { duration := args.videoDuration }).1
                args.userId video.programType ∧
          activeTimer id (runTicks id ticks w0).timers = none ∧
          completionMessages (runTicks id ticks w0).ui
            = completionMessages w0.ui + 1) := by
  refine ⟨?_, ?_, ?_⟩
  · intro hwithin
    obtain ⟨h1, _, _, h4, h5⟩ :=
      runTicks_within id args video ticks w0 hact hhandle hvideo hwithin
    exact ⟨h1, h4, h5⟩
  · exact withinDuration_false_split args.videoDuration ticks _
  · intro before t after hsplit hwithin hsum
    obtain ⟨h1, h2, h3, h4, h5⟩ :=
      runTicks_within id args video before w0 hact hhandle hvideo hwithin
    have hgt : (runTicks id before w0).tracker.lastSavedTime + t.1
        > args.videoDuration := by
      rw [h5]
      exact hsum
    obtain ⟨hdb, htimers, _⟩ :=
      trackingTick_complete_db args t.1 t.2 (runTicks id before w0) hgt
    have hnone : activeTimer id
        (trackingTick args t.1 t.2 (runTicks id before w0)).timers = none := by
      rw [htimers, h2]
      exact activeTimer_clearInterval_self id _
    have hfinal : runTicks id ticks w0
        = trackingTick args t.1 t.2 (runTicks id before w0) := by
      rw [hsplit, runTicks_append]
      simp only [runTicks, fireTimerElapsed, h1]
      exact runTicks_inactive id after _ hnone
    have hui := trackingTick_complete_ui args t.1 t.2 (runTicks id before w0) video
      hgt h3
    refine ⟨h1, h4, hfinal, ?_, ?_, ?_, ?_⟩
    · rw [hfinal, hdb]
    · rw [hfinal, hui]
    · rw [hfinal]
      exact hnone
    · rw [hfinal, hui, completionMessages_append, completionMessages_append,
        completionMessages_eligibility, h4]
      rfl

/-- C20, witness: the session on the 600 second video.  After 40 ticks of 15
seconds the running time is 600, the timer is active and no completion
message was shown.  Of 43 ticks, the 41st exceeds the duration: it performs
the completion, the timer is cleared, and the two ticks after it change
nothing. -/
theorem completion_effects_once_witness :
    (activeTimer 1 freshSession.timers = some sampleArgs ∧
      freshSession.tracker.progressTrackingInterval = some 1 ∧
      freshSession.tracker.currentVideoData = some sampleVideo ∧
      withinDuration freshSession.tracker.lastSavedTime sampleArgs.videoDuration
        (List.replicate 40 ((15 : Int), quietEnv)) = true ∧
      withinDuration freshSession.tracker.lastSavedTime sampleArgs.videoDuration
        (List.replicate 43 ((15 : Int), quietEnv)) = false ∧
      freshSession.tracker.lastSavedTime
          + elapsedTotal (List.replicate 40 ((15 : Int), quietEnv)) + 15
        > sampleArgs.videoDuration) ∧
    (activeTimer 1 (runTicks 1 (List.replicate 40 ((15 : Int), quietEnv))
          freshSession).timers = some sampleArgs ∧
      completionMessages (runTicks 1 (List.replicate 40 ((15 : Int), quietEnv))
          freshSession).ui = completionMessages freshSession.ui ∧
      (runTicks 1 (List.replicate 40 ((15 : Int), quietEnv))
          freshSession).tracker.lastSavedTime
        = freshSession.tracker.lastSavedTime
          + elapsedTotal (List.replicate 40 ((15 : Int), quietEnv))) ∧
    (runTicks 1 (List.replicate 43 ((15 : Int), quietEnv)) freshSession
        = trackingTick sampleArgs 15 quietEnv
            (runTicks 1 (List.replicate 40 ((15 : Int), quietEnv)) freshSession) ∧
      (runTicks 1 (List.replicate 43 ((15 : Int), quietEnv)) freshSession).db =
        (markVideoComplete quietEnv.faults quietEnv.serverTime quietEnv.autoId
          (runTicks 1 (List.replicate 40 ((15 : Int), quietEnv)) freshSession).db
          sampleArgs.userId sampleArgs.videoId
          { duration := sampleArgs.videoDuration }).1 ∧
      (runTicks 1 (List.replicate 43 ((15 : Int), quietEnv)) freshSession).ui =
        (runTicks 1 (List.replicate 40 ((15 : Int), quietEnv)) freshSession).ui ++
          [UiEffect.updateProgressUI sampleArgs.videoId (some 100),
            UiEffect.showCompletionMessage sampleArgs.videoId] ++
          checkAndShowCertificateEligibility quietEnv.faults
            (markVideoComplete quietEnv.faults quietEnv.serverTime quietEnv.autoId
              (runTicks 1 (List.replicate 40 ((15 : Int), quietEnv)) freshSession).db
              sampleArgs.userId sampleArgs.videoId
              { duration := sampleArgs.videoDuration }).1
            sampleArgs.userId sampleVideo.programType ∧
      activeTimer 1 (runTicks 1 (List.replicate 43 ((15 : Int), quietEnv))
        freshSession).timers = none ∧
      completionMessages (runTicks 1 (List.replicate 43 ((15 : Int), quietEnv))
        freshSession).ui = completionMessages freshSession.ui + 1) :=
  have hvideo : freshSession.tracker.currentVideoData = some sampleVideo := by
    decide
  have hw40 : withinDuration freshSession.tracker.lastSavedTime
      sampleArgs.videoDuration (List.replicate 40 ((15 : Int), quietEnv)) = true := by
    decide
  have hw43 : withinDuration freshSession.tracker.lastSavedTime
      sampleArgs.videoDuration (List.replicate 43 ((15 : Int), quietEnv)) = false := by
    decide
  have hsum : freshSession.tracker.lastSavedTime
      + elapsedTotal (List.replicate 40 ((15 : Int), quietEnv)) + 15
      > sampleArgs.videoDuration := by
    decide
  have h40 := (completion_effects_once 1 sampleArgs sampleVideo
    (List.replicate 40 ((15 : Int), quietEnv)) freshSession
    freshSession_timer freshSession_handle hvideo).1 hw40
  have h43 := (completion_effects_once 1 sampleArgs sampleVideo
    (List.replicate 43 ((15 : Int), quietEnv)) freshSession
    freshSession_timer freshSession_handle hvideo).2.2
    (List.replicate 40 ((15 : Int), quietEnv)) ((15 : Int), quietEnv)
    (List.replicate 2 ((15 : Int), quietEnv)) rfl hw40 hsum
  ⟨⟨freshSession_timer, freshSession_handle, hvideo, hw40, hw43, hsum⟩,
    h40, h43.2.2⟩

/-! ## Duplicate certificates and the sampler -/

/-- C21: in the store with four of five videos completed the user `u` is
eligible for `jee`, and two successive calls of `generateCertificate` for `u`
and `jee` both succeed and leave two certificate records for that user and
program. -/
theorem duplicate_certificates_issued :
    (checkCertificateEligibility noFaults (fiveVideos 4) "u" "jee").eligible
        = some true ∧
      (generateCertificate noFaults 1700000000000 0 "c1" (fiveVideos 4) "u" "jee"
        "Asha").2.success = true ∧
      (generateCertificate noFaults 1700000060000 0 "c2"
        (generateCertificate noFaults 1700000000000 0 "c1" (fiveVideos 4) "u" "jee"
          "Asha").1
        "u" "jee" "Asha").2.success = true ∧
      (generateCertificate noFaults 1700000060000 0 "c2"
          (generateCertificate noFaults 1700000000000 0 "c1" (fiveVideos 4) "u" "jee"
            "Asha").1
          "u" "jee" "Asha").1.certificates.map
          (fun p => (p.1, p.2.userId, p.2.programType, p.2.status))
        = [("c1", "u", "jee", "issued"), ("c2", "u", "jee", "issued")] := by
  have hr := fiveVideos_four_result
  have h1 := generateCertificate_of_eligible noFaults 1700000000000 0 "c1"
    (fiveVideos 4) "u" "jee" "Asha" (by rw [hr]) (by rw [hr]) rfl
  rw [h1]
  have hsame : checkCertificateEligibility noFaults
      { fiveVideos 4 with
        certificates := (fiveVideos 4).certificates ++
          [("c1",
            ({ userId := "u", userName := "Asha", programType := "jee"
               issueDate := 0
               certificateId :=
                 "LAKSHYA-" ++ "jee".toUpper ++ "-" ++ toString (1700000000000 : Int)
               completionPercentage :=
                 (checkCertificateEligibility noFaults (fiveVideos 4) "u"
                   "jee").completionPercentage
               status := "issued" } : CertificateDoc))] }
      "u" "jee" = checkCertificateEligibility noFaults (fiveVideos 4) "u" "jee" :=
    checkCertificateEligibility_congr _ _ _ _ _ rfl rfl
  have h2 := generateCertificate_of_eligible noFaults 1700000060000 0 "c2" _
    "u" "jee" "Asha" (by rw [hsame, hr]) (by rw [hsame, hr]) rfl
  rw [h2]
  refine ⟨by rw [hr], rfl, rfl, ?_⟩
  simp only [List.map_append, List.map_cons, List.map_nil]
  rfl

/-- C22: the tracking part of `closeVideoModalWithTracking` is idempotent: from
every state of the client, calling it twice leaves the state that calling it
once leaves, in which the handle is `null`, `lastSavedTime` and
`startWatchTime` are 0, `currentVideoData` is `null` and the timer that the
handle named is not active. -/
theorem close_is_idempotent (w : World) :
    closeVideoModalWithTracking (closeVideoModalWithTracking w)
        = closeVideoModalWithTracking w ∧
      (closeVideoModalWithTracking w).tracker =
        { progressTrackingInterval := none
          lastSavedTime := 0
          startWatchTime := 0
          currentVideoData := none } ∧
      ∀ id, w.tracker.progressTrackingInterval = some id →
        activeTimer id (closeVideoModalWithTracking w).timers = none := by
  refine ⟨rfl, rfl, ?_⟩
  intro id hid
  show activeTimer id (clearInterval w.tracker.progressTrackingInterval w.timers) = none
  rw [hid]
  exact activeTimer_clearInterval_self id w.timers

/-- C22, witness: the running session on the sample video. -/
theorem close_is_idempotent_witness :
    freshSession.tracker.progressTrackingInterval = some 1 ∧
      closeVideoModalWithTracking (closeVideoModalWithTracking freshSession)
        = closeVideoModalWithTracking freshSession ∧
      activeTimer 1 (closeVideoModalWithTracking freshSession).timers = none :=
  ⟨freshSession_handle, (close_is_idempotent freshSession).1,
    (close_is_idempotent freshSession).2.2 1 freshSession_handle⟩

theorem clearInterval_of_handle (handle : Option Nat)
    (timers : List (Nat × TimerArgs))
    (h : ∀ t ∈ timers, handle = some t.1) : clearInterval handle timers = [] := by
  cases handle with
  | none =>
    cases timers with
    | nil => rfl
    | cons t rest => exact absurd (h t (List.mem_cons_self _ _)) (by simp)
  | some id =>
    unfold clearInterval
    simp only
    rw [List.filter_eq_nil_iff]
    intro t ht
    have := h t ht
    simp only [Option.some.injEq] at this
    simp [this]

theorem startVideoProgressTracking_timers (now : Int) (w : World)
    (videoId userId : String) (videoDuration : Int)
    (h : ∀ t ∈ w.timers, w.tracker.progressTrackingInterval = some t.1) :
    (startVideoProgressTracking now w videoId userId videoDuration).timers
        = [(w.nextTimerId,
            { videoId := videoId, userId := userId, videoDuration := videoDuration })] ∧
      (startVideoProgressTracking now w videoId userId
        videoDuration).tracker.progressTrackingInterval = some w.nextTimerId := by
  unfold startVideoProgressTracking
  simp only [clearInterval_of_handle _ _ h, List.nil_append, and_self]

theorem playVideoWithTracking_start (fl : Faults) (now : Int) (w : World)
    (userId : String) (video : Video) :
    ∃ w1 : World,
      playVideoWithTracking fl now w userId video
          = startVideoProgressTracking now w1 video.id userId (video.duration * 60) ∧
        w1.timers = w.timers ∧
        w1.tracker.progressTrackingInterval = w.tracker.progressTrackingInterval :=
  ⟨_, rfl, rfl, rfl⟩

theorem applyCall_single_timer (call : TrackerCall) (w : World)
    (h : ∀ t ∈ w.timers, w.tracker.progressTrackingInterval = some t.1)
    (hlen : w.timers.length ≤ 1) :
    (∀ t ∈ (applyCall call w).timers,
        (applyCall call w).tracker.progressTrackingInterval = some t.1) ∧
      (applyCall call w).timers.length ≤ 1 := by
  cases call with
  | play fl now userId video =>
    obtain ⟨w1, hw1, htimers, hhandle⟩ := playVideoWithTracking_start fl now w userId video
    simp only [applyCall]
    obtain ⟨h1, h2⟩ := startVideoProgressTracking_timers now w1 video.id userId
      (video.duration * 60) (by rw [htimers, hhandle]; exact h)
    rw [hw1, h1, h2]
    simp
  | start now videoId userId videoDuration =>
    simp only [applyCall]
    obtain ⟨h1, h2⟩ := startVideoProgressTracking_timers now w videoId userId
      videoDuration h
    rw [h1, h2]
    simp
  | close =>
    simp only [applyCall, closeVideoModalWithTracking,
      clearInterval_of_handle _ _ h]
    simp
  | tick id elapsedSeconds env =>
    simp only [applyCall, fireTimerElapsed]
    cases activeTimer id w.timers with
    | none => exact ⟨h, hlen⟩
    | some args =>
      by_cases hgt : w.tracker.lastSavedTime + elapsedSeconds > args.videoDuration
      · obtain ⟨_, htimers, htracker⟩ :=
          trackingTick_complete_db args elapsedSeconds env w hgt
        simp only
        rw [htimers, htracker, clearInterval_of_handle _ _ h]
        simp
      · simp only
        rw [trackingTick_continue args elapsedSeconds env w hgt]
        exact ⟨h, hlen⟩

theorem applyCalls_single_timer (calls : List TrackerCall) :
    ∀ w : World,
      (∀ t ∈ w.timers, w.tracker.progressTrackingInterval = some t.1) →
      w.timers.length ≤ 1 →
      (∀ t ∈ (applyCalls calls w).timers,
          (applyCalls calls w).tracker.progressTrackingInterval = some t.1) ∧
        (applyCalls calls w).timers.length ≤ 1 := by
  induction calls with
  | nil => intro w h hlen; exact ⟨h, hlen⟩
  | cons call rest ih =>
    intro w h hlen
    obtain ⟨h1, h2⟩ := applyCall_single_timer call w h hlen
    exact ih _ h1 h2

/-- C23: after every sequence of calls on the tracker of a fresh client
(opening a video, starting the tracking, closing the modal, timers coming
due), at most one sampling timer is active, and it is the one the handle
names; a further `startVideoProgressTracking` leaves its own timer as the only
active one. -/
theorem at_most_one_timer (calls : List TrackerCall) (db : Store) :
    (applyCalls calls (freshWorld db)).timers.length ≤ 1 ∧
      (∀ t ∈ (applyCalls calls (freshWorld db)).timers,
        (applyCalls calls (freshWorld db)).tracker.progressTrackingInterval
          = some t.1) ∧
      ∀ (now : Int) (videoId userId : String) (videoDuration : Int),
        (startVideoProgressTracking now (applyCalls calls (freshWorld db)) videoId
            userId videoDuration).timers
          = [((applyCalls calls (freshWorld db)).nextTimerId,
              { videoId := videoId, userId := userId
                videoDuration := videoDuration })] := by
  have hfresh : ∀ t ∈ (freshWorld db).timers,
      (freshWorld db).tracker.progressTrackingInterval = some t.1 := by
    intro t ht
    exact absurd ht (List.not_mem_nil t)
  obtain ⟨h1, h2⟩ := applyCalls_single_timer calls (freshWorld db) hfresh
    (Nat.zero_le 1)
  refine ⟨h2, h1, ?_⟩
  intro now videoId userId videoDuration
  exact (startVideoProgressTracking_timers now _ videoId userId videoDuration h1).1


/-! ## The number of videos still needed -/

/-- C24: whenever `checkCertificateEligibility` computes a result that is not
eligible for a program with videos, the number in its reason,
`ceil(totalVideos * 0.8) - completedCount`, is at least 1, that many further
completed videos make the ratio reach 80, and no smaller number does. -/
theorem needed_is_least (fl : Faults) (db : Store) (userId programType : String)
    (hq : fl StoreOp.videosQuery = none)
    (hp : fl StoreOp.videoProgressQuery = none)
    (hT : 0 < (videosOfProgram db programType).length)
    (hne : (checkCertificateEligibility fl db userId programType).eligible
      = some false) :
    (checkCertificateEligibility fl db userId programType).reason
        = some ("Need " ++ toString
            (⌈((videosOfProgram db programType).length : ℚ) * 0.8⌉
              - ((countCompleted (videosOfProgram db programType)
                  (completedVideoIds db userId) : Nat) : Int))
          ++ " more videos") ∧
      1 ≤ ⌈((videosOfProgram db programType).length : ℚ) * 0.8⌉
          - ((countCompleted (videosOfProgram db programType)
              (completedVideoIds db userId) : Nat) : Int) ∧
      completionRatio
          (countCompleted (videosOfProgram db programType)
              (completedVideoIds db userId)
            + (⌈((videosOfProgram db programType).length : ℚ) * 0.8⌉
                - ((countCompleted (videosOfProgram db programType)
                    (completedVideoIds db userId) : Nat) : Int)).toNat)
          (videosOfProgram db programType).length ≥ 80 ∧
      ∀ k : Nat,
        completionRatio
            (countCompleted (videosOfProgram db programType)
              (completedVideoIds db userId) + k)
            (videosOfProgram db programType).length ≥ 80 →
        ⌈((videosOfProgram db programType).length : ℚ) * 0.8⌉
            - ((countCompleted (videosOfProgram db programType)
                (completedVideoIds db userId) : Nat) : Int) ≤ k := by
  have hnot : ¬ 4 * (videosOfProgram db programType).length ≤
      5 * countCompleted (videosOfProgram db programType)
        (completedVideoIds db userId) := by
    rw [checkCertificateEligibility_computed fl db userId programType hq hp hT] at hne
    simpa using hne
  have hratio : ¬ completionRatio
      (countCompleted (videosOfProgram db programType) (completedVideoIds db userId))
      (videosOfProgram db programType).length ≥ 80 := by
    rw [completionRatio_ge_iff _ _ hT]
    exact hnot
  have hneeded := videosNeeded_eq
    (countCompleted (videosOfProgram db programType) (completedVideoIds db userId))
    (videosOfProgram db programType).length
  unfold videosNeeded at hneeded
  refine ⟨?_, ?_, ?_, ?_⟩
  · unfold checkCertificateEligibility
    simp only [hq, hp, hT.ne.symm, if_false]
    simp [hratio, videosNeeded]
  · rw [hneeded]
    omega
  · rw [completionRatio_ge_iff _ _ hT, hneeded]
    omega
  · intro k hk
    rw [completionRatio_ge_iff _ _ hT] at hk
    rw [hneeded]
    omega

/-- C24, witness: three of five videos completed: one more video is needed. -/
theorem needed_is_least_witness :
    (noFaults StoreOp.videosQuery = none ∧
      noFaults StoreOp.videoProgressQuery = none ∧
      0 < (videosOfProgram (fiveVideos 3) "jee").length ∧
      (checkCertificateEligibility noFaults (fiveVideos 3) "u" "jee").eligible
        = some false) ∧
    1 ≤ ⌈((videosOfProgram (fiveVideos 3) "jee").length : ℚ) * 0.8⌉
        - ((countCompleted (videosOfProgram (fiveVideos 3) "jee")
            (completedVideoIds (fiveVideos 3) "u") : Nat) : Int) ∧
    ∀ k : Nat,
      completionRatio
          (countCompleted (videosOfProgram (fiveVideos 3) "jee")
            (completedVideoIds (fiveVideos 3) "u") + k)
          (videosOfProgram (fiveVideos 3) "jee").length ≥ 80 →
      ⌈((videosOfProgram (fiveVideos 3) "jee").length : ℚ) * 0.8⌉
          - ((countCompleted (videosOfProgram (fiveVideos 3) "jee")
              (completedVideoIds (fiveVideos 3) "u") : Nat) : Int) ≤ k :=
  have hT : 0 < (videosOfProgram (fiveVideos 3) "jee").length := by
    rw [fiveVideos_total]
    decide
  have hne : (checkCertificateEligibility noFaults (fiveVideos 3) "u" "jee").eligible
      = some false := by
    rw [checkCertificateEligibility_computed noFaults (fiveVideos 3) "u" "jee" rfl rfl hT]
    simp only [fiveVideos_total, fiveVideos_three]
    decide
  ⟨⟨rfl, rfl, hT, hne⟩,
    (needed_is_least noFaults (fiveVideos 3) "u" "jee" rfl rfl hT hne).2.1,
    (needed_is_least noFaults (fiveVideos 3) "u" "jee" rfl rfl hT hne).2.2.2⟩

/-! ## `markVideoComplete` and a failed write -/

/-- C25, the code at the failing input: for the user `u` at 585 seconds of the
video `v`, with the write of the progress record throwing, the inner
`saveVideoProgress` fails, `markVideoComplete` returns `success = true`, the
progress record is the old one with `completed = false`, and the
`userProgress` document lists `v` among the completed videos. -/
theorem markVideoComplete_success_without_record :
    (saveVideoProgress progressSetDown 0 savedAt585 "u" "v"
        { currentTime := 600, duration := 600, watchedDuration := 0
          completed := true }).2
        = { success := false, error := some "unavailable" } ∧
      (markVideoComplete progressSetDown 0 "auto" savedAt585 "u" "v"
        { duration := 600 }).2 = { success := true, error := none } ∧
      (getDoc (progressKey "u" "v")
          (markVideoComplete progressSetDown 0 "auto" savedAt585 "u" "v"
            { duration := 600 }).1.videoProgress).map
          (fun r => (r.currentTime, r.completed))
        = some (585, false) ∧
      (markVideoComplete progressSetDown 0 "auto" savedAt585 "u" "v"
          { duration := 600 }).1.userProgress
        = [("auto",
            { userId := "u", videosWatched := ["v"], completedVideos := ["v"]
              lastActivity := 0 })] := by
  decide


/-! ## Lemmas on updated and deleted documents -/

theorem getDoc_updateDoc_self {α : Type} (id : String) (f : α → α)
    (c : List (String × α)) :
    getDoc id (updateDoc id f c) = (getDoc id c).map f := by
  induction c with
  | nil => rfl
  | cons p rest ih =>
    obtain ⟨k, v⟩ := p
    by_cases h : k = id
    · simp [updateDoc, getDoc, h]
    · simp [updateDoc, getDoc, h, ih]

theorem getDoc_deleteDoc_self {α : Type} (id : String) (c : List (String × α)) :
    getDoc id (deleteDoc id c) = none := by
  induction c with
  | nil => rfl
  | cons p rest ih =>
    obtain ⟨k, v⟩ := p
    by_cases h : k = id
    · simpa [deleteDoc, List.filter, h] using ih
    · simpa [deleteDoc, List.filter, h, getDoc] using ih

/-! ## MCQ tests -/

/-- C26, the code at the failing input: the test `t1` has two questions and
`totalQuestions = 2`; `updateMCQTest` with a payload that carries only a title
succeeds and leaves the two questions with `totalQuestions = 0`. -/
theorem updateMCQTest_title_only_resets_totalQuestions :
    (getDoc "t1" sampleTests).map (fun d => (d.questions.length, d.totalQuestions))
        = some (2, 2) ∧
      (updateMCQTest noTestFaults 9 sampleTests "t1" titleOnly).2.success = true ∧
      (getDoc "t1" (updateMCQTest noTestFaults 9 sampleTests "t1" titleOnly).1).map
          (fun d => (d.title, d.questions.length, d.totalQuestions))
        = some ("Algebra II", 2, 0) := by
  decide

theorem question_editing_keeps_totalQuestions (fl : TestFaults) (serverTime : Int)
    (tests : List (String × McqTestDoc)) (testId : String) :
    (∀ (autoId : String) (currentUser : Option String) (testData : TestData),
      (createMCQTest fl serverTime autoId currentUser tests testData).2.success = true →
      ∃ d, (createMCQTest fl serverTime autoId currentUser tests testData).1
            = tests ++ [(autoId, d)] ∧
          d.totalQuestions = d.questions.length) ∧
    (∀ (testData : TestUpdate) (qs : List Question),
      testData.questions = some qs →
      (updateMCQTest fl serverTime tests testId testData).2.success = true →
      ∃ d, getDoc testId (updateMCQTest fl serverTime tests testId testData).1 = some d ∧
          d.totalQuestions = d.questions.length) ∧
    (∀ (question : Question),
      (addQuestionToTest fl serverTime tests testId question).2.success = true →
      ∃ d, getDoc testId (addQuestionToTest fl serverTime tests testId question).1
            = some d ∧
          d.totalQuestions = d.questions.length) ∧
    (∀ (questionIndex : Int) (updatedQuestion : Question) (doc : McqTestDoc),
      getDoc testId tests = some doc →
      doc.totalQuestions = doc.questions.length →
      ∃ d, getDoc testId (updateQuestionInTest fl serverTime tests testId
            questionIndex updatedQuestion).1 = some d ∧
          d.totalQuestions = d.questions.length) ∧
    (∀ (questionIndex : Int),
      (deleteQuestionFromTest fl serverTime tests testId questionIndex).2.success
        = true →
      ∃ d, getDoc testId (deleteQuestionFromTest fl serverTime tests testId
            questionIndex).1 = some d ∧
          d.totalQuestions = d.questions.length) := by
  refine ⟨?_, ?_, ?_, ?_, ?_⟩
  · intro autoId currentUser testData hs
    unfold createMCQTest at hs ⊢
    cases currentUser with
    | none => simp [testFailure] at hs
    | some uid =>
      cases hadd : fl TestStoreOp.add with
      | some msg => simp [hadd, testFailure] at hs
      | none =>
        refine ⟨_, rfl, ?_⟩
        cases testData.questions <;> rfl
  · intro testData qs hqs hs
    unfold updateMCQTest at hs ⊢
    cases hupd : fl TestStoreOp.update with
    | some msg => simp [hupd, testFailure] at hs
    | none =>
      cases hdoc : getDoc testId tests with
      | none => simp [hupd, hdoc, testFailure] at hs
      | some doc =>
        simp only
        rw [getDoc_updateDoc_self, hdoc]
        exact ⟨_, rfl, by simp [applyTestUpdate, hqs]⟩
  · intro question hs
    unfold addQuestionToTest at hs ⊢
    cases hget : fl TestStoreOp.get with
    | some msg => simp [hget, testFailure] at hs
    | none =>
      cases hdoc : getDoc testId tests with
      | none => simp [hget, hdoc, testFailure] at hs
      | some doc =>
        cases hupd : fl TestStoreOp.update with
        | some msg => simp [hget, hdoc, hupd, testFailure] at hs
        | none =>
          simp only
          rw [getDoc_updateDoc_self, hdoc]
          exact ⟨_, rfl, rfl⟩
  · intro questionIndex updatedQuestion doc hdoc hinv
    unfold updateQuestionInTest
    cases hget : fl TestStoreOp.get with
    | some msg => exact ⟨doc, hdoc, hinv⟩
    | none =>
      simp only [hdoc]
      split
      · exact ⟨doc, hdoc, hinv⟩
      · cases hupd : fl TestStoreOp.update with
        | some msg => exact ⟨doc, hdoc, hinv⟩
        | none =>
          simp only
          rw [getDoc_updateDoc_self, hdoc]
          refine ⟨_, rfl, ?_⟩
          simp only [List.length_set]
          exact hinv
  · intro questionIndex hs
    unfold deleteQuestionFromTest at hs ⊢
    cases hget : fl TestStoreOp.get with
    | some msg => simp [hget, testFailure] at hs
    | none =>
      cases hdoc : getDoc testId tests with
      | none => simp [hget, hdoc, testFailure] at hs
      | some doc =>
        simp only [hget, hdoc] at hs ⊢
        split at hs
        · simp [testFailure] at hs
        · rename_i hidx
          simp only [hidx, if_false]
          cases hupd : fl TestStoreOp.update with
          | some msg => simp [hupd, testFailure] at hs
          | none =>
            simp only
            rw [getDoc_updateDoc_self, hdoc]
            exact ⟨_, rfl, rfl⟩


/-- C28: for an existing test with `n` questions and an index `i` with
`0 <= i < n`, when the store calls succeed, `deleteQuestionFromTest` leaves
the questions before the `i`-th followed by those after it, in their order,
stores and returns `totalQuestions = n - 1`, and changes no other field of the
test than `updatedAt`. -/
theorem delete_removes_indexed_question (fl : TestFaults) (serverTime : Int)
    (tests : List (String × McqTestDoc)) (testId : String) (questionIndex : Int)
    (doc : McqTestDoc)
    (hget : fl TestStoreOp.get = none) (hupd : fl TestStoreOp.update = none)
    (hdoc : getDoc testId tests = some doc)
    (h0 : 0 ≤ questionIndex) (hn : questionIndex < doc.questions.length) :
    (deleteQuestionFromTest fl serverTime tests testId questionIndex).2 =
        { success := true, id := none
          totalQuestions := some (doc.questions.length - 1), error := none } ∧
      getDoc testId (deleteQuestionFromTest fl serverTime tests testId
          questionIndex).1 =
        some
          { doc with
            questions :=
              doc.questions.take questionIndex.toNat ++
                doc.questions.drop (questionIndex.toNat + 1)
            totalQuestions := doc.questions.length - 1
            updatedAt := some serverTime } := by
  have hidx : ¬ (questionIndex < 0 ∨ questionIndex ≥ doc.questions.length) := by
    omega
  have hlt : questionIndex.toNat < doc.questions.length := by omega
  have hlen : (doc.questions.eraseIdx questionIndex.toNat).length
      = doc.questions.length - 1 := List.length_eraseIdx_of_lt hlt
  have herase : doc.questions.eraseIdx questionIndex.toNat
      = doc.questions.take questionIndex.toNat ++
        doc.questions.drop (questionIndex.toNat + 1) :=
    List.eraseIdx_eq_take_drop_succ _ _
  unfold deleteQuestionFromTest
  simp only [hget, hupd, hdoc, hidx, if_false]
  rw [getDoc_updateDoc_self, hdoc, hlen, herase]
  exact ⟨rfl, rfl⟩

/-- C28, witness: the first of the two questions of the test `t1`. -/
theorem delete_removes_indexed_question_witness :
    (noTestFaults TestStoreOp.get = none ∧ noTestFaults TestStoreOp.update = none ∧
      (getDoc "t1" sampleTests).map (fun d => d.questions) = some sampleQuestions ∧
      (0 : Int) ≤ 0 ∧ (0 : Int) < sampleQuestions.length) ∧
    (deleteQuestionFromTest noTestFaults 9 sampleTests "t1" 0).2 =
      { success := true, id := none
        totalQuestions := some (sampleQuestions.length - 1), error := none } ∧
    (getDoc "t1" (deleteQuestionFromTest noTestFaults 9 sampleTests "t1" 0).1).map
        (fun d => d.questions)
      = some (sampleQuestions.take 0 ++ sampleQuestions.drop 1) :=
  have hdoc : getDoc "t1" sampleTests =
      some
        { programType := "jee", title := "Algebra", description := "Basics"
          questions := sampleQuestions, totalQuestions := 2
          timeLimit := some 30, passingScore := some 40, createdAt := 0
          createdBy := "admin", attempts := 0, averageScore := 0
          updatedAt := none } := by decide
  have h := delete_removes_indexed_question noTestFaults 9 sampleTests "t1" 0 _
    rfl rfl hdoc (by decide) (by decide)
  ⟨⟨rfl, rfl, by decide, by decide, by decide⟩, h.1, by rw [h.2]; rfl⟩

/-- C29: when the store calls succeed, `updateQuestionInTest` and
`deleteQuestionFromTest` fail with 'Invalid question index' exactly when the
test exists and the index is negative or at least the number of its
questions, fail with 'Test not found' exactly when the test does not exist,
and leave the store unchanged in both cases. -/
theorem invalid_index_and_missing_test (serverTime : Int)
    (tests : List (String × McqTestDoc)) (testId : String) (questionIndex : Int)
    (updatedQuestion : Question) :
    (((updateQuestionInTest noTestFaults serverTime tests testId questionIndex
            updatedQuestion).2.error = some "Invalid question index" ↔
          ∃ doc, getDoc testId tests = some doc ∧
            (questionIndex < 0 ∨ questionIndex ≥ doc.questions.length)) ∧
        ((updateQuestionInTest noTestFaults serverTime tests testId questionIndex
            updatedQuestion).2.error = some "Test not found" ↔
          getDoc testId tests = none) ∧
        ((updateQuestionInTest noTestFaults serverTime tests testId questionIndex
            updatedQuestion).2.error ≠ none →
          (updateQuestionInTest noTestFaults serverTime tests testId questionIndex
              updatedQuestion).2.success = false ∧
            (updateQuestionInTest noTestFaults serverTime tests testId questionIndex
              updatedQuestion).1 = tests)) ∧
      (((deleteQuestionFromTest noTestFaults serverTime tests testId
            questionIndex).2.error = some "Invalid question index" ↔
          ∃ doc, getDoc testId tests = some doc ∧
            (questionIndex < 0 ∨ questionIndex ≥ doc.questions.length)) ∧
        ((deleteQuestionFromTest noTestFaults serverTime tests testId
            questionIndex).2.error = some "Test not found" ↔
          getDoc testId tests = none) ∧
        ((deleteQuestionFromTest noTestFaults serverTime tests testId
            questionIndex).2.error ≠ none →
          (deleteQuestionFromTest noTestFaults serverTime tests testId
              questionIndex).2.success = false ∧
            (deleteQuestionFromTest noTestFaults serverTime tests testId
              questionIndex).1 = tests)) := by
  constructor
  · unfold updateQuestionInTest
    cases hdoc : getDoc testId tests with
    | none => simp [noTestFaults, testFailure]
    | some doc =>
      by_cases hidx : questionIndex < 0 ∨ questionIndex ≥ doc.questions.length
      · simp [noTestFaults, testFailure, hidx]
      · simp [noTestFaults, testFailure, hidx]
  · unfold deleteQuestionFromTest
    cases hdoc : getDoc testId tests with
    | none => simp [noTestFaults, testFailure]
    | some doc =>
      by_cases hidx : questionIndex < 0 ∨ questionIndex ≥ doc.questions.length
      · simp [noTestFaults, testFailure, hidx]
      · simp [noTestFaults, testFailure, hidx]

/-- C29, witness: the index 2 on the test `t1` of two questions. -/
theorem invalid_index_and_missing_test_witness :
    (deleteQuestionFromTest noTestFaults 9 sampleTests "t1" 2).2.error
        = some "Invalid question index" ∧
      (deleteQuestionFromTest noTestFaults 9 sampleTests "t1" 2).2.success = false ∧
      (deleteQuestionFromTest noTestFaults 9 sampleTests "t1" 2).1 = sampleTests :=
  have h := (invalid_index_and_missing_test 9 sampleTests "t1" 2
    { question := "", options := [], correctAnswer := 0, marks := 0 }).2
  have herr : (deleteQuestionFromTest noTestFaults 9 sampleTests "t1" 2).2.error
      = some "Invalid question index" := by decide
  ⟨herr, (h.2.2 (by rw [herr]; exact Option.some_ne_none _)).1,
    (h.2.2 (by rw [herr]; exact Option.some_ne_none _)).2⟩


/-! ## Votes on forum posts -/

/-- C27, the code at the failing input: on the post `p1`, whose counters are 0
with no recorded vote, a first `'down'` vote of the user `u` succeeds and
leaves `downvotes = -1` with one recorded `'down'` vote; and on the post on
which `u` has voted down, with `downvotes = 1`, the vote `'up'` leaves
`upvotes = 2` and `downvotes = 1` with one recorded `'up'` vote and no
`'down'` vote. -/
theorem votePost_down_breaks_counters :
    (getDoc "p1" freshForum).map
        (fun p => (p.upvotes, countVotes VoteType.up p.votes,
          p.downvotes, countVotes VoteType.down p.votes))
        = some (0, 0, 0, 0) ∧
      (votePost noForumFaults 5 freshForum "p1" "u" VoteType.down).2.success = true ∧
      (getDoc "p1" (votePost noForumFaults 5 freshForum "p1" "u" VoteType.down).1).map
          (fun p => (p.upvotes, countVotes VoteType.up p.votes,
            p.downvotes, countVotes VoteType.down p.votes))
        = some (0, 0, -1, 1) ∧
      (getDoc "p1" downvotedForum).map
          (fun p => (p.upvotes, countVotes VoteType.up p.votes,
            p.downvotes, countVotes VoteType.down p.votes))
        = some (0, 0, 1, 1) ∧
      (getDoc "p1" (votePost noForumFaults 5 downvotedForum "p1" "u" VoteType.up).1).map
          (fun p => (p.upvotes, countVotes VoteType.up p.votes,
            p.downvotes, countVotes VoteType.down p.votes))
        = some (2, 1, 1, 0) := by
  decide

theorem votePost_new_vote (serverTime : Int) (posts : List (String × ForumPost))
    (postId userId : String) (voteType : VoteType) (post : ForumPost)
    (hpost : getDoc postId posts = some post)
    (hvote : getDoc userId post.votes = none) :
    (votePost noForumFaults serverTime posts postId userId voteType).2.success = true ∧
      getDoc postId (votePost noForumFaults serverTime posts postId userId voteType).1 =
        some
          { upvotes := post.upvotes + (if voteType = VoteType.up then 1 else 0)
            downvotes := post.downvotes + (if voteType = VoteType.down then -1 else 0)
            votes :=
              upsertDoc userId
                (fun _ => { voteType := voteType, timestamp := serverTime })
                post.votes } := by
  unfold votePost
  simp only [noForumFaults, hpost, hvote]
  cases voteType <;>
    simp [updateVoteCounts, setVote, noForumFaults, getDoc_updateDoc_self, hpost]

theorem votePost_repeated_vote (serverTime : Int)
    (posts : List (String × ForumPost)) (postId userId : String)
    (voteType : VoteType) (post : ForumPost) (vote : VoteDoc)
    (hpost : getDoc postId posts = some post)
    (hvote : getDoc userId post.votes = some vote)
    (hsame : vote.voteType = voteType) :
    (votePost noForumFaults serverTime posts postId userId voteType).2.success = true ∧
      getDoc postId (votePost noForumFaults serverTime posts postId userId voteType).1 =
        some
          { upvotes := post.upvotes + (if voteType = VoteType.up then -1 else 0)
            downvotes := post.downvotes + (if voteType = VoteType.down then 1 else 0)
            votes := deleteDoc userId post.votes } := by
  unfold votePost
  simp only [noForumFaults, hpost, hvote, hsame, if_true]
  cases voteType <;>
    simp [updateVoteCounts, removeVote, noForumFaults, getDoc_updateDoc_self, hpost]

theorem votePost_changed_vote (serverTime : Int)
    (posts : List (String × ForumPost)) (postId userId : String)
    (voteType : VoteType) (post : ForumPost) (vote : VoteDoc)
    (hpost : getDoc postId posts = some post)
    (hvote : getDoc userId post.votes = some vote)
    (hother : vote.voteType ≠ voteType) :
    (votePost noForumFaults serverTime posts postId userId voteType).2.success = true ∧
      getDoc postId (votePost noForumFaults serverTime posts postId userId voteType).1 =
        some
          { upvotes := post.upvotes + (if voteType = VoteType.up then 2 else 0)
            downvotes := post.downvotes + (if voteType = VoteType.down then -2 else 0)
            votes :=
              upsertDoc userId
                (fun _ => { voteType := voteType, timestamp := serverTime })
                post.votes } := by
  unfold votePost
  simp only [noForumFaults, hpost, hvote, hother, if_false]
  cases voteType <;>
    simp [updateVoteCounts, setVote, noForumFaults, getDoc_updateDoc_self, hpost]


/-- C30 (amended): on an existing post, with store calls that succeed, two
calls of `votePost` in a row by the same user with the same vote type restore
the vote of the user (absent, or present with its type) and both counters
when the user had no vote or a vote of that type before the first call; when
the user had a vote of the other type, the two calls leave the user without a
vote. -/
theorem vote_twice_restores (serverTime1 serverTime2 : Int)
    (posts : List (String × ForumPost)) (postId userId : String)
    (voteType : VoteType) (post : ForumPost)
    (hpost : getDoc postId posts = some post) :
    ((∀ v, getDoc userId post.votes = some v → v.voteType = voteType) →
        (votePost noForumFaults serverTime1 posts postId userId voteType).2.success
            = true ∧
          (votePost noForumFaults serverTime2
            (votePost noForumFaults serverTime1 posts postId userId voteType).1
            postId userId voteType).2.success = true ∧
          ∃ after, getDoc postId
                (votePost noForumFaults serverTime2
                  (votePost noForumFaults serverTime1 posts postId userId voteType).1
                  postId userId voteType).1 = some after ∧
              (getDoc userId after.votes).map (fun v => v.voteType)
                = (getDoc userId post.votes).map (fun v => v.voteType) ∧
              after.upvotes = post.upvotes ∧ after.downvotes = post.downvotes) ∧
      (∀ v, getDoc userId post.votes = some v → v.voteType ≠ voteType →
        ∃ after, getDoc postId
              (votePost noForumFaults serverTime2
                (votePost noForumFaults serverTime1 posts postId userId voteType).1
                postId userId voteType).1 = some after ∧
            getDoc userId after.votes = none) := by
  constructor
  · intro hprior
    cases hvote : getDoc userId post.votes with
    | none =>
      obtain ⟨hs1, hp1⟩ := votePost_new_vote serverTime1 posts postId userId voteType
        post hpost hvote
      obtain ⟨hs2, hp2⟩ := votePost_repeated_vote serverTime2 _ postId userId voteType
        _ { voteType := voteType, timestamp := serverTime1 } hp1
        (getDoc_upsertDoc_self _ _ _) rfl
      refine ⟨hs1, hs2, _, hp2, ?_, ?_, ?_⟩
      · simp only [getDoc_deleteDoc_self, Option.map_none']
      · cases voteType <;> simp
      · cases voteType <;> simp
    | some v =>
      have hsame := hprior v hvote
      obtain ⟨hs1, hp1⟩ := votePost_repeated_vote serverTime1 posts postId userId
        voteType post v hpost hvote hsame
      obtain ⟨hs2, hp2⟩ := votePost_new_vote serverTime2 _ postId userId voteType
        _ hp1 (getDoc_deleteDoc_self _ _)
      refine ⟨hs1, hs2, _, hp2, ?_, ?_, ?_⟩
      · simp only [getDoc_upsertDoc_self, Option.map_some', hsame]
      · cases voteType <;> simp
      · cases voteType <;> simp
  · intro v hvote hother
    obtain ⟨_, hp1⟩ := votePost_changed_vote serverTime1 posts postId userId voteType
      post v hpost hvote hother
    obtain ⟨_, hp2⟩ := votePost_repeated_vote serverTime2 _ postId userId voteType
      _ { voteType := voteType, timestamp := serverTime1 } hp1
      (getDoc_upsertDoc_self _ _ _) rfl
    exact ⟨_, hp2, getDoc_deleteDoc_self _ _⟩

/-- C30, witness: the user `u` votes down twice on the post on which `u` has
voted down. -/
theorem vote_twice_restores_witness :
    ((getDoc "p1" downvotedForum).map (fun p => (p.upvotes, p.downvotes))
        = some (0, 1) ∧
      ∀ v, getDoc "u"
          ({ upvotes := 0, downvotes := 1
             votes := [("u", { voteType := VoteType.down, timestamp := 0 })] }
            : ForumPost).votes = some v →
        v.voteType = VoteType.down) ∧
    ∃ after, getDoc "p1"
          (votePost noForumFaults 6
            (votePost noForumFaults 5 downvotedForum "p1" "u" VoteType.down).1
            "p1" "u" VoteType.down).1 = some after ∧
        (getDoc "u" after.votes).map (fun v => v.voteType)
          = (getDoc "u"
              ({ upvotes := 0, downvotes := 1
                 votes := [("u", { voteType := VoteType.down, timestamp := 0 })] }
                : ForumPost).votes).map (fun v => v.voteType) ∧
        after.upvotes = 0 ∧ after.downvotes = 1 :=
  have hprior : ∀ v, getDoc "u"
      ({ upvotes := 0, downvotes := 1
         votes := [("u", { voteType := VoteType.down, timestamp := 0 })] }
        : ForumPost).votes = some v → v.voteType = VoteType.down := by
    intro v hv
    simp only [getDoc, if_true, Option.some.injEq] at hv
    rw [← hv]
  ⟨⟨by decide, hprior⟩,
    ((vote_twice_restores 5 6 downvotedForum "p1" "u" VoteType.down _
      (by decide)).1 hprior).2.2⟩

/-- C30, counterexample: the user `u` has voted down on the post `p1`, whose
counters are 0 and 1; after two `'up'` votes in a row the user has no vote,
and `upvotes` is 1. -/
theorem vote_twice_after_other_vote_not_restored :
    (getDoc "p1" downvotedForum).map
        (fun p => ((getDoc "u" p.votes).map (fun v => v.voteType),
          p.upvotes, p.downvotes))
        = some (some VoteType.down, 0, 1) ∧
      (getDoc "p1"
          (votePost noForumFaults 6
            (votePost noForumFaults 5 downvotedForum "p1" "u" VoteType.up).1
            "p1" "u" VoteType.up).1).map
          (fun p => ((getDoc "u" p.votes).map (fun v => v.voteType),
            p.upvotes, p.downvotes))
        = some (none, 1, 1) := by
  decide

end Lakshya
